import Mathlib

/-!
# eeprommer: AT28C256 programmer firmware (controller.cpp)

A shallow embedding of `controller.cpp`.  The firmware state (the globals `mode` and
`status` and the AVR I/O registers) is threaded explicitly through every function.
The devices wired to the pins are modelled alongside, so that register writes have
their effect on them at the moment they happen:

* the 74HC595 pair: a 16-bit shift stage clocked by the rising edge of SRCLK (PORTB bit 3),
  taking the SER line (PORTC bit 4), and an output latch loaded by the rising edge of
  RCLK (PORTB bit 4);
* the EEPROM: it stores the byte on the data lines at the latched address at the end of a
  write pulse (WE and CE both low), and drives the data lines while CE and OE are low;
* the serial link: a stream of incoming bytes with read-deadline gaps, and the list of
  bytes written so far.

Integers of the AVR (`byte`, 16-bit `unsigned int`) are natural numbers reduced
`% 256` or `% 65536` where the C expression can leave the range.
-/

namespace Eeprommer

/-! ## Data model -/

inductive MODE where
  | STANDBY
  | READ
  | WRITE
  deriving DecidableEq, Repr

inductive STATUS where
  | OK
  | ERR_INVALID
  | ERR_RESET
  | ERR_CORRUPT
  | ERR_UNEXPECTED
  | ERR_UNKNOWN
  deriving DecidableEq, Repr

def MAX_PAYLOAD_SIZE : Nat := 63
def DELAY_MICROS : Nat := 10
def SPEED : Nat := 12
def DOTLEN : Nat := 1200 / SPEED
def DASHLEN : Nat := 3 * DOTLEN

/-- Observable events: busy-wait delays, the status LED, the clock edges seen by the 74HC595
pair, the bytes stored by the EEPROM and the bytes written to the serial link. -/
inductive Ev where
  | delayUs (n : Nat)
  | delayMs (n : Nat)
  | led (lit : Bool)
  | shift (bit : Nat)
  | latch (addr : Nat)
  | store (addr : Nat) (val : Nat)
  | sent (b : Nat)
  deriving DecidableEq, Repr

/-- A memory region seen through a `byte *`: index to byte. -/
abbrev Buf := Nat → Nat

/-- The EEPROM: `mem` are its cells; `busy n = some b` says that the chip is still inside a
write cycle at its `n`-th read strobe and presents `b` instead of the stored byte there;
`strobes` counts the read strobes completed so far. -/
structure Eeprom where
  mem : Nat → Nat
  busy : Nat → Option Nat
  strobes : Nat

/-- Uninitialised stack memory: whatever a fresh local array holds. -/
structure Stack where
  junk : Buf

/-- The firmware globals, the I/O registers and the devices behind the pins.

* `floatB`, `floatD`: the levels found on pins that nobody drives.
* `shiftReg`, `addrLatch`: shift stage and output latch of the 74HC595 pair.
* `rx`: what the host sends, `some b` a byte and `none` a silence longer than the read
  deadline; `tx`: the bytes written to the host.
* `log`: the events so far, the latest first. -/
structure State where
  mode : MODE
  status : STATUS
  DDRB : Nat
  DDRD : Nat
  PORTB : Nat
  PORTC : Nat
  PORTD : Nat
  floatB : Nat
  floatD : Nat
  shiftReg : Nat
  addrLatch : Nat
  chip : Eeprom
  rx : List (Option Nat)
  tx : List Nat
  stack : Stack
  log : List Ev

/-! ## Pins and devices -/

/-- The macro `bitRead(value, bit)`. -/
def bitRead (value bit : Nat) : Nat := (value >>> bit) &&& 1

/-- EEPROM outputs enabled: CE (PORTC bit 2) and OE (PORTC bit 1) both low. -/
def chipDriving (portc : Nat) : Bool := bitRead portc 2 == 0 && bitRead portc 1 == 0

/-- EEPROM write pulse: WE (PORTC bit 0) and CE (PORTC bit 2) both low. -/
def writePulse (portc : Nat) : Bool := bitRead portc 0 == 0 && bitRead portc 2 == 0

/-- The byte the EEPROM presents on its data pins when it drives them. -/
def chipData (s : State) : Nat :=
  match s.chip.busy s.chip.strobes with
  | some b => b % 256
  | none => s.chip.mem (s.addrLatch % 0x8000) % 256

/-- Levels of the eight pins of a port: a pin configured as output shows its PORT bit,
an input pin shows the level applied from outside. -/
def pins (ddr port ext : Nat) : Nat :=
  ((port &&& ddr) ||| (ext &&& (255 ^^^ ddr))) % 256

/-- Levels applied from outside to port D: data bits 0..5 on D2..D7 while the chip drives. -/
def extD (s : State) : Nat :=
  if chipDriving s.PORTC then (s.floatD &&& 0b00000011) ||| (chipData s <<< 2) else s.floatD

/-- Levels applied from outside to port B: data bits 6..7 on B0..B1 while the chip drives. -/
def extB (s : State) : Nat :=
  if chipDriving s.PORTC then (s.floatB &&& 0b11111100) ||| (chipData s >>> 6) else s.floatB

/-- The input register `PIND`. -/
def PIND (s : State) : Nat := pins s.DDRD s.PORTD (extD s)

/-- The input register `PINB`. -/
def PINB (s : State) : Nat := pins s.DDRB s.PORTB (extB s)

/-- Source: `readDataBus`, `return (PIND >> 2) | (PINB << 6);` truncated to `byte`. -/
def readDataBus (s : State) : Nat := ((PIND s >>> 2) ||| (PINB s <<< 6)) % 256

/-- Function update of a memory or a buffer. -/
def setAt (f : Nat → Nat) (i v : Nat) : Nat → Nat := fun j => if j = i then v else f j

/-- Assignment to `PORTC`, with the EEPROM reacting to its control lines: at the end of a
write pulse the byte on the data lines is stored at the latched address, and a read strobe
that ends is counted. -/
def writePORTC (v : Nat) (s : State) : State :=
  let s1 : State :=
    if writePulse s.PORTC && !writePulse v then
      { s with chip := { s.chip with mem := setAt s.chip.mem (s.addrLatch % 0x8000) (readDataBus s) },
               log := Ev.store (s.addrLatch % 0x8000) (readDataBus s) :: s.log }
    else s
  let s2 : State :=
    if chipDriving s.PORTC && !chipDriving v then
      { s1 with chip := { s1.chip with strobes := s1.chip.strobes + 1 } }
    else s1
  { s2 with PORTC := v }

/-- Assignment to `PORTB`, with the 74HC595 pair reacting to its clocks: a rising edge of
SRCLK (bit 3) shifts the SER level (PORTC bit 4) in, a rising edge of RCLK (bit 4) copies
the shift stage to the outputs. -/
def writePORTB (v : Nat) (s : State) : State :=
  let s1 : State :=
    if bitRead s.PORTB 3 == 0 && bitRead v 3 == 1 then
      { s with shiftReg := (s.shiftReg * 2 + bitRead s.PORTC 4) % 65536,
               log := Ev.shift (bitRead s.PORTC 4) :: s.log }
    else s
  let s2 : State :=
    if bitRead s.PORTB 4 == 0 && bitRead v 4 == 1 then
      { s1 with addrLatch := s1.shiftReg, log := Ev.latch s1.shiftReg :: s1.log }
    else s1
  { s2 with PORTB := v }

def delayMicroseconds (n : Nat) (s : State) : State := { s with log := Ev.delayUs n :: s.log }

def delay (n : Nat) (s : State) : State := { s with log := Ev.delayMs n :: s.log }

/-- Source: `digitalWrite(STATUS_LED, level)`; the status LED is pin 10, PORTB bit 2. -/
def digitalWriteLED (high : Bool) (s : State) : State :=
  let s1 := if high then writePORTB (s.PORTB ||| 0b00000100) s
            else writePORTB (s.PORTB &&& 0b11111011) s
  { s1 with log := Ev.led high :: s1.log }

/-! ## Bus mode controller -/

def enterStandbyMode (s : State) : State :=
  let s1 : State :=
    if s.mode ≠ MODE.STANDBY then
      let s := { s with DDRD := s.DDRD &&& 0b00000011 }
      let s := { s with DDRB := s.DDRB &&& 0b11111100 }
      let s := writePORTC (s.PORTC ||| 0b00000101) s
      let s := writePORTC (s.PORTC &&& 0b11111101) s
      delayMicroseconds DELAY_MICROS s
    else s
  { s1 with mode := MODE.STANDBY }

def enterReadMode (s : State) : State :=
  let s1 : State :=
    if s.mode ≠ MODE.READ then
      let s := { s with DDRD := s.DDRD &&& 0b00000011 }
      let s := { s with DDRB := s.DDRB &&& 0b11111100 }
      let s := writePORTC (s.PORTC ||| 0b00000001) s
      let s := writePORTC (s.PORTC &&& 0b11111001) s
      delayMicroseconds DELAY_MICROS s
    else s
  { s1 with mode := MODE.READ }

def enterWriteMode (s : State) : State :=
  let s1 : State :=
    if s.mode ≠ MODE.WRITE then
      let s := { s with DDRD := s.DDRD ||| 0b11111100 }
      let s := { s with DDRB := s.DDRB ||| 0b00000011 }
      let s := writePORTC (s.PORTC ||| 0b00000011) s
      let s := writePORTC (s.PORTC &&& 0b11111011) s
      delayMicroseconds DELAY_MICROS s
    else s
  { s1 with mode := MODE.WRITE }

/-! ## Address sequencer and data bus -/

/-- The `for (int i = 15; i >= 0; i--)` loop of `setAddress`, with `n = i + 1` rounds left. -/
def setAddressLoop (address : Nat) : Nat → State → State
  | 0, s => s
  | i + 1, s =>
    let s := if bitRead address i ≠ 0 then writePORTC (s.PORTC ||| 0b00010000) s
             else writePORTC (s.PORTC &&& 0b11101111) s
    let s := writePORTB (s.PORTB ||| 0b00001000) s
    let s := writePORTB (s.PORTB &&& 0b11110111) s
    setAddressLoop address i s

def setAddress (address : Nat) (s : State) : State :=
  let s := setAddressLoop address 16 s
  let s := writePORTB (s.PORTB ||| 0b00010000) s
  writePORTB (s.PORTB &&& 0b11101111) s

def writeDataBus (value : Nat) (s : State) : State :=
  let s := { s with PORTD := ((s.PORTD &&& 0b00000011) ||| (value <<< 2)) % 256 }
  writePORTB (((s.PORTB &&& 0b11111100) ||| (value >>> 6)) % 256) s

/-! ## Packet transport -/

/-- Source: `Serial.write(b)` of one byte. -/
def serialWrite (b : Nat) (s : State) : State :=
  { s with tx := s.tx ++ [b % 256], log := Ev.sent (b % 256) :: s.log }

/-- Source: `Serial.write(packet, length)`. -/
def serialWriteBuf (packet : Buf) (length : Nat) (s : State) : State :=
  { s with tx := s.tx ++ (List.range length).map packet,
           log := ((List.range length).map (fun i => Ev.sent (packet i))).reverse ++ s.log }

/-- The loop `do { lenByte = Serial.read(); } while (lenByte == -1);` over the incoming
stream: the first byte that arrives and what follows it, or `none` when no byte ever
arrives and the loop spins forever. -/
def readLenByte : List (Option Nat) → Option (Nat × List (Option Nat))
  | [] => none
  | none :: r => readLenByte r
  | some b :: r => some (b, r)

/-- Source: `Serial.readBytes(buffer, n)`: the bytes that arrive before the read deadline,
at most `n`, and what is left of the stream. -/
def readBytes : Nat → List (Option Nat) → List Nat × List (Option Nat)
  | 0, r => ([], r)
  | _ + 1, [] => ([], [])
  | _ + 1, none :: r => ([], r)
  | n + 1, some b :: r => ((readBytes n r).1.cons b, (readBytes n r).2)

/-- The bytes `bs` stored at the start of `buffer`. -/
def storeBytes (buffer : Buf) (bs : List Nat) : Buf := fun i => bs.getD i (buffer i)

/-- The first half of `sendPacket`: the length byte, then the payload. -/
def sendFrame (packet : Buf) (length : Nat) (s : State) : State :=
  let s := serialWrite length s
  if length > 0 then serialWriteBuf packet length s else s

/-- Source: `sendAckPacket`, that is `sendPacket(NULL, 0, false)`, which returns 0. -/
def sendAckPacket (s : State) : Int × State := (0, sendFrame (fun _ => 0) 0 s)

/-- Source: `receivePacket`.  Returns the `int` result, the buffer and the state, or `none`
when it waits for a length byte forever. -/
def receivePacket (buffer : Buf) (maxLength : Nat) (sendAck : Bool) (s : State) :
    Option (Int × Buf × State) :=
  match readLenByte s.rx with
  | none => none
  | some (lenByte, r) =>
    let got := if lenByte > 0 then readBytes (min lenByte maxLength) r else ([], r)
    let buffer := if lenByte > 0 then storeBytes buffer got.1 else buffer
    let lenReceived := got.1.length
    let s := { s with rx := got.2 }
    if lenByte > 0 ∧ lenReceived ≠ lenByte then
      some (-1, buffer, { s with status := STATUS.ERR_CORRUPT })
    else if sendAck then
      let sent := sendAckPacket s
      if sent.1 = -1 then some (-1, buffer, sent.2) else some ((lenReceived : Int), buffer, sent.2)
    else some ((lenReceived : Int), buffer, s)

/-- Source: `sendPacket`. -/
def sendPacket (packet : Buf) (length : Nat) (waitForAck : Bool) (s : State) :
    Option (Int × State) :=
  let s := sendFrame packet length s
  if waitForAck then
    match receivePacket s.stack.junk MAX_PAYLOAD_SIZE false s with
    | none => none
    | some (ackLen, buffer, s) =>
      if ackLen ≠ 0 then
        if ackLen = 1 ∧ buffer 0 = 0x73 then
          some (-1, { s with status := STATUS.ERR_RESET })
        else if ackLen ≠ 1 then
          some (-1, { s with status := STATUS.ERR_UNEXPECTED })
        else
          some (-1, { s with status := STATUS.ERR_UNKNOWN })
      else some (0, s)
  else some (0, s)

/-! ## Byte transfer engine -/

def readChipByte (address : Nat) (s : State) : Nat × State :=
  let s := enterReadMode s
  let s := setAddress address s
  let value := readDataBus s
  let s := enterStandbyMode s
  (value, s)

def writeChipByte (address : Nat) (value : Nat) (s : State) : State :=
  let s := setAddress address s
  let s := enterWriteMode s
  let s := writeDataBus value s
  let s := writePORTC (s.PORTC &&& 0b11111010) s
  let s := delayMicroseconds 1 s
  let s := writePORTC (s.PORTC ||| 0b00000101) s
  enterStandbyMode s

/-- One round of the inner `for` loop of `waitForChip`: the sample and the state. -/
def waitSample (s : State) : Nat × State :=
  let s := delayMicroseconds 2 s
  let s := writePORTC (s.PORTC &&& 0b11111001) s
  let s := delayMicroseconds 2 s
  let value := PINB s &&& 1
  let s := writePORTC (s.PORTC ||| 0b00000110) s
  (value, s)

/-- The `do ... while` loop of `waitForChip`; `fuel` bounds the number of rounds and
`none` says that the bound was reached. -/
def waitForChipLoop : Nat → State → Option State
  | 0, _ => none
  | fuel + 1, s =>
    let r0 := waitSample s
    let r1 := waitSample r0.2
    let r2 := waitSample r1.2
    if r0.1 ≠ r1.1 ∨ r1.1 ≠ r2.1 then waitForChipLoop fuel r2.2 else some r2.2

def waitForChip (fuel : Nat) (s : State) : Option State :=
  let s := { s with DDRB := s.DDRB &&& 0b11111110 }
  let s := writePORTC (s.PORTC ||| 0b00000111) s
  match waitForChipLoop fuel s with
  | none => none
  | some s => some (enterStandbyMode s)

/-! ## Bulk transfer engine -/

/-- The `for` loop of `writeChipPage`, with `n` rounds left. -/
def writeChipPageLoop (address : Nat) (data : Buf) : Nat → Nat → State → State
  | 0, _, s => s
  | n + 1, idx, s =>
    let s := writeChipByte ((address + idx) % 65536) (data idx) s
    let s := delayMicroseconds 1 s
    writeChipPageLoop address data n (idx + 1) s

def writeChipPage (address : Nat) (data : Buf) (length : Nat) (fuel : Nat) (s : State) :
    Option State :=
  let s := writeChipPageLoop address data length 0 s
  let s := delay 1 s
  waitForChip fuel s

/-- The `while (idx < length)` loop of `loadChip`; `n` bounds the number of rounds.  The
`int packetLen` becomes the `unsigned int` argument of `writeChipPage` and is added to the
`unsigned int idx`, both modulo 2^16. -/
def loadChipLoop (length : Nat) (fuel : Nat) : Nat → Nat → Buf → State → Option State
  | 0, _, _, _ => none
  | n + 1, idx, packet, s =>
    if idx < length then
      match receivePacket packet (MAX_PAYLOAD_SIZE + 1) false s with
      | none => none
      | some (packetLen, packet, s) =>
        match writeChipPage idx packet (packetLen % 65536).toNat fuel s with
        | none => none
        | some s =>
          let s := (sendAckPacket s).2
          loadChipLoop length fuel n (((idx : Int) + packetLen) % 65536).toNat packet s
    else some s

def loadChip (length : Nat) (fuel : Nat) (s : State) : Option State :=
  let s := (sendAckPacket s).2
  loadChipLoop length fuel fuel 0 s.stack.junk s

/-- How the `for` loop of `dumpChipBytes` ends: by `return`, or by running to its end. -/
inductive DumpLoop where
  | ret (code : Int) (s : State)
  | done (packet : Buf) (packetIdx : Nat) (s : State)

/-- Lines 285-287 of `dumpChipBytes`: read one byte into the chunk buffer. -/
def dumpRead (address : Nat) (packet : Buf) (packetIdx : Nat) (s : State) : Buf × State :=
  let s := setAddress address s
  let value := readDataBus s
  (setAt packet packetIdx value, s)

/-- The `for` loop of `dumpChipBytes`, with `n` rounds left. -/
def dumpLoop : Nat → Nat → Buf → Nat → State → Option DumpLoop
  | 0, _, packet, packetIdx, s => some (DumpLoop.done packet packetIdx s)
  | n + 1, address, packet, _, s =>
    let packetIdx := address % MAX_PAYLOAD_SIZE
    if address > 0 ∧ packetIdx = 0 then
      match sendPacket packet MAX_PAYLOAD_SIZE true s with
      | none => none
      | some (packetStatus, s) =>
        if packetStatus = -1 then some (DumpLoop.ret (-1) (enterStandbyMode s))
        else
          let r := dumpRead address packet packetIdx s
          dumpLoop n (address + 1) r.1 packetIdx r.2
    else
      let r := dumpRead address packet packetIdx s
      dumpLoop n (address + 1) r.1 packetIdx r.2

/-- Lines 290-296 of `dumpChipBytes`, what follows the `for` loop: a `return` inside the loop
has ended the function; otherwise Standby mode is entered and the bytes left in the chunk
buffer are sent. -/
def dumpFinish : Option DumpLoop → Option (Int × State)
  | none => none
  | some (DumpLoop.ret code s) => some (code, s)
  | some (DumpLoop.done packet packetIdx s) =>
    let s := enterStandbyMode s
    if packetIdx > 0 then sendPacket packet (packetIdx + 1) true s else some (0, s)

def dumpChipBytes (s : State) : Option (Int × State) :=
  let s := enterReadMode s
  dumpFinish (dumpLoop 0x8000 0 s.stack.junk 0 s)

/-! ## Diagnostics -/

def dotLED (s : State) : State :=
  let s := digitalWriteLED true s
  let s := delay DOTLEN s
  let s := digitalWriteLED false s
  delay DOTLEN s

def dashLED (s : State) : State :=
  let s := digitalWriteLED true s
  let s := delay DASHLEN s
  let s := digitalWriteLED false s
  delay DOTLEN s

def handleError (s : State) : State :=
  let s1 : State :=
    match s.status with
    | STATUS.ERR_CORRUPT => dotLED (dashLED (dotLED (dashLED s)))
    | STATUS.ERR_RESET => dotLED (dashLED (dotLED s))
    | STATUS.ERR_UNEXPECTED => dashLED (dotLED (dotLED (dashLED s)))
    | STATUS.ERR_UNKNOWN => dashLED (dotLED (dotLED s))
    | STATUS.ERR_INVALID => dashLED (dotLED (dotLED (dotLED s)))
    | STATUS.OK => s
  { s1 with status := STATUS.OK }

/-! ## Command dispatch -/

/-- The 16-bit `unsigned int` argument `(packet[1] << 8) + packet[2]`. -/
def argWord (packet : Buf) : Nat := ((packet 1 <<< 8) + packet 2) % 65536

/-- The branch `cmd == 0x74` of `loop`: the page-write experiment. -/
def testCommand (fuel : Nat) (s : State) : Option State :=
  let testData : Buf := fun i => if i < 63 then i else s.stack.junk i
  match writeChipPage 16 testData 63 fuel s with
  | none => none
  | some s =>
    match writeChipPage 128 testData 63 fuel s with
    | none => none
    | some s =>
      let r := readChipByte 9 s
      match sendPacket (fun _ => r.1) 1 false r.2 with
      | none => none
      | some (_, s) => some s

/-- The `if (packetLen > 0) { ... }` statement of `loop`. -/
def dispatch (packet : Buf) (packetLen : Int) (fuel : Nat) (s : State) : Option State :=
  if packetLen > 0 then
    let cmd := packet 0
    if cmd = 0x72 ∧ packetLen = 3 then
      let s := dashLED s
      let r := readChipByte (argWord packet) s
      match sendPacket (fun _ => r.1) 1 false r.2 with
      | none => none
      | some (_, s) => some s
    else if cmd = 0x64 ∧ packetLen = 1 then
      match dumpChipBytes s with
      | none => none
      | some (_, s) => some s
    else if cmd = 0x77 ∧ packetLen = 4 then
      let s := writeChipByte (argWord packet) (packet 3) s
      let s := delay 1 s
      waitForChip fuel s
    else if cmd = 0x6c ∧ packetLen = 3 then
      loadChip (argWord packet) fuel s
    else if cmd = 0x73 ∧ packetLen = 1 then
      some s
    else if cmd = 0x74 then
      testCommand fuel s
    else
      some { s with status := STATUS.ERR_INVALID }
  else some s

/-- The body of the `while (Serial.available() > 0)` loop of `loop`: one command frame is
received and handled.  `fuel` bounds the rounds of every polling loop. -/
def loopBody (fuel : Nat) (s : State) : Option State :=
  match receivePacket s.stack.junk (MAX_PAYLOAD_SIZE + 1) false s with
  | none => none
  | some (packetLen, packet, s) =>
    let s := digitalWriteLED true s
    match dispatch packet packetLen fuel s with
    | none => none
    | some s => some (digitalWriteLED false s)

/-! ## The reference variant (dummy-writer.cpp): the byte write

A shallow embedding of `write` of `dummy-writer.cpp` and of what it calls.  This variant
drives every pin with `digitalWrite` and `pinMode`; the board is the level last written to
each pin, the direction of each pin, and the log of these calls. -/

namespace DummyWriter

/-- The calls of the Arduino primitives, as events. -/
inductive PinEv where
  | write (pin : Nat) (high : Bool)
  | dir (pin : Nat) (output : Bool)
  | delayUs (n : Nat)
  deriving DecidableEq, Repr

/-- The global `mode`, the level last written to each pin, the direction of each pin, and
the events so far, the latest first. -/
structure Board where
  mode : MODE
  level : Nat → Bool
  output : Nat → Bool
  log : List PinEv

/-- The analog pins `A0` .. `A4` of the ATmega328 boards are the digital pins 14 .. 18. -/
def A0 : Nat := 14
def A1 : Nat := 15
def A2 : Nat := 16
def A3 : Nat := 17
def A4 : Nat := 18

def DELAY_MICROS : Nat := 10
def EEPROM_WE : Nat := A0
def EEPROM_OE : Nat := A1
def EEPROM_CE : Nat := A2
def DATA_PINS : List Nat := [2, 3, 4, 5, 6, 7, 8, 9]
def SHIFT_SER : Nat := A4
def SHIFT_SER_CLK : Nat := 11
def SHIFT_REG_CLK : Nat := 12

def digitalWrite (pin : Nat) (high : Bool) (b : Board) : Board :=
  { b with level := fun p => if p = pin then high else b.level p,
           log := PinEv.write pin high :: b.log }

def pinMode (pin : Nat) (output : Bool) (b : Board) : Board :=
  { b with output := fun p => if p = pin then output else b.output p,
           log := PinEv.dir pin output :: b.log }

def delayMicroseconds (n : Nat) (b : Board) : Board :=
  { b with log := PinEv.delayUs n :: b.log }

def pulsePin (pinNo : Nat) (activeHigh : Bool) (b : Board) : Board :=
  let b := digitalWrite pinNo (if activeHigh then true else false) b
  let b := delayMicroseconds DELAY_MICROS b
  let b := digitalWrite pinNo (if activeHigh then false else true) b
  delayMicroseconds DELAY_MICROS b

/-- The loop `for (unsigned int i = 0; i < 8; i++) pinMode(DATA_PINS[i], ...)` of the three
mode functions, with `n` rounds left. -/
def dataPinsLoop (output : Bool) : Nat → Nat → Board → Board
  | 0, _, b => b
  | n + 1, i, b => dataPinsLoop output n (i + 1) (pinMode (DATA_PINS.getD i 0) output b)

def enterStandbyMode (b : Board) : Board :=
  let b1 : Board :=
    if b.mode ≠ MODE.STANDBY then
      let b := dataPinsLoop false 8 0 b
      let b := digitalWrite EEPROM_CE true b
      let b := digitalWrite EEPROM_OE false b
      let b := digitalWrite EEPROM_WE true b
      delayMicroseconds DELAY_MICROS b
    else b
  { b1 with mode := MODE.STANDBY }

def enterWriteMode (b : Board) : Board :=
  let b1 : Board :=
    if b.mode ≠ MODE.WRITE then
      let b := dataPinsLoop true 8 0 b
      let b := digitalWrite EEPROM_CE false b
      let b := digitalWrite EEPROM_OE true b
      let b := digitalWrite EEPROM_WE true b
      delayMicroseconds DELAY_MICROS b
    else b
  { b1 with mode := MODE.WRITE }

/-- The `for (int i = 15; i >= 0; i--)` loop of `setAddressPins`, with `n = i + 1` rounds
left. -/
def setAddressPinsLoop (address : Nat) : Nat → Board → Board
  | 0, b => b
  | i + 1, b =>
    let bit := (address >>> i) &&& 1
    let b := digitalWrite SHIFT_SER (if bit ≠ 0 then true else false) b
    let b := delayMicroseconds DELAY_MICROS b
    let b := pulsePin SHIFT_SER_CLK true b
    setAddressPinsLoop address i b

def setAddressPins (address : Nat) (b : Board) : Board :=
  let b := setAddressPinsLoop address 16 b
  let b := delayMicroseconds DELAY_MICROS b
  pulsePin SHIFT_REG_CLK true b

/-- The loop of `write` that loads the data pins (lines 217-220), with `n` rounds left:
`int bit = (address >> i) & 1; digitalWrite(DATA_PINS[i], bit ? HIGH : LOW);`. -/
def writeLoop (address : Nat) : Nat → Nat → Board → Board
  | 0, _, b => b
  | n + 1, i, b =>
    let bit := (address >>> i) &&& 1
    writeLoop address n (i + 1)
      (digitalWrite (DATA_PINS.getD i 0) (if bit ≠ 0 then true else false) b)

/-- Source: `write(address, value)` of `dummy-writer.cpp`.  The parameter `value` is not
used by the body. -/
def write (address : Nat) (_value : Nat) (b : Board) : Board :=
  let b := setAddressPins address b
  let b := enterWriteMode b
  let b := writeLoop address 8 0 b
  let b := delayMicroseconds DELAY_MICROS b
  let b := pulsePin EEPROM_WE false b
  enterStandbyMode b

/-- The byte on the data bus: bit `i` is the level of `DATA_PINS[i]`. -/
def dataBus (b : Board) : Nat :=
  ((List.range 8).map (fun i => if b.level (DATA_PINS.getD i 0) then 2 ^ i else 0)).sum

/-- A board at rest between two commands: Standby mode, CE and WE high, every other pin
low, the control pins outputs and the data pins inputs. -/
def restBoard : Board :=
  { mode := MODE.STANDBY,
    level := fun p => p = EEPROM_CE || p = EEPROM_WE,
    output := fun p => 10 ≤ p,
    log := [] }

end DummyWriter

/-! ## Reference states -/

/-- A state at rest between two commands: Standby mode with CE and WE high and OE low, the
LED, clock and clear pins of port B outputs, the clear line high, an erased chip that is not
inside a write cycle, and `rx` waiting on the serial link. -/
def bootState (rx : List (Option Nat)) : State :=
  { mode := MODE.STANDBY, status := STATUS.OK,
    DDRB := 0b00111100, DDRD := 0, PORTB := 0b00100000, PORTC := 0b00000101, PORTD := 0,
    floatB := 0, floatD := 0, shiftReg := 0, addrLatch := 0,
    chip := { mem := fun _ => 0xFF, busy := fun _ => none, strobes := 0 },
    rx := rx, tx := [], stack := { junk := fun _ => 0 }, log := [] }

/-- Both clock lines of the 74HC595 pair are low, as every function leaves them. -/
def ClocksIdle (s : State) : Prop := bitRead s.PORTB 3 = 0 ∧ bitRead s.PORTB 4 = 0

/-- The EEPROM is not inside a write cycle: at every read strobe it presents the stored byte. -/
def ChipIdle (s : State) : Prop := ∀ n, s.chip.busy n = none

/-- The state between two commands: Standby, both clocks low, WE and CE high. -/
def AtRest (s : State) : Prop :=
  s.mode = MODE.STANDBY ∧ ClocksIdle s ∧ bitRead s.PORTC 0 = 1 ∧ bitRead s.PORTC 2 = 1

/-- The clock edges of one `setAddress(address)` in the order in which they happen: bits
15 down to 0 of the address shifted in, then the latch pulse. -/
def shiftEvents (address : Nat) : List Ev :=
  (List.range 16).reverse.map (fun i => Ev.shift (bitRead address i)) ++
    [Ev.latch (address % 65536)]

/-- The state in which `readChipByte(address)` samples the data bus: Read mode entered and
the address latched. -/
def readPoint (address : Nat) (s : State) : State := setAddress address (enterReadMode s)

/-- Two states in which `readDataBus` sees the same pins once the same address is latched:
same pin directions, same data `PORT` bits, same floating levels, same EEPROM and the same
state of its output enable. -/
def SameBus (s t : State) : Prop :=
  t.DDRD = s.DDRD ∧ t.DDRB = s.DDRB ∧ t.PORTD = s.PORTD ∧ t.PORTB &&& 3 = s.PORTB &&& 3 ∧
  t.floatB = s.floatB ∧ t.floatD = s.floatD ∧ t.chip = s.chip ∧
  chipDriving t.PORTC = chipDriving s.PORTC

/-- Packet `k` of a dump as it goes over the serial link, `rd a` being the byte read at
address `a`: the 520 packets of 63 bytes, then the packet of the last 8 bytes. -/
def dumpPacket (rd : Nat → Nat) (k : Nat) : List Nat :=
  (if k < 520 then 63 else 8) ::
    (List.range (if k < 520 then 63 else 8)).map (fun j => rd (63 * k + j))

/-- The 63-byte packet whose payload is chunk `k` of what `rd` reads. -/
def chunkPacket (rd : Nat → Nat) (k : Nat) : List Nat :=
  63 :: (List.range 63).map (fun j => rd (63 * k + j))

/-- The events of one Morse element on the status LED in the order in which they happen:
LED on, its time lit (`DASHLEN` for a dash, `DOTLEN` for a dot), LED off, the gap. -/
def signalEvents (dash : Bool) : List Ev :=
  [Ev.led true, Ev.delayMs (if dash then DASHLEN else DOTLEN), Ev.led false, Ev.delayMs DOTLEN]

/-- The events of a sequence of Morse elements, `true` a dash and `false` a dot. -/
def morseEvents (p : List Bool) : List Ev := p.flatMap signalEvents

/-- The dot/dash sequence the specification gives for each status, `true` a dash and `false`
a dot: C is dash dot dash dot, R is dot dash dot, X is dash dot dot dash, U is dot dot dash,
V is dot dot dot dash. -/
def morse : STATUS → List Bool
  | STATUS.ERR_CORRUPT => [true, false, true, false]
  | STATUS.ERR_RESET => [false, true, false]
  | STATUS.ERR_UNEXPECTED => [true, false, false, true]
  | STATUS.ERR_UNKNOWN => [false, false, true]
  | STATUS.ERR_INVALID => [false, false, false, true]
  | STATUS.OK => []

/-- The state after the first two statements of `waitForChip` (lines 396-397): pin B0 an
input, and CE, OE and WE high. -/
def pollStart (s : State) : State :=
  writePORTC (s.PORTC ||| 0b00000111) { s with DDRB := s.DDRB &&& 0b11111110 }

/-- What the sampling code of `waitForChip` reads from `PINB & 1` when the EEPROM is at its
read strobe number `n`. -/
def pollBit (s : State) (n : Nat) : Nat :=
  (waitSample { s with chip := { s.chip with strobes := n } }).1

/-- The sample stream of one call of `waitForChip`: `pollSample s j` is sample number `j`,
counted from 1, taken at the `j`-th read strobe after the start. -/
def pollSample (s : State) (j : Nat) : Nat :=
  pollBit (pollStart s) ((pollStart s).chip.strobes + (j - 1))

/-- The three samples of round `k`, counted from 1, are equal: samples `3k-2`, `3k-1`, `3k`. -/
def RoundAgrees (s : State) (k : Nat) : Prop :=
  pollSample s (3 * k - 2) = pollSample s (3 * k - 1) ∧
  pollSample s (3 * k - 1) = pollSample s (3 * k)

/-- The state after one sample of `waitForChip` taken with WE and CE high before: CE and OE
are high again, one more read strobe is over, and two delays have passed. -/
def sampleNext (s : State) : State :=
  { s with PORTC := (s.PORTC &&& 0b11111001) ||| 0b00000110,
           chip := { s.chip with strobes := s.chip.strobes + 1 },
           log := Ev.delayUs 2 :: Ev.delayUs 2 :: s.log }

/-- The state of `bootState` with the EEPROM inside a write cycle: at its next read strobes
it presents the bytes `bs`, one after the other, and after them the stored byte. -/
def busyState (bs : List Nat) : State :=
  { bootState [] with
    chip := { mem := fun _ => 0xFF, busy := fun n => bs.get? n, strobes := 0 } }

/-- The byte writes the EEPROM has seen, in the order in which they happened: the pairs
(cell, value) of the store events of a log (whose latest event comes first). -/
def writesOf : List Ev → List (Nat × Nat)
  | [] => []
  | Ev.store a v :: l => writesOf l ++ [(a, v)]
  | _ :: l => writesOf l

/-- The chunks of a load as the host sends them: each chunk is one frame, its length byte
followed by its bytes. -/
def chunkFrames (chunks : List (List Nat)) : List (Option Nat) :=
  chunks.flatMap (fun c => some c.length :: c.map some)

/-- The events of one frame on the serial link, the latest first: the length byte, then the
payload bytes. -/
def frameEvents (packet : Buf) (length : Nat) : List Ev :=
  ((List.range length).map (fun i => Ev.sent (packet i))).reverse ++ [Ev.sent (length % 256)]

/-- The state of `bootState` with the control lines as `setup()` leaves them: CE, OE and WE
are made outputs and never written, and the `enterStandbyMode()` of `setup()` returns at once
because `mode` is STANDBY from the start, so that all three lines are low. -/
def setupState (rx : List (Option Nat)) : State := { bootState rx with PORTC := 0 }

/-- The events by which a load shows on the bus and on the serial link: an address latched by
`setAddress`, a byte stored by the EEPROM, a delay of 2 microseconds of the sampling loop of
`waitForChip` (the only delays of that length), and a byte sent to the host. -/
def isLoadOp : Ev → Bool
  | Ev.latch _ => true
  | Ev.store _ _ => true
  | Ev.sent _ => true
  | Ev.delayUs n => n == 2
  | _ => false

/-- Those events of a log (whose latest event comes first), in the order in which they
happened. -/
def opsOf (log : List Ev) : List Ev := (log.filter isLoadOp).reverse

/-- The byte held by the output latches of the data pins, `PORTD` bits 2..7 and `PORTB` bits
0..1: what the data lines carry as soon as the pins become outputs. -/
def portByte (s : State) : Nat := (((s.PORTD % 256) >>> 2) ||| (s.PORTB <<< 6)) % 256

/-- The events of the call `writeChipByte(address + j, data[j])` of `writeChipPage`, the
address being an `unsigned int`: the address is latched, then the EEPROM stores the byte. -/
def byteOps (address : Nat) (data : Buf) (j : Nat) : List Ev :=
  [Ev.latch ((address + j) % 65536), Ev.store ((address + j) % 65536 % 0x8000) (data j)]

/-- The events `x` put behind the first event of a list. -/
def afterFirst (x : List Ev) : List Ev → List Ev
  | [] => []
  | e :: l => e :: (x ++ l)

/-- The events of the byte writes `writeChipByte(i, b[i])` for `i = idx .. idx + n - 1` in
ascending order: for each, address `i` is latched and the EEPROM stores `b[i]` in cell `i`
modulo its 32768 cells. -/
def writeOps (b : List Nat) (idx n : Nat) : List Ev :=
  (List.range n).flatMap
    (fun j => [Ev.latch (idx + j), Ev.store ((idx + j) % 0x8000) (b.getD (idx + j) 0)])

/-- The events of a load of the bytes `b` that arrive in the given chunks, from index `idx`
on: for each chunk its byte writes, then the write-completion wait (one round of three
samples, two delays each), then one empty ack. -/
def loadOps (b : List Nat) : Nat → List (List Nat) → List Ev
  | _, [] => []
  | idx, c :: cs =>
    writeOps b idx c.length ++ List.replicate 6 (Ev.delayUs 2) ++
      Ev.sent 0 :: loadOps b (idx + c.length) cs

/-! ## Frame lemmas for the primitives -/

@[simp] theorem writePORTC_frame (v : Nat) (s : State) :
    (writePORTC v s).mode = s.mode ∧ (writePORTC v s).status = s.status ∧
    (writePORTC v s).DDRB = s.DDRB ∧ (writePORTC v s).DDRD = s.DDRD ∧
    (writePORTC v s).PORTB = s.PORTB ∧ (writePORTC v s).PORTC = v ∧
    (writePORTC v s).PORTD = s.PORTD ∧ (writePORTC v s).floatB = s.floatB ∧
    (writePORTC v s).floatD = s.floatD ∧ (writePORTC v s).shiftReg = s.shiftReg ∧
    (writePORTC v s).addrLatch = s.addrLatch ∧ (writePORTC v s).rx = s.rx ∧
    (writePORTC v s).tx = s.tx ∧ (writePORTC v s).stack = s.stack ∧
    (writePORTC v s).chip.busy = s.chip.busy := by
  unfold writePORTC; split_ifs <;> simp

@[simp] theorem writePORTB_frame (v : Nat) (s : State) :
    (writePORTB v s).mode = s.mode ∧ (writePORTB v s).status = s.status ∧
    (writePORTB v s).DDRB = s.DDRB ∧ (writePORTB v s).DDRD = s.DDRD ∧
    (writePORTB v s).PORTB = v ∧ (writePORTB v s).PORTC = s.PORTC ∧
    (writePORTB v s).PORTD = s.PORTD ∧ (writePORTB v s).floatB = s.floatB ∧
    (writePORTB v s).floatD = s.floatD ∧ (writePORTB v s).chip = s.chip ∧
    (writePORTB v s).rx = s.rx ∧ (writePORTB v s).tx = s.tx ∧
    (writePORTB v s).stack = s.stack := by
  unfold writePORTB; split_ifs <;> simp

@[simp] theorem delayMicroseconds_frame (n : Nat) (s : State) :
    (delayMicroseconds n s).mode = s.mode ∧ (delayMicroseconds n s).status = s.status ∧
    (delayMicroseconds n s).DDRB = s.DDRB ∧ (delayMicroseconds n s).DDRD = s.DDRD ∧
    (delayMicroseconds n s).PORTB = s.PORTB ∧ (delayMicroseconds n s).PORTC = s.PORTC ∧
    (delayMicroseconds n s).PORTD = s.PORTD ∧ (delayMicroseconds n s).floatB = s.floatB ∧
    (delayMicroseconds n s).floatD = s.floatD ∧ (delayMicroseconds n s).shiftReg = s.shiftReg ∧
    (delayMicroseconds n s).addrLatch = s.addrLatch ∧ (delayMicroseconds n s).chip = s.chip ∧
    (delayMicroseconds n s).rx = s.rx ∧ (delayMicroseconds n s).tx = s.tx ∧
    (delayMicroseconds n s).stack = s.stack ∧
    (delayMicroseconds n s).log = Ev.delayUs n :: s.log := by
  simp [delayMicroseconds]

@[simp] theorem delay_frame (n : Nat) (s : State) :
    (delay n s).mode = s.mode ∧ (delay n s).status = s.status ∧
    (delay n s).DDRB = s.DDRB ∧ (delay n s).DDRD = s.DDRD ∧
    (delay n s).PORTB = s.PORTB ∧ (delay n s).PORTC = s.PORTC ∧
    (delay n s).PORTD = s.PORTD ∧ (delay n s).floatB = s.floatB ∧
    (delay n s).floatD = s.floatD ∧ (delay n s).shiftReg = s.shiftReg ∧
    (delay n s).addrLatch = s.addrLatch ∧ (delay n s).chip = s.chip ∧
    (delay n s).rx = s.rx ∧ (delay n s).tx = s.tx ∧ (delay n s).stack = s.stack ∧
    (delay n s).log = Ev.delayMs n :: s.log := by
  simp [delay]

/-! ## Bus mode controller -/

theorem enterStandbyMode_same (s : State) (h : s.mode = MODE.STANDBY) : enterStandbyMode s = s := by
  cases s; simp_all [enterStandbyMode]

theorem enterReadMode_same (s : State) (h : s.mode = MODE.READ) : enterReadMode s = s := by
  cases s; simp_all [enterReadMode]

theorem enterWriteMode_same (s : State) (h : s.mode = MODE.WRITE) : enterWriteMode s = s := by
  cases s; simp_all [enterWriteMode]

@[simp] theorem enterStandbyMode_mode (s : State) : (enterStandbyMode s).mode = MODE.STANDBY := rfl

@[simp] theorem enterReadMode_mode (s : State) : (enterReadMode s).mode = MODE.READ := rfl

@[simp] theorem enterWriteMode_mode (s : State) : (enterWriteMode s).mode = MODE.WRITE := rfl

/-- C10: each of `enterStandbyMode`, `enterReadMode` and `enterWriteMode` leaves the whole
state as it is (pin directions, control lines, mode, and the event log, so that no settle
delay elapses) when the mode already is its target; hence entering the same mode twice in a
row leaves the state of entering it once. -/
theorem C10_enter_same_mode_noop (s : State) :
    (s.mode = MODE.STANDBY → enterStandbyMode s = s) ∧
    (s.mode = MODE.READ → enterReadMode s = s) ∧
    (s.mode = MODE.WRITE → enterWriteMode s = s) ∧
    enterStandbyMode (enterStandbyMode s) = enterStandbyMode s ∧
    enterReadMode (enterReadMode s) = enterReadMode s ∧
    enterWriteMode (enterWriteMode s) = enterWriteMode s :=
  ⟨enterStandbyMode_same s, enterReadMode_same s, enterWriteMode_same s,
   enterStandbyMode_same _ rfl, enterReadMode_same _ rfl, enterWriteMode_same _ rfl⟩

theorem C10_enter_same_mode_noop_witness :
    enterStandbyMode (bootState []) = bootState [] ∧
    enterReadMode (enterReadMode (bootState [])) = enterReadMode (bootState []) :=
  ⟨(C10_enter_same_mode_noop (bootState [])).1 rfl,
   (C10_enter_same_mode_noop (bootState [])).2.2.2.2.1⟩

/-! ## Serial link -/

theorem readLenByte_gap (g : Nat) (b : Nat) (r : List (Option Nat)) :
    readLenByte (List.replicate g none ++ some b :: r) = some (b, r) := by
  induction g with
  | zero => rfl
  | succ g ih => simpa [List.replicate_succ, readLenByte] using ih

/-- Enough bytes are there: `readBytes` takes the first `n`. -/
theorem readBytes_full (n : Nat) (pl : List Nat) (tl : List (Option Nat)) (h : n ≤ pl.length) :
    readBytes n (pl.map some ++ tl) = (pl.take n, (pl.drop n).map some ++ tl) := by
  induction n generalizing pl with
  | zero => simp [readBytes]
  | succ n ih =>
    cases pl with
    | nil => simp at h
    | cons b pl =>
      have h1 : n ≤ pl.length := by simpa using h
      simp [readBytes, ih pl h1]

/-- The stream dries up before `n` bytes have come: `readBytes` returns what came. -/
theorem readBytes_short (n : Nat) (pl : List Nat) (tl : List (Option Nat))
    (h : pl.length < n) (htl : ∀ b, tl.head? ≠ some (some b)) :
    readBytes n (pl.map some ++ tl) = (pl, tl.tail) := by
  induction n generalizing pl with
  | zero => simp at h
  | succ n ih =>
    cases pl with
    | nil =>
      cases tl with
      | nil => simp [readBytes]
      | cons x tl =>
        cases x with
        | none => simp [readBytes]
        | some b => exact absurd rfl (htl b)
    | cons b pl =>
      have h1 : pl.length < n := by simpa using h
      simp [readBytes, ih pl h1]

theorem storeBytes_range (buffer : Buf) (bs : List Nat) :
    (List.range bs.length).map (storeBytes buffer bs) = bs := by
  apply List.ext_getElem
  · simp
  · intro i h1 h2
    simp only [List.length_map, List.length_range] at h1
    simp [storeBytes, List.getD_eq_getElem?_getD, List.getElem?_eq_getElem h1]

@[simp] theorem sendFrame_frame (packet : Buf) (length : Nat) (s : State) :
    (sendFrame packet length s).mode = s.mode ∧ (sendFrame packet length s).status = s.status ∧
    (sendFrame packet length s).DDRB = s.DDRB ∧ (sendFrame packet length s).DDRD = s.DDRD ∧
    (sendFrame packet length s).PORTB = s.PORTB ∧ (sendFrame packet length s).PORTC = s.PORTC ∧
    (sendFrame packet length s).PORTD = s.PORTD ∧ (sendFrame packet length s).floatB = s.floatB ∧
    (sendFrame packet length s).floatD = s.floatD ∧
    (sendFrame packet length s).shiftReg = s.shiftReg ∧
    (sendFrame packet length s).addrLatch = s.addrLatch ∧
    (sendFrame packet length s).chip = s.chip ∧ (sendFrame packet length s).rx = s.rx ∧
    (sendFrame packet length s).stack = s.stack := by
  unfold sendFrame serialWrite serialWriteBuf; split_ifs <;> simp

/-- The bytes of a frame enter the event log in the order in which they are written. -/
theorem sendFrame_log (packet : Buf) (length : Nat) (s : State) :
    (sendFrame packet length s).log = frameEvents packet length ++ s.log := by
  unfold sendFrame serialWrite serialWriteBuf
  split_ifs with h
  · simp [frameEvents]
  · have : length = 0 := by omega
    subst this; rfl

theorem sendAckPacket_log (s : State) : (sendAckPacket s).2.log = Ev.sent 0 :: s.log := rfl

theorem writesOf_sendAckPacket (s : State) :
    writesOf (sendAckPacket s).2.log = writesOf s.log := rfl

theorem sendFrame_tx (packet : Buf) (length : Nat) (s : State) :
    (sendFrame packet length s).tx = s.tx ++ (length % 256 :: (List.range length).map packet) := by
  unfold sendFrame serialWrite serialWriteBuf
  split_ifs with h
  · simp
  · have : length = 0 := by omega
    subst this; simp

/-- The definition of `sendAckPacket` is `sendPacket(NULL, 0, false)`. -/
theorem sendAckPacket_eq (s : State) : some (sendAckPacket s) = sendPacket (fun _ => 0) 0 false s := rfl

/-- What `receivePacket` does once the length byte `L` has come. -/
theorem receivePacket_eq (buffer : Buf) (maxLength : Nat) (sendAck : Bool) (s : State) (g L : Nat)
    (r : List (Option Nat)) (h : s.rx = List.replicate g none ++ some L :: r) :
    receivePacket buffer maxLength sendAck s =
      if 0 < L then
        if (readBytes (min L maxLength) r).1.length ≠ L then
          some (-1, storeBytes buffer (readBytes (min L maxLength) r).1,
            { s with rx := (readBytes (min L maxLength) r).2, status := STATUS.ERR_CORRUPT })
        else
          some ((L : Int), storeBytes buffer (readBytes (min L maxLength) r).1,
            if sendAck then (sendAckPacket { s with rx := (readBytes (min L maxLength) r).2 }).2
            else { s with rx := (readBytes (min L maxLength) r).2 })
      else some (0, buffer,
        if sendAck then (sendAckPacket { s with rx := r }).2 else { s with rx := r }) := by
  unfold receivePacket
  rw [h, readLenByte_gap]
  by_cases hL : 0 < L
  · by_cases h1 : (readBytes (min L maxLength) r).1.length = L
    · cases sendAck <;> simp [hL, h1, sendAckPacket]
    · simp [hL, h1]
  · have : L = 0 := by omega
    subst this
    cases sendAck <;> simp [sendAckPacket]

/-! ## Bits -/

theorem bitRead_eq (x i : Nat) : bitRead x i = (x.testBit i).toNat := by
  unfold bitRead Nat.testBit
  rw [Nat.and_comm]
  rcases Nat.mod_two_eq_zero_or_one (x >>> i) with h | h <;> simp [Nat.one_and_eq_mod_two, h]

theorem bitRead_eq_zero (x i : Nat) : bitRead x i = 0 ↔ x.testBit i = false := by
  rw [bitRead_eq]; cases x.testBit i <;> simp

theorem bitRead_eq_one (x i : Nat) : bitRead x i = 1 ↔ x.testBit i = true := by
  rw [bitRead_eq]; cases x.testBit i <;> simp

theorem writePulse_eq (p : Nat) : writePulse p = (!p.testBit 0 && !p.testBit 2) := by
  unfold writePulse; rw [bitRead_eq, bitRead_eq]
  cases p.testBit 0 <;> cases p.testBit 2 <;> rfl

theorem chipDriving_eq (p : Nat) : chipDriving p = (!p.testBit 2 && !p.testBit 1) := by
  unfold chipDriving; rw [bitRead_eq, bitRead_eq]
  cases p.testBit 1 <;> cases p.testBit 2 <;> rfl

theorem testBit_hi (m i : Nat) (hm : m < 256) (hi : 8 ≤ i) : m.testBit i = false :=
  Nat.testBit_lt_two_pow (lt_of_lt_of_le hm (Nat.pow_le_pow_right (by norm_num : 0 < 2) hi))

theorem byte_ext {x y : Nat} (hx : x < 256) (hy : y < 256)
    (h : ∀ i, i < 8 → x.testBit i = y.testBit i) : x = y := by
  apply Nat.eq_of_testBit_eq
  intro i
  by_cases hi : i < 8
  · exact h i hi
  · rw [testBit_hi x i hx (not_lt.mp hi), testBit_hi y i hy (not_lt.mp hi)]

theorem testBit_mod_256 (x i : Nat) : (x % 256).testBit i = (decide (i < 8) && x.testBit i) :=
  Nat.testBit_mod_two_pow x 8 i

/-- The control lines of the EEPROM do not see the SER bit. -/
theorem ctl_ser (p : Nat) :
    writePulse (p ||| 0b00010000) = writePulse p ∧
    writePulse (p &&& 0b11101111) = writePulse p ∧
    chipDriving (p ||| 0b00010000) = chipDriving p ∧
    chipDriving (p &&& 0b11101111) = chipDriving p := by
  simp only [writePulse_eq, chipDriving_eq, Nat.testBit_and, Nat.testBit_or]
  generalize p.testBit 0 = b0
  generalize p.testBit 1 = b1
  generalize p.testBit 2 = b2
  revert b0 b1 b2
  decide

/-- A write to `PORTC` that neither ends a write pulse nor ends a read strobe. -/
theorem writePORTC_quiet (v : Nat) (s : State)
    (h1 : (writePulse s.PORTC && !writePulse v) = false)
    (h2 : (chipDriving s.PORTC && !chipDriving v) = false) :
    writePORTC v s = { s with PORTC := v } := by
  unfold writePORTC
  simp [h1, h2]

/-- A write to `PORTB` without a rising clock edge. -/
theorem writePORTB_quiet (v : Nat) (s : State)
    (h1 : (bitRead s.PORTB 3 == 0 && bitRead v 3 == 1) = false)
    (h2 : (bitRead s.PORTB 4 == 0 && bitRead v 4 == 1) = false) :
    writePORTB v s = { s with PORTB := v } := by
  unfold writePORTB
  simp [h1, h2]

/-! ## Address sequencer -/

/-- The clock lines of the 74HC595 pair under the pulses of `setAddress`. -/
theorem clk_pulse (x : Nat) :
    bitRead (x ||| 0b00001000) 3 = 1 ∧ bitRead (x ||| 0b00001000) 4 = bitRead x 4 ∧
    bitRead ((x ||| 0b00001000) &&& 0b11110111) 3 = 0 ∧
    bitRead ((x ||| 0b00001000) &&& 0b11110111) 4 = bitRead x 4 ∧
    bitRead (x ||| 0b00010000) 4 = 1 ∧ bitRead (x ||| 0b00010000) 3 = bitRead x 3 ∧
    bitRead ((x ||| 0b00010000) &&& 0b11101111) 4 = 0 ∧
    bitRead ((x ||| 0b00010000) &&& 0b11101111) 3 = bitRead x 3 := by
  simp only [bitRead_eq, Nat.testBit_and, Nat.testBit_or]
  generalize x.testBit 3 = b3
  generalize x.testBit 4 = b4
  revert b3 b4
  decide

/-- The SER line after the first statement of a round of `setAddress`. -/
theorem ser_bit (p b : Nat) (hb : b = 0 ∨ b = 1) :
    bitRead (if b ≠ 0 then p ||| 0b00010000 else p &&& 0b11101111) 4 = b := by
  rcases hb with rfl | rfl
  · simp only [ne_eq, not_true_eq_false, if_false, bitRead_eq, Nat.testBit_and]
    generalize p.testBit 4 = b4
    revert b4
    decide
  · simp only [ne_eq, one_ne_zero, not_false_eq_true, if_true, bitRead_eq, Nat.testBit_or]
    generalize p.testBit 4 = b4
    revert b4
    decide

theorem bitRead_01 (x i : Nat) : bitRead x i = 0 ∨ bitRead x i = 1 := by
  rw [bitRead_eq]; cases x.testBit i <;> simp

theorem no_edge (a b : Nat) (h : b = 0 ∨ b = a) : (a == 0 && b == 1) = false := by
  rcases h with rfl | rfl
  · simp
  · by_cases hb : b = 0
    · subst hb; simp
    · simp [hb]

/-- A write to `PORTB` that raises neither clock. -/
theorem writePORTB_keep (v : Nat) (s : State)
    (h3 : bitRead v 3 = 0 ∨ bitRead v 3 = bitRead s.PORTB 3)
    (h4 : bitRead v 4 = 0 ∨ bitRead v 4 = bitRead s.PORTB 4) :
    writePORTB v s = { s with PORTB := v } :=
  writePORTB_quiet v s (no_edge _ _ h3) (no_edge _ _ h4)

/-- A write to `PORTB` that raises SRCLK and leaves RCLK: one shift. -/
theorem writePORTB_shift (v : Nat) (s : State) (h3 : bitRead s.PORTB 3 = 0)
    (hv3 : bitRead v 3 = 1) (h4 : bitRead v 4 = bitRead s.PORTB 4) :
    writePORTB v s =
      { s with PORTB := v, shiftReg := (s.shiftReg * 2 + bitRead s.PORTC 4) % 65536,
               log := Ev.shift (bitRead s.PORTC 4) :: s.log } := by
  unfold writePORTB
  simp [h3, hv3, no_edge _ _ (Or.inr h4)]

/-- A write to `PORTB` that raises RCLK and leaves SRCLK: the outputs take the shift stage. -/
theorem writePORTB_latch (v : Nat) (s : State) (h4 : bitRead s.PORTB 4 = 0)
    (hv4 : bitRead v 4 = 1) (h3 : bitRead v 3 = bitRead s.PORTB 3) :
    writePORTB v s =
      { s with PORTB := v, addrLatch := s.shiftReg, log := Ev.latch s.shiftReg :: s.log } := by
  unfold writePORTB
  simp [h4, hv4, no_edge _ _ (Or.inr h3)]

/-- The statements `PORTB = PORTB | B00001000; PORTB = PORTB & B11110111;` with the shift
clock low before: one pulse of SRCLK. -/
theorem srclk_pulse (t : State) (h3 : bitRead t.PORTB 3 = 0) :
    writePORTB ((writePORTB (t.PORTB ||| 0b00001000) t).PORTB &&& 0b11110111)
        (writePORTB (t.PORTB ||| 0b00001000) t) =
      { t with PORTB := (t.PORTB ||| 0b00001000) &&& 0b11110111,
               shiftReg := (t.shiftReg * 2 + bitRead t.PORTC 4) % 65536,
               log := Ev.shift (bitRead t.PORTC 4) :: t.log } := by
  have hc := clk_pulse t.PORTB
  rw [writePORTB_shift _ _ h3 hc.1 hc.2.1]
  exact writePORTB_keep _ _ (Or.inl hc.2.2.1) (Or.inr (hc.2.2.2.1.trans hc.2.1.symm))

/-- The statements `PORTB = PORTB | B00010000; PORTB = PORTB & B11101111;` with the latch
clock low before: one pulse of RCLK. -/
theorem rclk_pulse (t : State) (h4 : bitRead t.PORTB 4 = 0) :
    writePORTB ((writePORTB (t.PORTB ||| 0b00010000) t).PORTB &&& 0b11101111)
        (writePORTB (t.PORTB ||| 0b00010000) t) =
      { t with PORTB := (t.PORTB ||| 0b00010000) &&& 0b11101111,
               addrLatch := t.shiftReg, log := Ev.latch t.shiftReg :: t.log } := by
  have hc := clk_pulse t.PORTB
  rw [writePORTB_latch _ _ h4 hc.2.2.2.2.1 hc.2.2.2.2.2.1]
  exact writePORTB_keep _ _ (Or.inr (hc.2.2.2.2.2.2.2.trans hc.2.2.2.2.2.1.symm))
    (Or.inl hc.2.2.2.2.2.2.1)

/-- The first statement of a round of `setAddress` touches the SER line only. -/
theorem ser_write (b : Nat) (s : State) :
    (if b ≠ 0 then writePORTC (s.PORTC ||| 0b00010000) s
      else writePORTC (s.PORTC &&& 0b11101111) s) =
      { s with PORTC := if b ≠ 0 then s.PORTC ||| 0b00010000 else s.PORTC &&& 0b11101111 } := by
  split_ifs
  · exact writePORTC_quiet _ _ (by simp [(ctl_ser s.PORTC).1])
      (by simp [(ctl_ser s.PORTC).2.2.1])
  · exact writePORTC_quiet _ _ (by simp [(ctl_ser s.PORTC).2.1])
      (by simp [(ctl_ser s.PORTC).2.2.2])

/-- One round of the loop of `setAddress`, entered with the shift clock low: the SER line
takes bit `i` of the address and one rising edge of SRCLK shifts it in. -/
theorem setAddressLoop_succ (address i : Nat) (s : State) (h3 : bitRead s.PORTB 3 = 0) :
    setAddressLoop address (i + 1) s =
      setAddressLoop address i
        { s with
          PORTC := if bitRead address i ≠ 0 then s.PORTC ||| 0b00010000
                   else s.PORTC &&& 0b11101111,
          PORTB := (s.PORTB ||| 0b00001000) &&& 0b11110111,
          shiftReg := (s.shiftReg * 2 + bitRead address i) % 65536,
          log := Ev.shift (bitRead address i) :: s.log } := by
  have hb := ser_bit s.PORTC (bitRead address i) (bitRead_01 address i)
  rw [setAddressLoop, ser_write,
    srclk_pulse { s with PORTC := if bitRead address i ≠ 0 then s.PORTC ||| 0b00010000
                                  else s.PORTC &&& 0b11101111 } h3]
  simp only [hb]

/-- The data pins of port B do not see the clock pulses. -/
theorem clk_low_bits (x : Nat) :
    ((x ||| 0b00001000) &&& 0b11110111) &&& 3 = x &&& 3 ∧
    ((x ||| 0b00010000) &&& 0b11101111) &&& 3 = x &&& 3 := by
  constructor <;>
  · apply byte_ext (lt_of_le_of_lt Nat.and_le_right (by norm_num))
      (lt_of_le_of_lt Nat.and_le_right (by norm_num))
    intro i hi
    simp only [Nat.testBit_and, Nat.testBit_or]
    interval_cases i <;> generalize x.testBit _ = b <;> revert b <;> decide

/-- What the loop of `setAddress` leaves alone, whatever the state it starts in. -/
theorem setAddressLoop_frame (address : Nat) (n : Nat) (s : State) :
    (setAddressLoop address n s).mode = s.mode ∧
    (setAddressLoop address n s).status = s.status ∧
    (setAddressLoop address n s).DDRB = s.DDRB ∧
    (setAddressLoop address n s).DDRD = s.DDRD ∧
    (setAddressLoop address n s).PORTD = s.PORTD ∧
    (setAddressLoop address n s).floatB = s.floatB ∧
    (setAddressLoop address n s).floatD = s.floatD ∧
    (setAddressLoop address n s).chip = s.chip ∧
    (setAddressLoop address n s).rx = s.rx ∧
    (setAddressLoop address n s).tx = s.tx ∧
    (setAddressLoop address n s).stack = s.stack ∧
    writePulse (setAddressLoop address n s).PORTC = writePulse s.PORTC ∧
    chipDriving (setAddressLoop address n s).PORTC = chipDriving s.PORTC ∧
    (setAddressLoop address n s).PORTB &&& 3 = s.PORTB &&& 3 := by
  induction n generalizing s with
  | zero => simp [setAddressLoop]
  | succ i ih =>
    rw [setAddressLoop]
    simp only [ih, writePORTB_frame]
    split_ifs <;> simp [ctl_ser, clk_low_bits, writePORTC_quiet]

/-- Started with the shift clock low, `n` rounds of the loop of `setAddress` shift bits
`n-1 .. 0` of the address in, in this order. -/
theorem setAddressLoop_shift (address : Nat) (n : Nat) (s : State)
    (h3 : bitRead s.PORTB 3 = 0) :
    bitRead (setAddressLoop address n s).PORTB 3 = 0 ∧
    bitRead (setAddressLoop address n s).PORTB 4 = bitRead s.PORTB 4 ∧
    (setAddressLoop address n s).addrLatch = s.addrLatch ∧
    (setAddressLoop address n s).shiftReg % 65536 =
      (s.shiftReg * 2 ^ n + address % 2 ^ n) % 65536 ∧
    (0 < n → (setAddressLoop address n s).shiftReg < 65536) ∧
    (setAddressLoop address n s).log =
      (List.range n).map (fun i => Ev.shift (bitRead address i)) ++ s.log := by
  induction n generalizing s with
  | zero => simp [setAddressLoop, h3, Nat.mod_one]
  | succ i ih =>
    rw [setAddressLoop_succ address i s h3]
    have hc := clk_pulse s.PORTB
    have h := ih { s with
          PORTC := if bitRead address i ≠ 0 then s.PORTC ||| 0b00010000
                   else s.PORTC &&& 0b11101111,
          PORTB := (s.PORTB ||| 0b00001000) &&& 0b11110111,
          shiftReg := (s.shiftReg * 2 + bitRead address i) % 65536,
          log := Ev.shift (bitRead address i) :: s.log } hc.2.2.1
    refine ⟨h.1, h.2.1.trans hc.2.2.2.1, h.2.2.1, ?_, ?_, ?_⟩
    · rw [h.2.2.2.1]
      simp only
      have hbit : bitRead address i = address / 2 ^ i % 2 := by
        unfold bitRead
        rw [Nat.shiftRight_eq_div_pow, Nat.and_one_is_mod]
      rw [hbit, Nat.mod_pow_succ, pow_succ]
      rw [Nat.add_mod, Nat.mul_mod, Nat.mod_mod, ← Nat.mul_mod, ← Nat.add_mod]
      congr 1
      ring
    · intro _
      rcases Nat.eq_zero_or_pos i with hi | hi
      · subst hi
        simp only [setAddressLoop]
        exact Nat.mod_lt _ (by norm_num)
      · exact h.2.2.2.2.1 hi
    · rw [h.2.2.2.2.2]
      simp [List.range_succ]

/-- What `setAddress` leaves alone, whatever the state it starts in; it always ends with
both clocks low. -/
theorem setAddress_frame (address : Nat) (s : State) :
    (setAddress address s).mode = s.mode ∧ (setAddress address s).status = s.status ∧
    (setAddress address s).DDRB = s.DDRB ∧ (setAddress address s).DDRD = s.DDRD ∧
    (setAddress address s).PORTD = s.PORTD ∧ (setAddress address s).floatB = s.floatB ∧
    (setAddress address s).floatD = s.floatD ∧ (setAddress address s).chip = s.chip ∧
    (setAddress address s).rx = s.rx ∧ (setAddress address s).tx = s.tx ∧
    (setAddress address s).stack = s.stack ∧
    writePulse (setAddress address s).PORTC = writePulse s.PORTC ∧
    chipDriving (setAddress address s).PORTC = chipDriving s.PORTC ∧
    (setAddress address s).PORTB &&& 3 = s.PORTB &&& 3 := by
  have h := setAddressLoop_frame address 16 s
  unfold setAddress
  simp only [writePORTB_frame]
  refine ⟨h.1, h.2.1, h.2.2.1, h.2.2.2.1, h.2.2.2.2.1, h.2.2.2.2.2.1, h.2.2.2.2.2.2.1,
    h.2.2.2.2.2.2.2.1, h.2.2.2.2.2.2.2.2.1, h.2.2.2.2.2.2.2.2.2.1,
    h.2.2.2.2.2.2.2.2.2.2.1, h.2.2.2.2.2.2.2.2.2.2.2.1, h.2.2.2.2.2.2.2.2.2.2.2.2.1, ?_⟩
  rw [(clk_low_bits _).2]
  exact h.2.2.2.2.2.2.2.2.2.2.2.2.2

/-- Started with both clocks low, `setAddress` presents bits 15 .. 0 of the address to
sixteen pulses of SRCLK, then pulses RCLK once, and the latched outputs are the address. -/
theorem setAddress_spec (address : Nat) (s : State) (h : ClocksIdle s) :
    ClocksIdle (setAddress address s) ∧
    (setAddress address s).shiftReg = address % 65536 ∧
    (setAddress address s).addrLatch = address % 65536 ∧
    (setAddress address s).log =
      Ev.latch (address % 65536) ::
        ((List.range 16).map (fun i => Ev.shift (bitRead address i)) ++ s.log) := by
  have hl := setAddressLoop_shift address 16 s h.1
  have h4 : bitRead (setAddressLoop address 16 s).PORTB 4 = 0 := hl.2.1.trans h.2
  have hsr : (setAddressLoop address 16 s).shiftReg = address % 65536 := by
    have h1 := hl.2.2.2.1
    rw [Nat.mod_eq_of_lt (hl.2.2.2.2.1 (by norm_num))] at h1
    rw [h1]
    omega
  have hc := clk_pulse (setAddressLoop address 16 s).PORTB
  unfold setAddress
  rw [rclk_pulse _ h4]
  refine ⟨⟨?_, ?_⟩, ?_, ?_, ?_⟩
  · exact hc.2.2.2.2.2.2.2.trans hl.1
  · exact hc.2.2.2.2.2.2.1
  · exact hsr
  · exact hsr
  · simp only [hsr, hl.2.2.2.2.2]

/-! ## Data bus -/

theorem mask_bit_zero {x m : Nat} (h : x &&& m = 0) (i : Nat) (hm : m.testBit i = true) :
    x.testBit i = false := by
  have := congrArg (fun y => Nat.testBit y i) h
  simpa [Nat.testBit_and, hm] using this

theorem mask_bit_one {x m : Nat} (h : x &&& m = m) (i : Nat) (hm : m.testBit i = true) :
    x.testBit i = true := by
  have := congrArg (fun y => Nat.testBit y i) h
  simpa [Nat.testBit_and, hm] using this

theorem lit_bits :
    (∀ i, i < 8 → Nat.testBit 255 i = true) ∧
    (∀ i, i < 8 → Nat.testBit 3 i = decide (i < 2)) ∧
    (∀ i, i < 8 → Nat.testBit 252 i = decide (2 ≤ i)) := by
  refine ⟨?_, ?_, ?_⟩ <;> intro i hi <;> interval_cases i <;> decide

/-- With the data pins as inputs and the EEPROM outputs enabled, `readDataBus` returns the
byte the EEPROM presents. -/
theorem readDataBus_reading (s : State) (hD : s.DDRD &&& 0b11111100 = 0)
    (hB : s.DDRB &&& 0b00000011 = 0) (hc : chipDriving s.PORTC = true) :
    readDataBus s = chipData s := by
  have hlt : chipData s < 256 := by
    unfold chipData; split <;> exact Nat.mod_lt _ (by norm_num)
  apply byte_ext (Nat.mod_lt _ (by norm_num)) hlt
  intro i hi
  have hd : ∀ j, 2 ≤ j → j < 8 → s.DDRD.testBit j = false := fun j h1 h2 =>
    mask_bit_zero hD j (by rw [lit_bits.2.2 j h2]; simpa using h1)
  have hb : ∀ j, j < 2 → s.DDRB.testBit j = false := fun j h1 =>
    mask_bit_zero hB j (by rw [lit_bits.2.1 j (by omega)]; simpa using h1)
  simp only [PIND, PINB, pins, extD, extB, hc, if_true, testBit_mod_256, Nat.testBit_or, Nat.testBit_and, Nat.testBit_xor,
    Nat.testBit_shiftLeft, Nat.testBit_shiftRight]
  interval_cases i <;> simp [hd, hb, lit_bits.1, lit_bits.2.1, lit_bits.2.2]

/-- With the data pins as outputs, the data lines carry the `PORT` bits. -/
theorem readDataBus_outputs (s : State)
    (hD : s.DDRD &&& 0b11111100 = 0b11111100) (hB : s.DDRB &&& 0b00000011 = 0b00000011) :
    readDataBus s = (((s.PORTD % 256) >>> 2) ||| (s.PORTB <<< 6)) % 256 := by
  apply byte_ext (Nat.mod_lt _ (by norm_num)) (Nat.mod_lt _ (by norm_num))
  intro i hi
  have hd : ∀ j, 2 ≤ j → j < 8 → s.DDRD.testBit j = true := fun j h1 h2 =>
    mask_bit_one hD j (by rw [lit_bits.2.2 j h2]; simpa using h1)
  have hb : ∀ j, j < 2 → s.DDRB.testBit j = true := fun j h1 =>
    mask_bit_one hB j (by rw [lit_bits.2.1 j (by omega)]; simpa using h1)
  simp only [PIND, PINB, pins, testBit_mod_256, Nat.testBit_or, Nat.testBit_and,
    Nat.testBit_xor, Nat.testBit_shiftLeft, Nat.testBit_shiftRight]
  interval_cases i <;> simp [hd, hb, lit_bits.1, lit_bits.2.1, lit_bits.2.2]

/-- The bit-to-pin mapping of `writeDataBus` undone by that of `readDataBus`. -/
theorem bus_roundtrip (pd pb v : Nat) :
    (((((pd &&& 0b00000011) ||| (v <<< 2)) % 256) >>> 2) |||
      ((((pb &&& 0b11111100) ||| (v >>> 6)) % 256) <<< 6)) % 256 = v % 256 := by
  apply byte_ext (Nat.mod_lt _ (by norm_num)) (Nat.mod_lt _ (by norm_num))
  intro i hi
  simp only [testBit_mod_256, Nat.testBit_or, Nat.testBit_and,
    Nat.testBit_shiftLeft, Nat.testBit_shiftRight]
  interval_cases i <;> simp [lit_bits.2.1, lit_bits.2.2]

/-- The clock lines do not see the data bits of a byte written to port B. -/
theorem data_clk (pb v : Nat) (hv : v < 256) :
    bitRead (((pb &&& 0b11111100) ||| (v >>> 6)) % 256) 3 = bitRead pb 3 ∧
    bitRead (((pb &&& 0b11111100) ||| (v >>> 6)) % 256) 4 = bitRead pb 4 := by
  have h9 : v.testBit 9 = false := testBit_hi v 9 hv (by norm_num)
  have h10 : v.testBit 10 = false := testBit_hi v 10 hv (by norm_num)
  simp only [bitRead_eq, testBit_mod_256, Nat.testBit_or, Nat.testBit_and,
    Nat.testBit_shiftRight]
  simp [h9, h10, lit_bits.2.2]

theorem writeDataBus_eq (v : Nat) (s : State) (hv : v < 256) :
    writeDataBus v s =
      { s with PORTD := ((s.PORTD &&& 0b00000011) ||| (v <<< 2)) % 256,
               PORTB := ((s.PORTB &&& 0b11111100) ||| (v >>> 6)) % 256 } := by
  unfold writeDataBus
  have h := data_clk s.PORTB v hv
  exact writePORTB_keep _ _ (Or.inr h.1) (Or.inr h.2)

/-! ## Control lines and bus modes -/

theorem bitRead_or (x c k : Nat) :
    bitRead (x ||| c) k = if c.testBit k = true then 1 else bitRead x k := by
  simp only [bitRead_eq, Nat.testBit_or]
  cases c.testBit k <;> simp

theorem bitRead_and (x c k : Nat) :
    bitRead (x &&& c) k = if c.testBit k = true then bitRead x k else 0 := by
  simp only [bitRead_eq, Nat.testBit_and]
  cases c.testBit k <;> simp

/-- A write to `PORTC` that ends a write pulse while the EEPROM outputs are off: the byte on
the data lines is stored at the latched address. -/
theorem writePORTC_store (v : Nat) (s : State) (h1 : writePulse s.PORTC = true)
    (h2 : writePulse v = false) (h3 : chipDriving s.PORTC = false) :
    writePORTC v s =
      { s with PORTC := v,
               chip := { s.chip with
                 mem := setAt s.chip.mem (s.addrLatch % 0x8000) (readDataBus s) },
               log := Ev.store (s.addrLatch % 0x8000) (readDataBus s) :: s.log } := by
  unfold writePORTC
  simp [h1, h2, h3]

/-- A write to `PORTC` that ends a read strobe, with WE high. -/
theorem writePORTC_strobe (v : Nat) (s : State) (h1 : writePulse s.PORTC = false)
    (h2 : chipDriving s.PORTC = true) (h3 : chipDriving v = false) :
    writePORTC v s =
      { s with PORTC := v, chip := { s.chip with strobes := s.chip.strobes + 1 } } := by
  unfold writePORTC
  simp [h1, h2, h3]

/-- Whatever the control lines were, a write to `PORTC` changes the EEPROM in at most the
cell at the latched address. -/
theorem writePORTC_cells (v : Nat) (s : State) (j : Nat) (hj : j ≠ s.addrLatch % 0x8000) :
    (writePORTC v s).chip.mem j = s.chip.mem j := by
  unfold writePORTC
  split_ifs <;> simp [setAt, hj]

@[simp] theorem enterStandbyMode_frame (s : State) :
    (enterStandbyMode s).status = s.status ∧ (enterStandbyMode s).PORTB = s.PORTB ∧
    (enterStandbyMode s).PORTD = s.PORTD ∧ (enterStandbyMode s).floatB = s.floatB ∧
    (enterStandbyMode s).floatD = s.floatD ∧ (enterStandbyMode s).shiftReg = s.shiftReg ∧
    (enterStandbyMode s).addrLatch = s.addrLatch ∧ (enterStandbyMode s).rx = s.rx ∧
    (enterStandbyMode s).tx = s.tx ∧ (enterStandbyMode s).stack = s.stack ∧
    (enterStandbyMode s).chip.busy = s.chip.busy := by
  unfold enterStandbyMode; split_ifs <;> simp

@[simp] theorem enterReadMode_frame (s : State) :
    (enterReadMode s).status = s.status ∧ (enterReadMode s).PORTB = s.PORTB ∧
    (enterReadMode s).PORTD = s.PORTD ∧ (enterReadMode s).floatB = s.floatB ∧
    (enterReadMode s).floatD = s.floatD ∧ (enterReadMode s).shiftReg = s.shiftReg ∧
    (enterReadMode s).addrLatch = s.addrLatch ∧ (enterReadMode s).rx = s.rx ∧
    (enterReadMode s).tx = s.tx ∧ (enterReadMode s).stack = s.stack ∧
    (enterReadMode s).chip.busy = s.chip.busy := by
  unfold enterReadMode; split_ifs <;> simp

@[simp] theorem enterWriteMode_frame (s : State) :
    (enterWriteMode s).status = s.status ∧ (enterWriteMode s).PORTB = s.PORTB ∧
    (enterWriteMode s).PORTD = s.PORTD ∧ (enterWriteMode s).floatB = s.floatB ∧
    (enterWriteMode s).floatD = s.floatD ∧ (enterWriteMode s).shiftReg = s.shiftReg ∧
    (enterWriteMode s).addrLatch = s.addrLatch ∧ (enterWriteMode s).rx = s.rx ∧
    (enterWriteMode s).tx = s.tx ∧ (enterWriteMode s).stack = s.stack ∧
    (enterWriteMode s).chip.busy = s.chip.busy := by
  unfold enterWriteMode; split_ifs <;> simp

/-- Leaving another mode for Standby with WE and CE high: only the pin directions and the
control lines change. -/
theorem enterStandbyMode_rest (s : State) (hm : s.mode ≠ MODE.STANDBY)
    (h0 : bitRead s.PORTC 0 = 1) (h2 : bitRead s.PORTC 2 = 1) :
    enterStandbyMode s =
      { s with mode := MODE.STANDBY, DDRD := s.DDRD &&& 0b00000011,
               DDRB := s.DDRB &&& 0b11111100,
               PORTC := (s.PORTC ||| 0b00000101) &&& 0b11111101,
               log := Ev.delayUs DELAY_MICROS :: s.log } := by
  unfold enterStandbyMode writePORTC delayMicroseconds
  simp +decide [hm, writePulse, chipDriving, bitRead_or, bitRead_and, h0, h2]

/-- Leaving Read mode for Standby, the EEPROM outputs being enabled and WE high: the read
strobe ends. -/
theorem enterStandbyMode_reading (s : State) (hm : s.mode ≠ MODE.STANDBY)
    (h0 : bitRead s.PORTC 0 = 1) (h1 : bitRead s.PORTC 1 = 0) (h2 : bitRead s.PORTC 2 = 0) :
    enterStandbyMode s =
      { s with mode := MODE.STANDBY, DDRD := s.DDRD &&& 0b00000011,
               DDRB := s.DDRB &&& 0b11111100,
               PORTC := (s.PORTC ||| 0b00000101) &&& 0b11111101,
               chip := { s.chip with strobes := s.chip.strobes + 1 },
               log := Ev.delayUs DELAY_MICROS :: s.log } := by
  unfold enterStandbyMode writePORTC delayMicroseconds
  simp +decide [hm, writePulse, chipDriving, bitRead_or, bitRead_and, h0, h1, h2]

/-- Entering Read mode from another mode with WE and CE high. -/
theorem enterReadMode_rest (s : State) (hm : s.mode ≠ MODE.READ)
    (h0 : bitRead s.PORTC 0 = 1) (h2 : bitRead s.PORTC 2 = 1) :
    enterReadMode s =
      { s with mode := MODE.READ, DDRD := s.DDRD &&& 0b00000011,
               DDRB := s.DDRB &&& 0b11111100,
               PORTC := (s.PORTC ||| 0b00000001) &&& 0b11111001,
               log := Ev.delayUs DELAY_MICROS :: s.log } := by
  unfold enterReadMode writePORTC delayMicroseconds
  simp +decide [hm, writePulse, chipDriving, bitRead_or, bitRead_and, h0, h2]

/-- Entering Write mode from another mode, whatever the control lines were: the data pins
become outputs, the lines end at OE and WE high and CE low, and no cell other than the one at
the latched address can change. -/
theorem enterWriteMode_spec (s : State) (hm : s.mode ≠ MODE.WRITE) :
    (enterWriteMode s).DDRD = s.DDRD ||| 0b11111100 ∧
    (enterWriteMode s).DDRB = s.DDRB ||| 0b00000011 ∧
    (enterWriteMode s).PORTC = (s.PORTC ||| 0b00000011) &&& 0b11111011 ∧
    (∀ j, j ≠ s.addrLatch % 0x8000 → (enterWriteMode s).chip.mem j = s.chip.mem j) := by
  unfold enterWriteMode
  simp only [hm, ne_eq, not_false_eq_true, if_true]
  refine ⟨by simp, by simp, by simp, ?_⟩
  intro j hj
  simp only [delayMicroseconds_frame]
  rw [writePORTC_cells _ _ j (by simpa using hj), writePORTC_cells _ _ j (by simpa using hj)]

/-- Port D direction bits after Write mode and after Standby or Read mode. -/
theorem ddr_masks_d (d : Nat) :
    (d ||| 0b11111100) &&& 0b11111100 = 0b11111100 ∧
    (d &&& 0b00000011) &&& 0b11111100 = 0 := by
  refine ⟨?_, ?_⟩
  · apply byte_ext (lt_of_le_of_lt Nat.and_le_right (by norm_num)) (by norm_num)
    intro i hi
    simp only [Nat.testBit_and, Nat.testBit_or]
    interval_cases i <;> simp [lit_bits.2.2]
  · apply byte_ext (lt_of_le_of_lt Nat.and_le_right (by norm_num)) (by norm_num)
    intro i hi
    simp only [Nat.testBit_and]
    interval_cases i <;> simp [lit_bits.2.1, lit_bits.2.2]

/-- Port B direction bits after Write mode and after Standby or Read mode. -/
theorem ddr_masks_b (b : Nat) :
    (b ||| 0b00000011) &&& 0b00000011 = 0b00000011 ∧
    (b &&& 0b11111100) &&& 0b00000011 = 0 := by
  refine ⟨?_, ?_⟩
  · apply byte_ext (lt_of_le_of_lt Nat.and_le_right (by norm_num)) (by norm_num)
    intro i hi
    simp only [Nat.testBit_and, Nat.testBit_or]
    interval_cases i <;> simp [lit_bits.2.1]
  · apply byte_ext (lt_of_le_of_lt Nat.and_le_right (by norm_num)) (by norm_num)
    intro i hi
    simp only [Nat.testBit_and]
    interval_cases i <;> simp [lit_bits.2.1, lit_bits.2.2]

theorem setAt_setAt_cells (m m1 : Nat → Nat) (a v : Nat) (h : ∀ j, j ≠ a → m1 j = m j) :
    setAt m1 a v = setAt m a v := by
  funext j
  by_cases hj : j = a
  · simp [setAt, hj]
  · simp [setAt, hj, h j hj]

/-- The second half of `writeChipByte`, from Write mode with OE and WE high and CE low: the
value goes onto the data lines, one write pulse stores it at the latched address, and the
bus returns to Standby. -/
theorem writeChipByte_tail (v : Nat) (t : State) (hv : v < 256) (hm : t.mode = MODE.WRITE)
    (hD : t.DDRD &&& 0b11111100 = 0b11111100) (hB : t.DDRB &&& 0b00000011 = 0b00000011)
    (h0 : bitRead t.PORTC 0 = 1) (h1 : bitRead t.PORTC 1 = 1) (h2 : bitRead t.PORTC 2 = 0) :
    enterStandbyMode
      (writePORTC
        ((delayMicroseconds 1
          (writePORTC ((writeDataBus v t).PORTC &&& 0b11111010) (writeDataBus v t))).PORTC
          ||| 0b00000101)
        (delayMicroseconds 1
          (writePORTC ((writeDataBus v t).PORTC &&& 0b11111010) (writeDataBus v t)))) =
      { t with mode := MODE.STANDBY, DDRD := t.DDRD &&& 0b00000011,
               DDRB := t.DDRB &&& 0b11111100,
               PORTD := ((t.PORTD &&& 0b00000011) ||| (v <<< 2)) % 256,
               PORTB := ((t.PORTB &&& 0b11111100) ||| (v >>> 6)) % 256,
               PORTC := ((t.PORTC &&& 0b11111010 ||| 0b00000101) ||| 0b00000101)
                          &&& 0b11111101,
               chip := { t.chip with mem := setAt t.chip.mem (t.addrLatch % 0x8000) v },
               log := Ev.delayUs DELAY_MICROS :: Ev.store (t.addrLatch % 0x8000) v ::
                        Ev.delayUs 1 :: t.log } := by
  rw [writeDataBus_eq v t hv]
  unfold enterStandbyMode writePORTC delayMicroseconds
  simp +decide [writePulse, chipDriving, bitRead_or, bitRead_and, h0, h1, h2, hm,
    readDataBus_outputs, hD, hB, bus_roundtrip, Nat.mod_eq_of_lt hv]

/-- Started outside Write mode with both clocks low, `writeChipByte` stores the byte at the
address (modulo the 32768 cells of the chip), touches no other cell, neither the serial link
nor the status, and ends in Standby with the data pins as inputs. -/
theorem writeChipByte_spec (a v : Nat) (s : State) (hm : s.mode ≠ MODE.WRITE)
    (hclk : ClocksIdle s) (hv : v < 256) :
    (writeChipByte a v s).mode = MODE.STANDBY ∧
    (writeChipByte a v s).status = s.status ∧
    (writeChipByte a v s).rx = s.rx ∧
    (writeChipByte a v s).tx = s.tx ∧
    (writeChipByte a v s).stack = s.stack ∧
    (writeChipByte a v s).chip.busy = s.chip.busy ∧
    (writeChipByte a v s).chip.mem = setAt s.chip.mem (a % 65536 % 0x8000) v ∧
    ClocksIdle (writeChipByte a v s) ∧
    (writeChipByte a v s).addrLatch = a % 65536 ∧
    bitRead (writeChipByte a v s).PORTC 0 = 1 ∧
    bitRead (writeChipByte a v s).PORTC 1 = 0 ∧
    bitRead (writeChipByte a v s).PORTC 2 = 1 ∧
    (writeChipByte a v s).DDRD &&& 0b11111100 = 0 ∧
    (writeChipByte a v s).DDRB &&& 0b00000011 = 0 := by
  have hf := setAddress_frame a s
  have hs := setAddress_spec a s hclk
  have hw := enterWriteMode_spec (setAddress a s) (by rw [hf.1]; exact hm)
  have hwf := enterWriteMode_frame (setAddress a s)
  have hmode : (enterWriteMode (setAddress a s)).mode = MODE.WRITE := rfl
  have h0 : bitRead (enterWriteMode (setAddress a s)).PORTC 0 = 1 := by
    rw [hw.2.2.1]; simp +decide [bitRead_or, bitRead_and]
  have h1 : bitRead (enterWriteMode (setAddress a s)).PORTC 1 = 1 := by
    rw [hw.2.2.1]; simp +decide [bitRead_or, bitRead_and]
  have h2 : bitRead (enterWriteMode (setAddress a s)).PORTC 2 = 0 := by
    rw [hw.2.2.1]; simp +decide [bitRead_or, bitRead_and]
  have hD : (enterWriteMode (setAddress a s)).DDRD &&& 0b11111100 = 0b11111100 := by
    rw [hw.1]; exact (ddr_masks_d _).1
  have hB : (enterWriteMode (setAddress a s)).DDRB &&& 0b00000011 = 0b00000011 := by
    rw [hw.2.1]; exact (ddr_masks_b _).1
  have key := writeChipByte_tail v (enterWriteMode (setAddress a s)) hv hmode hD hB h0 h1 h2
  have hdef : writeChipByte a v s = enterStandbyMode
      (writePORTC
        ((delayMicroseconds 1
          (writePORTC ((writeDataBus v (enterWriteMode (setAddress a s))).PORTC &&& 0b11111010)
            (writeDataBus v (enterWriteMode (setAddress a s))))).PORTC ||| 0b00000101)
        (delayMicroseconds 1
          (writePORTC ((writeDataBus v (enterWriteMode (setAddress a s))).PORTC &&& 0b11111010)
            (writeDataBus v (enterWriteMode (setAddress a s)))))) := rfl
  rw [hdef, key]
  have hclk2 := data_clk (setAddress a s).PORTB v hv
  refine ⟨rfl, ?_, ?_, ?_, ?_, ?_, ?_, ⟨?_, ?_⟩, ?_, ?_, ?_, ?_, ?_, ?_⟩
  · simp [hf.2.1]
  · simp [hf.2.2.2.2.2.2.2.2.1]
  · simp [hf.2.2.2.2.2.2.2.2.2.1]
  · simp [hf.2.2.2.2.2.2.2.2.2.2.1]
  · simp [hf.2.2.2.2.2.2.2.1]
  · simp only [hwf.2.2.2.2.2.2.1, hs.2.2.1]
    apply setAt_setAt_cells
    intro j hj
    rw [hw.2.2.2 j (by rw [hs.2.2.1]; exact hj), hf.2.2.2.2.2.2.2.1]
  · simp only [hwf.2.1]; rw [hclk2.1]; exact hs.1.1
  · simp only [hwf.2.1]; rw [hclk2.2]; exact hs.1.2
  · simp [hs.2.2.1]
  · simp +decide [bitRead_or, bitRead_and]
  · simp +decide [bitRead_or, bitRead_and]
  · simp +decide [bitRead_or, bitRead_and]
  · exact (ddr_masks_d _).2
  · exact (ddr_masks_b _).2

/-! ## Write completion and read-back -/

theorem chipData_idle (s : State) (h : ChipIdle s) :
    chipData s = s.chip.mem (s.addrLatch % 0x8000) % 256 := by
  unfold chipData
  rw [h s.chip.strobes]

/-- One sample of `waitForChip` on a chip that is not inside a write cycle, taken with WE and
CE high before: one read strobe, and the sample is the level of pin B0. -/
theorem waitSample_idle (s : State) (hidle : ChipIdle s) (h0 : bitRead s.PORTC 0 = 1)
    (h2 : bitRead s.PORTC 2 = 1) :
    waitSample s =
      (pins s.DDRB s.PORTB
          ((s.floatB &&& 0b11111100) ||| ((s.chip.mem (s.addrLatch % 0x8000) % 256) >>> 6))
          &&& 1,
        { s with PORTC := (s.PORTC &&& 0b11111001) ||| 0b00000110,
                 chip := { s.chip with strobes := s.chip.strobes + 1 },
                 log := Ev.delayUs 2 :: Ev.delayUs 2 :: s.log }) := by
  have hb : ∀ n, s.chip.busy n = none := hidle
  unfold waitSample writePORTC delayMicroseconds PINB extB chipData
  simp +decide [writePulse, chipDriving, bitRead_or, bitRead_and, h0, h2, hb]

/-- On a chip that is not inside a write cycle, called in Standby with WE and CE high,
`waitForChip` returns after one round of three samples; the call of `enterStandbyMode` at
its end does nothing, so the control lines stay as the last sample left them. -/
theorem waitForChip_idle (fuel : Nat) (s : State) (hfuel : 0 < fuel)
    (hm : s.mode = MODE.STANDBY) (hidle : ChipIdle s) (h0 : bitRead s.PORTC 0 = 1)
    (h2 : bitRead s.PORTC 2 = 1) :
    waitForChip fuel s =
      some { s with
        DDRB := s.DDRB &&& 0b11111110,
        PORTC := ((((((s.PORTC ||| 0b00000111) &&& 0b11111001) ||| 0b00000110)
                    &&& 0b11111001) ||| 0b00000110) &&& 0b11111001) ||| 0b00000110,
        chip := { s.chip with strobes := s.chip.strobes + 3 },
        log := Ev.delayUs 2 :: Ev.delayUs 2 :: Ev.delayUs 2 :: Ev.delayUs 2 ::
                 Ev.delayUs 2 :: Ev.delayUs 2 :: s.log } := by
  have hb : ∀ n, s.chip.busy n = none := hidle
  obtain ⟨f, rfl⟩ : ∃ f, fuel = f + 1 := ⟨fuel - 1, by omega⟩
  unfold waitForChip waitForChipLoop
  simp only []
  rw [writePORTC_quiet _ _ (by simp +decide [writePulse, h0]) (by simp +decide [chipDriving, h2])]
  simp +decide [waitSample_idle, ChipIdle, hb, bitRead_or, bitRead_and, enterStandbyMode_same,
    hm]

/-- The same, without the registers: `waitForChip` returns, the bus is at rest again and
neither the cells nor the serial link have changed. -/
theorem waitForChip_rest (fuel : Nat) (s : State) (hfuel : 0 < fuel) (hs : AtRest s)
    (hidle : ChipIdle s) :
    ∃ w, waitForChip fuel s = some w ∧ AtRest w ∧ ChipIdle w ∧ w.status = s.status ∧
      w.rx = s.rx ∧ w.tx = s.tx ∧ w.stack = s.stack ∧ w.chip.mem = s.chip.mem ∧
      w.addrLatch = s.addrLatch := by
  refine ⟨_, waitForChip_idle fuel s hfuel hs.1 hidle hs.2.2.1 hs.2.2.2,
    ⟨hs.1, hs.2.1, ?_, ?_⟩, hidle, rfl, rfl, rfl, rfl, rfl, rfl⟩
  · simp +decide [bitRead_or, bitRead_and]
  · simp +decide [bitRead_or, bitRead_and]

/-- On a chip that is not inside a write cycle, started outside Read mode with both clocks
low and WE and CE high, `readChipByte` returns the byte stored at the address (modulo the
32768 cells of the chip). -/
theorem readChipByte_idle (a : Nat) (s : State) (hm : s.mode ≠ MODE.READ) (hclk : ClocksIdle s)
    (hidle : ChipIdle s) (h0 : bitRead s.PORTC 0 = 1) (h2 : bitRead s.PORTC 2 = 1) :
    (readChipByte a s).1 = s.chip.mem (a % 65536 % 0x8000) % 256 := by
  have e := enterReadMode_rest s hm h0 h2
  have hf := setAddress_frame a (enterReadMode s)
  have hs := setAddress_spec a (enterReadMode s) (by rw [e]; exact hclk)
  have hval : (readChipByte a s).1 = readDataBus (setAddress a (enterReadMode s)) := rfl
  have hD : (setAddress a (enterReadMode s)).DDRD &&& 0b11111100 = 0 := by
    rw [hf.2.2.2.1, e]; exact (ddr_masks_d _).2
  have hB : (setAddress a (enterReadMode s)).DDRB &&& 0b00000011 = 0 := by
    rw [hf.2.2.1, e]; exact (ddr_masks_b _).2
  have hc : chipDriving (setAddress a (enterReadMode s)).PORTC = true := by
    rw [hf.2.2.2.2.2.2.2.2.2.2.2.2.1, e]
    simp +decide [chipDriving, bitRead_or, bitRead_and]
  have hi : ChipIdle (setAddress a (enterReadMode s)) := by
    intro n
    rw [hf.2.2.2.2.2.2.2.1, e]
    exact hidle n
  rw [hval, readDataBus_reading _ hD hB hc, chipData_idle _ hi, hs.2.2.1,
    hf.2.2.2.2.2.2.2.1, e]


/-! ## Status LED -/

theorem digitalWriteLED_true (s : State) :
    digitalWriteLED true s = { s with PORTB := s.PORTB ||| 0b00000100, log := Ev.led true :: s.log } := by
  unfold digitalWriteLED
  simp only [if_true]
  rw [writePORTB_keep _ _ (Or.inr (by simp +decide [bitRead_or]))
    (Or.inr (by simp +decide [bitRead_or]))]

theorem digitalWriteLED_false (s : State) :
    digitalWriteLED false s =
      { s with PORTB := s.PORTB &&& 0b11111011, log := Ev.led false :: s.log } := by
  unfold digitalWriteLED
  simp only [Bool.false_eq_true, if_false]
  rw [writePORTB_keep _ _ (Or.inr (by simp +decide [bitRead_and]))
    (Or.inr (by simp +decide [bitRead_and]))]

theorem dashLED_eq (s : State) :
    dashLED s =
      { s with PORTB := (s.PORTB ||| 0b00000100) &&& 0b11111011,
               log := Ev.delayMs DOTLEN :: Ev.led false :: Ev.delayMs DASHLEN ::
                        Ev.led true :: s.log } := by
  unfold dashLED
  simp only [digitalWriteLED_true, digitalWriteLED_false, delay]

theorem dotLED_eq (s : State) :
    dotLED s =
      { s with PORTB := (s.PORTB ||| 0b00000100) &&& 0b11111011,
               log := Ev.delayMs DOTLEN :: Ev.led false :: Ev.delayMs DOTLEN ::
                        Ev.led true :: s.log } := by
  unfold dotLED
  simp only [digitalWriteLED_true, digitalWriteLED_false, delay]

/-- The LED bit of port B does not touch the clocks nor the data pins. -/
theorem led_bits (x : Nat) :
    bitRead ((x ||| 0b00000100) &&& 0b11111011) 3 = bitRead x 3 ∧
    bitRead ((x ||| 0b00000100) &&& 0b11111011) 4 = bitRead x 4 ∧
    bitRead (x ||| 0b00000100) 3 = bitRead x 3 ∧
    bitRead (x ||| 0b00000100) 4 = bitRead x 4 ∧
    bitRead (x &&& 0b11111011) 3 = bitRead x 3 ∧
    bitRead (x &&& 0b11111011) 4 = bitRead x 4 := by
  simp +decide [bitRead_or, bitRead_and]

theorem led_low_bits (x : Nat) :
    ((x ||| 0b00000100) &&& 0b11111011) &&& 3 = x &&& 3 := by
  apply byte_ext (lt_of_le_of_lt Nat.and_le_right (by norm_num))
    (lt_of_le_of_lt Nat.and_le_right (by norm_num))
  intro i hi
  simp only [Nat.testBit_and, Nat.testBit_or]
  interval_cases i <;> generalize x.testBit _ = b <;> revert b <;> decide

/-! ## Pages and the test command -/

theorem readChipByte_value (a : Nat) (s : State) :
    (readChipByte a s).1 = readDataBus (readPoint a s) := rfl

/-- What `readChipByte` leaves alone, whatever the state it starts in. -/
theorem readChipByte_frame (a : Nat) (s : State) :
    (readChipByte a s).2.mode = MODE.STANDBY ∧ (readChipByte a s).2.status = s.status ∧
    (readChipByte a s).2.rx = s.rx ∧ (readChipByte a s).2.tx = s.tx ∧
    (readChipByte a s).2.stack = s.stack := by
  unfold readChipByte
  have hf := setAddress_frame a (enterReadMode s)
  simp [hf.2.1, hf.2.2.2.2.2.2.2.2.1, hf.2.2.2.2.2.2.2.2.2.1, hf.2.2.2.2.2.2.2.2.2.2.1]

theorem AtRest_delayMicroseconds (n : Nat) (s : State) (h : AtRest s) :
    AtRest (delayMicroseconds n s) := h

theorem AtRest_delay (n : Nat) (s : State) (h : AtRest s) : AtRest (delay n s) := h

/-- Between two commands the byte writes of a page leave the bus at rest and touch neither
the serial link nor the status. -/
theorem writeChipPageLoop_rest (address : Nat) (data : Buf) (n idx : Nat) (s : State)
    (hs : AtRest s) (hdata : ∀ i, idx ≤ i → i < idx + n → data i < 256) :
    AtRest (writeChipPageLoop address data n idx s) ∧
    (writeChipPageLoop address data n idx s).status = s.status ∧
    (writeChipPageLoop address data n idx s).rx = s.rx ∧
    (writeChipPageLoop address data n idx s).tx = s.tx ∧
    (writeChipPageLoop address data n idx s).stack = s.stack ∧
    (writeChipPageLoop address data n idx s).chip.busy = s.chip.busy := by
  induction n generalizing idx s with
  | zero => exact ⟨hs, rfl, rfl, rfl, rfl, rfl⟩
  | succ n ih =>
    have hw := writeChipByte_spec ((address + idx) % 65536) (data idx) s
      (by rw [hs.1]; decide) hs.2.1 (hdata idx (le_refl _) (by omega))
    have hr : AtRest (delayMicroseconds 1
        (writeChipByte ((address + idx) % 65536) (data idx) s)) :=
      ⟨hw.1, hw.2.2.2.2.2.2.2.1, hw.2.2.2.2.2.2.2.2.2.1, hw.2.2.2.2.2.2.2.2.2.2.2.1⟩
    have h := ih (idx + 1) _ hr (fun i h1 h2 => hdata i (by omega) (by omega))
    rw [writeChipPageLoop]
    refine ⟨h.1, ?_, ?_, ?_, ?_, ?_⟩
    · rw [h.2.1]; exact hw.2.1
    · rw [h.2.2.1]; exact hw.2.2.1
    · rw [h.2.2.2.1]; exact hw.2.2.2.1
    · rw [h.2.2.2.2.1]; exact hw.2.2.2.2.1
    · rw [h.2.2.2.2.2]; exact hw.2.2.2.2.2.1

/-- On a chip that is not inside a write cycle, `writeChipPage` returns, with the bus at rest
again and nothing sent or received. -/
theorem writeChipPage_idle (address : Nat) (data : Buf) (n fuel : Nat) (s : State)
    (hfuel : 0 < fuel) (hs : AtRest s) (hidle : ChipIdle s)
    (hdata : ∀ i, i < n → data i < 256) :
    ∃ t, writeChipPage address data n fuel s = some t ∧ AtRest t ∧ ChipIdle t ∧
      t.status = s.status ∧ t.rx = s.rx ∧ t.tx = s.tx ∧ t.stack = s.stack := by
  have h := writeChipPageLoop_rest address data n 0 s hs
    (fun i _ h2 => hdata i (by omega))
  have hi : ChipIdle (delay 1 (writeChipPageLoop address data n 0 s)) := by
    intro k
    show (writeChipPageLoop address data n 0 s).chip.busy k = none
    rw [h.2.2.2.2.2]; exact hidle k
  have e := waitForChip_idle fuel (delay 1 (writeChipPageLoop address data n 0 s)) hfuel
    h.1.1 hi h.1.2.2.1 h.1.2.2.2
  refine ⟨_, e, ⟨h.1.1, h.1.2.1, ?_, ?_⟩, hi, h.2.1, h.2.2.1, h.2.2.2.1, h.2.2.2.2.1⟩
  · simp +decide [bitRead_or, bitRead_and]
  · simp +decide [bitRead_or, bitRead_and]

/-- On a chip that is not inside a write cycle, the branch `cmd == 0x74` of `loop()` returns
and sends a one-byte packet; it leaves the status alone. -/
theorem testCommand_idle (fuel : Nat) (s : State) (hfuel : 0 < fuel) (hs : AtRest s)
    (hidle : ChipIdle s) :
    ∃ t v, testCommand fuel s = some t ∧ t.status = s.status ∧
      t.tx = s.tx ++ [1, v] ∧ t.rx = s.rx := by
  obtain ⟨t1, e1, hr1, hi1, hs1, hrx1, htx1, hst1⟩ :=
    writeChipPage_idle 16 (fun i => if i < 63 then i else s.stack.junk i) 63 fuel s hfuel hs
      hidle
      (fun i hi => by simp only [hi, if_true]; omega)
  obtain ⟨t2, e2, hr2, hi2, hs2, hrx2, htx2, hst2⟩ :=
    writeChipPage_idle 128 (fun i => if i < 63 then i else s.stack.junk i) 63 fuel t1 hfuel
      hr1 hi1
      (fun i hi => by simp only [hi, if_true]; omega)
  have hf := readChipByte_frame 9 t2
  have e : testCommand fuel s =
      some (sendFrame (fun _ => (readChipByte 9 t2).1) 1 (readChipByte 9 t2).2) := by
    unfold testCommand
    simp only [e1, e2, sendPacket, Bool.false_eq_true, if_false]
  rw [e]
  refine ⟨_, (readChipByte 9 t2).1, rfl, ?_, ?_, ?_⟩
  · rw [(sendFrame_frame _ _ _).2.1, hf.2.1, hs2, hs1]
  · rw [sendFrame_tx, hf.2.2.2.1, htx2, htx1]; rfl
  · rw [(sendFrame_frame _ _ _).2.2.2.2.2.2.2.2.2.2.2.2.1, hf.2.2.1, hrx2, hrx1]

/-! ## Uploading the chip contents: the loop of `dumpChipBytes` -/

/-- After `sendPacket` has written its frame, an empty reply lets it return 0. -/
theorem sendPacket_ack (packet : Buf) (length : Nat) (t : State) (r : List (Option Nat))
    (h : t.rx = some 0 :: r) :
    sendPacket packet length true t =
      some (0, { t with tx := t.tx ++ (length % 256 :: (List.range length).map packet),
                        rx := r, log := frameEvents packet length ++ t.log }) := by
  have h1 : (sendFrame packet length t).rx = List.replicate 0 none ++ some 0 :: r := by
    simpa using h
  unfold sendPacket
  simp only [if_true]
  rw [receivePacket_eq _ MAX_PAYLOAD_SIZE false _ 0 0 r h1]
  simp [sendFrame_tx, sendFrame_log]

/-- After `sendPacket` has written its frame, the Reset frame makes it set `ERR_RESET` and
return -1. -/
theorem sendPacket_reset (packet : Buf) (length : Nat) (t : State) (r : List (Option Nat))
    (h : t.rx = some 1 :: some 0x73 :: r) :
    sendPacket packet length true t =
      some (-1, { t with tx := t.tx ++ (length % 256 :: (List.range length).map packet),
                         rx := r, status := STATUS.ERR_RESET,
                         log := frameEvents packet length ++ t.log }) := by
  have h1 : (sendFrame packet length t).rx =
      List.replicate 0 none ++ some 1 :: some 0x73 :: r := by
    simpa using h
  have hmin : min 1 MAX_PAYLOAD_SIZE = 1 := by decide
  unfold sendPacket
  simp only [if_true]
  rw [receivePacket_eq _ MAX_PAYLOAD_SIZE false _ 0 1 _ h1, hmin]
  simp [readBytes, sendFrame_tx, sendFrame_log, storeBytes]

theorem SameBus_refl (s : State) : SameBus s s := ⟨rfl, rfl, rfl, rfl, rfl, rfl, rfl, rfl⟩

theorem SameBus_setAddress (a : Nat) (s t : State) (h : SameBus s t) :
    SameBus s (setAddress a t) := by
  have hf := setAddress_frame a t
  exact ⟨hf.2.2.2.1.trans h.1, hf.2.2.1.trans h.2.1, hf.2.2.2.2.1.trans h.2.2.1,
    hf.2.2.2.2.2.2.2.2.2.2.2.2.2.trans h.2.2.2.1, hf.2.2.2.2.2.1.trans h.2.2.2.2.1,
    hf.2.2.2.2.2.2.1.trans h.2.2.2.2.2.1, hf.2.2.2.2.2.2.2.1.trans h.2.2.2.2.2.2.1,
    hf.2.2.2.2.2.2.2.2.2.2.2.2.1.trans h.2.2.2.2.2.2.2⟩

/-- One round of the loop of `dumpChipBytes` at an address where no packet is due. -/
theorem dumpLoop_read (n a : Nat) (packet : Buf) (pidx : Nat) (t : State)
    (h : ¬ (a > 0 ∧ a % 63 = 0)) :
    dumpLoop (n + 1) a packet pidx t =
      dumpLoop n (a + 1) (setAt packet (a % 63) (readDataBus (setAddress a t)))
        (a % 63) (setAddress a t) := by
  rw [dumpLoop]
  simp only [MAX_PAYLOAD_SIZE, h, if_false, dumpRead]

/-- One round of the loop of `dumpChipBytes` at an address where a packet is due and the host
acknowledges it. -/
theorem dumpLoop_send (n a : Nat) (packet : Buf) (pidx : Nat) (t : State)
    (r : List (Option Nat)) (h : a > 0 ∧ a % 63 = 0) (hrx : t.rx = some 0 :: r) :
    dumpLoop (n + 1) a packet pidx t =
      dumpLoop n (a + 1)
        (setAt packet (a % 63) (readDataBus (setAddress a
          { t with tx := t.tx ++ (63 :: (List.range 63).map packet), rx := r,
                   log := frameEvents packet 63 ++ t.log })))
        (a % 63)
        (setAddress a { t with tx := t.tx ++ (63 :: (List.range 63).map packet), rx := r,
                               log := frameEvents packet 63 ++ t.log }) := by
  rw [dumpLoop]
  simp only [MAX_PAYLOAD_SIZE, h, and_self, if_true, sendPacket_ack packet 63 t r hrx, dumpRead]
  simp

/-- One round of the loop of `dumpChipBytes` at an address where a packet is due and the host
answers with the Reset frame: the loop is left by `return -1`. -/
theorem dumpLoop_reset (n a : Nat) (packet : Buf) (pidx : Nat) (t : State)
    (r : List (Option Nat)) (h : a > 0 ∧ a % 63 = 0)
    (hrx : t.rx = some 1 :: some 0x73 :: r) :
    dumpLoop (n + 1) a packet pidx t =
      some (DumpLoop.ret (-1) (enterStandbyMode
        { t with tx := t.tx ++ (63 :: (List.range 63).map packet), rx := r,
                 status := STATUS.ERR_RESET, log := frameEvents packet 63 ++ t.log })) := by
  rw [dumpLoop]
  simp only [MAX_PAYLOAD_SIZE, h, and_self, if_true, sendPacket_reset packet 63 t r hrx]

/-- The loop of `dumpChipBytes` run for `n1 + n2` rounds is the loop run for `n1` rounds and,
unless that part returned, for `n2` more rounds from where it stopped. -/
theorem dumpLoop_append (n1 n2 : Nat) : ∀ (a : Nat) (packet : Buf) (pidx : Nat) (t : State),
    dumpLoop (n1 + n2) a packet pidx t =
      match dumpLoop n1 a packet pidx t with
      | some (DumpLoop.done p i u) => dumpLoop n2 (a + n1) p i u
      | other => other := by
  induction n1 with
  | zero => intro a packet pidx t; simp [dumpLoop]
  | succ n ih =>
    intro a packet pidx t
    have e : n + 1 + n2 = (n + n2) + 1 := by omega
    rw [e, dumpLoop, dumpLoop]
    have e2 : ∀ a : Nat, a + (n + 1) = a + 1 + n := by intro a; omega
    split
    · cases hsp : sendPacket packet MAX_PAYLOAD_SIZE true t with
      | none => simp
      | some r =>
        obtain ⟨c, u⟩ := r
        by_cases hc : c = -1
        · simp [hc]
        · simp only [hc, if_false]
          rw [ih, e2]
    · simp only []
      rw [ih, e2]

/-- `readDataBus` depends on the state only through the pins of the data bus and the latched
address. -/
theorem readDataBus_congr (s t : State) (h : SameBus s t) (ha : t.addrLatch = s.addrLatch) :
    readDataBus t = readDataBus s := by
  obtain ⟨h1, h2, h3, h4, h5, h6, h7, h8⟩ := h
  have hcd : chipData t = chipData s := by unfold chipData; rw [h7, ha]
  have hD : PIND t = PIND s := by unfold PIND extD; rw [h1, h3, h6, h8, hcd]
  have hb : ∀ j, j < 2 → t.PORTB.testBit j = s.PORTB.testBit j := by
    intro j hj
    have := congrArg (fun x => Nat.testBit x j) h4
    simp only [Nat.testBit_and, lit_bits.2.1 j (by omega), hj, decide_True, Bool.and_true]
      at this
    exact this
  have hE : extB t = extB s := by unfold extB; rw [h5, h8, hcd]
  apply byte_ext (Nat.mod_lt _ (by norm_num)) (Nat.mod_lt _ (by norm_num))
  intro i hi
  simp only [hD, PINB, pins, hE, h2, testBit_mod_256, Nat.testBit_or, Nat.testBit_and,
    Nat.testBit_xor, Nat.testBit_shiftLeft, Nat.testBit_shiftRight]
  interval_cases i <;> simp [hb]

theorem read_at (s0 t : State) (a : Nat) (hsame : SameBus s0 t) (hclk0 : ClocksIdle s0)
    (hclk : ClocksIdle t) :
    readDataBus (setAddress a t) = readDataBus (setAddress a s0) := by
  have h0 := setAddress_frame a s0
  have h1 := SameBus_setAddress a s0 t hsame
  apply readDataBus_congr
  · exact ⟨h1.1.trans h0.2.2.2.1.symm, h1.2.1.trans h0.2.2.1.symm,
      h1.2.2.1.trans h0.2.2.2.2.1.symm,
      h1.2.2.2.1.trans h0.2.2.2.2.2.2.2.2.2.2.2.2.2.symm,
      h1.2.2.2.2.1.trans h0.2.2.2.2.2.1.symm, h1.2.2.2.2.2.1.trans h0.2.2.2.2.2.2.1.symm,
      h1.2.2.2.2.2.2.1.trans h0.2.2.2.2.2.2.2.1.symm,
      h1.2.2.2.2.2.2.2.trans h0.2.2.2.2.2.2.2.2.2.2.2.2.1.symm⟩
  · rw [(setAddress_spec a t hclk).2.2.1, (setAddress_spec a s0 hclk0).2.2.1]

/-- The value of `packetIdx` after `n + 1` rounds from address `a`, seen from both ends. -/
theorem round_index (n a pidx : Nat) :
    (if n = 0 then a % 63 else (a + 1 + n - 1) % 63) =
      (if n + 1 = 0 then pidx else (a + (n + 1) - 1) % 63) := by
  have e : a + 1 + n - 1 = a + (n + 1) - 1 := by omega
  rw [e, if_neg (Nat.succ_ne_zero n)]
  by_cases hn : n = 0
  · subst hn
    have e0 : a + (0 + 1) - 1 = a := by omega
    rw [if_pos rfl, e0]
  · rw [if_neg hn]

/-- The loop of `dumpChipBytes` with every packet acknowledged: `n` rounds from address `a`
run to their end, each due packet carries the bytes read at its 63 addresses, and the buffer
holds the bytes read since the last packet. -/
theorem dumpLoop_run (s0 : State) (hclk0 : ClocksIdle s0) (rest : List (Option Nat)) (n : Nat) :
    ∀ (a : Nat) (packet : Buf) (pidx : Nat) (t : State),
    SameBus s0 t → ClocksIdle t →
    (∀ b, 63 * ((a - 1) / 63) ≤ b → b < a → packet (b % 63) = readDataBus (setAddress b s0)) →
    t.rx = List.replicate ((a + n - 1) / 63 - (a - 1) / 63) (some 0) ++ rest →
    ∃ packet1 t1, dumpLoop n a packet pidx t =
        some (DumpLoop.done packet1 (if n = 0 then pidx else (a + n - 1) % 63) t1) ∧
      SameBus s0 t1 ∧ ClocksIdle t1 ∧
      (∀ b, 63 * ((a + n - 1) / 63) ≤ b → b < a + n →
        packet1 (b % 63) = readDataBus (setAddress b s0)) ∧
      t1.tx = t.tx ++ (List.range' ((a - 1) / 63) ((a + n - 1) / 63 - (a - 1) / 63)).flatMap
        (chunkPacket (fun b => readDataBus (setAddress b s0))) ∧
      t1.rx = rest ∧ t1.status = t.status ∧ t1.mode = t.mode := by
  induction n with
  | zero =>
    intro a packet pidx t hsame hclk hbuf hrx
    refine ⟨packet, t, by simp [dumpLoop], hsame, hclk, ?_, ?_, ?_, rfl, rfl⟩
    · simpa using hbuf
    · simp
    · simpa using hrx
  | succ n ih =>
    intro a packet pidx t hsame hclk hbuf hrx
    by_cases hdue : a > 0 ∧ a % 63 = 0
    · -- a packet is due
      obtain ⟨c, hc⟩ : ∃ c, (a + (n + 1) - 1) / 63 - (a - 1) / 63 = c + 1 :=
        ⟨(a + (n + 1) - 1) / 63 - (a - 1) / 63 - 1, by omega⟩
      rw [hc, List.replicate_succ, List.cons_append] at hrx
      rw [dumpLoop_send n a packet pidx t _ hdue hrx]
      have hpk : (63 :: (List.range 63).map packet) =
          chunkPacket (fun b => readDataBus (setAddress b s0)) ((a - 1) / 63) := by
        unfold chunkPacket
        congr 1
        apply List.map_congr_left
        intro j hj
        rw [List.mem_range] at hj
        have := hbuf (63 * ((a - 1) / 63) + j) (by omega) (by omega)
        have e : (63 * ((a - 1) / 63) + j) % 63 = j := by omega
        rw [e] at this
        exact this
      rw [hpk]
      generalize hpkt : chunkPacket (fun b => readDataBus (setAddress b s0)) ((a - 1) / 63) = pk
      generalize ht0 : ({ t with tx := t.tx ++ pk,
                                 rx := List.replicate c (some 0) ++ rest,
                                 log := frameEvents packet 63 ++ t.log } : State) = t0
      have hsame1 : SameBus s0 t0 := by rw [← ht0]; exact hsame
      have hclk1 : ClocksIdle t0 := by rw [← ht0]; exact hclk
      have hrx0 : t0.rx = List.replicate c (some 0) ++ rest := by rw [← ht0]
      have htx0 : t0.tx = t.tx ++ pk := by rw [← ht0]
      have hst0 : t0.status = t.status := by rw [← ht0]
      have hmd0 : t0.mode = t.mode := by rw [← ht0]
      have hf := setAddress_frame a t0
      obtain ⟨p1, t1, hrun, h1, h2, h3, h4, h5, h6, h7⟩ := ih (a + 1)
        (setAt packet (a % 63) (readDataBus (setAddress a t0))) (a % 63) (setAddress a t0)
        (SameBus_setAddress a s0 _ hsame1) (setAddress_spec a _ hclk1).1
        (by
          intro b hb1 hb2
          have hb : b = a := by omega
          subst hb
          simp only [setAt, if_true]
          exact read_at s0 _ b hsame1 hclk0 hclk1)
        (by
          rw [hf.2.2.2.2.2.2.2.2.1, hrx0]
          have : (a + 1 + n - 1) / 63 - (a + 1 - 1) / 63 = c := by omega
          rw [this])
      refine ⟨p1, t1, ?_, h1, h2, ?_, ?_, h5, ?_, ?_⟩
      · rw [hrun]
        rw [round_index]
      · intro b hb1 hb2
        exact h3 b (by omega) (by omega)
      · rw [h4, hf.2.2.2.2.2.2.2.2.2.1, htx0, hc, List.range'_succ, List.flatMap_cons, hpkt]
        have e1 : (a + 1 - 1) / 63 = (a - 1) / 63 + 1 := by omega
        have e2 : (a + 1 + n - 1) / 63 - ((a - 1) / 63 + 1) = c := by omega
        rw [e1, e2]
        simp [List.append_assoc]
      · rw [h6, hf.2.1, hst0]
      · rw [h7, hf.1, hmd0]
    · -- no packet is due
      rw [dumpLoop_read n a packet pidx t hdue]
      have hf := setAddress_frame a t
      obtain ⟨p1, t1, hrun, h1, h2, h3, h4, h5, h6, h7⟩ := ih (a + 1)
        (setAt packet (a % 63) (readDataBus (setAddress a t))) (a % 63) (setAddress a t)
        (SameBus_setAddress a s0 _ hsame) (setAddress_spec a _ hclk).1
        (by
          intro b hb1 hb2
          by_cases hb : b = a
          · subst hb
            simp only [setAt, if_true]
            exact read_at s0 _ b hsame hclk0 hclk
          · have hne : b % 63 ≠ a % 63 := by omega
            simp only [setAt, hne, if_false]
            exact hbuf b (by omega) (by omega))
        (by
          rw [hf.2.2.2.2.2.2.2.2.1, hrx]
          have : (a + 1 + n - 1) / 63 - (a + 1 - 1) / 63 =
              (a + (n + 1) - 1) / 63 - (a - 1) / 63 := by omega
          rw [this])
      refine ⟨p1, t1, ?_, h1, h2, ?_, ?_, h5, ?_, ?_⟩
      · rw [hrun]
        rw [round_index]
      · intro b hb1 hb2
        exact h3 b (by omega) (by omega)
      · rw [h4, hf.2.2.2.2.2.2.2.2.2.1]
        have e1 : (a + 1 - 1) / 63 = (a - 1) / 63 := by omega
        have e2 : (a + 1 + n - 1) / 63 = (a + (n + 1) - 1) / 63 := by omega
        rw [e1, e2]
      · rw [h6, hf.2.1]
      · rw [h7, hf.1]

theorem flatMap_congr_mem {α β : Type} (l : List α) (f g : α → List β)
    (h : ∀ x, x ∈ l → f x = g x) : l.flatMap f = l.flatMap g := by
  induction l with
  | nil => rfl
  | cons x xs ih =>
    rw [List.flatMap_cons, List.flatMap_cons, h x (List.mem_cons_self _ _),
      ih (fun y hy => h y (List.mem_cons_of_mem _ hy))]

/-- The first `k` packets of a dump, for `k ≤ 520`, are full packets. -/
theorem dumpPacket_full (rd : Nat → Nat) (k : Nat) (hk : k ≤ 520) :
    (List.range k).flatMap (dumpPacket rd) = (List.range k).flatMap (chunkPacket rd) := by
  apply flatMap_congr_mem
  intro x hx
  rw [List.mem_range] at hx
  have : x < 520 := by omega
  simp [dumpPacket, chunkPacket, this]

/-- The payloads of `k` full packets, one after the other, are the first `63 * k` bytes. -/
theorem payload_concat (rd : Nat → Nat) (k : Nat) :
    (List.range k).flatMap (fun i => (List.range 63).map (fun j => rd (63 * i + j))) =
      (List.range (63 * k)).map rd := by
  induction k with
  | zero => rfl
  | succ k ih =>
    rw [List.range_succ, List.flatMap_append, ih, Nat.mul_succ, List.range_add, List.map_append]
    simp

/-- All 520 acknowledged rounds of packets: the loop of `dumpChipBytes` over the whole chip. -/
theorem dumpLoop_all (s0 : State) (hclk0 : ClocksIdle s0) (rest : List (Option Nat))
    (hrx : s0.rx = List.replicate 520 (some 0) ++ rest) :
    ∃ packet1 t1, dumpLoop 0x8000 0 s0.stack.junk 0 s0 = some (DumpLoop.done packet1 7 t1) ∧
      (∀ j, j < 8 → packet1 j = readDataBus (setAddress (63 * 520 + j) s0)) ∧
      t1.tx = s0.tx ++ (List.range 520).flatMap
        (chunkPacket (fun b => readDataBus (setAddress b s0))) ∧
      t1.rx = rest ∧ t1.status = s0.status := by
  have e1 : (0 + 0x8000 - 1) / 63 - (0 - 1) / 63 = 520 := by norm_num
  have e2 : (0 - 1) / 63 = 0 := by norm_num
  have e3 : (if 0x8000 = 0 then 0 else (0 + 0x8000 - 1) % 63) = 7 := by norm_num
  obtain ⟨p1, t1, hrun, -, -, h3, h4, h5, h6, -⟩ := dumpLoop_run s0 hclk0 rest 0x8000 0
    s0.stack.junk 0 s0 (SameBus_refl s0) hclk0 (by intro b _ hb; omega) (by rw [e1]; exact hrx)
  rw [e3] at hrun
  rw [e1, e2, ← List.range_eq_range'] at h4
  refine ⟨p1, t1, hrun, ?_, h4, h5, h6⟩
  intro j hj
  have := h3 (63 * 520 + j) (by omega) (by omega)
  have e : (63 * 520 + j) % 63 = j := by omega
  rw [e] at this
  exact this

/-- The loop of `dumpChipBytes` when the host acknowledges `k` packets and answers packet
`k + 1` (one of the 520 full packets) with the Reset frame. -/
theorem dumpLoop_reset_at (s0 : State) (hclk0 : ClocksIdle s0) (rest : List (Option Nat))
    (k m : Nat)
    (hrx : s0.rx = List.replicate k (some 0) ++ some 1 :: some 0x73 :: rest) :
    ∃ t1, dumpLoop (63 * (k + 1) + (m + 1)) 0 s0.stack.junk 0 s0 = some (DumpLoop.ret (-1) t1) ∧
      t1.tx = s0.tx ++ (List.range (k + 1)).flatMap
        (chunkPacket (fun b => readDataBus (setAddress b s0))) ∧
      t1.rx = rest ∧ t1.status = STATUS.ERR_RESET ∧ t1.mode = MODE.STANDBY := by
  have e1 : (0 + 63 * (k + 1) - 1) / 63 - (0 - 1) / 63 = k := by omega
  have e2 : (0 - 1) / 63 = 0 := by norm_num
  obtain ⟨p1, t1, hrun, -, -, h3, h4, h5, h6, -⟩ := dumpLoop_run s0 hclk0
    (some 1 :: some 0x73 :: rest) (63 * (k + 1)) 0
    s0.stack.junk 0 s0 (SameBus_refl s0) hclk0 (by intro b _ hb; omega) (by rw [e1]; exact hrx)
  rw [dumpLoop_append, hrun]
  simp only []
  rw [dumpLoop_reset m _ p1 _ t1 rest (by omega) h5]
  refine ⟨_, rfl, ?_, ?_, ?_, ?_⟩
  · have hpk : (63 :: (List.range 63).map p1) =
        chunkPacket (fun b => readDataBus (setAddress b s0)) k := by
      unfold chunkPacket
      congr 1
      apply List.map_congr_left
      intro j hj
      rw [List.mem_range] at hj
      have := h3 (63 * k + j) (by omega) (by omega)
      have e : (63 * k + j) % 63 = j := by omega
      rw [e] at this
      exact this
    rw [hpk]
    simp only [enterStandbyMode_frame]
    rw [h4, e1, e2, ← List.range_eq_range', List.range_succ, List.flatMap_append]
    simp
  · simp
  · simp
  · simp

theorem dumpChipBytes_eq (s : State) :
    dumpChipBytes s =
      dumpFinish (dumpLoop 0x8000 0 (enterReadMode s).stack.junk 0 (enterReadMode s)) := rfl

theorem range_521 : List.range 521 = List.range 520 ++ [520] := List.range_succ 520

/-! ## Packet transport: the claims -/

/-- C5: for a length byte `L` with `1 ≤ L ≤ maxLength`, `receivePacket` sets `ERR_CORRUPT`
and returns -1 when fewer than `L` payload bytes arrive before the read deadline, returns
`L` with `buffer[0..L)` holding the payload and the status untouched when `L` bytes arrive,
and for `L = 0` returns 0 with the buffer and the rest of the stream untouched. -/
theorem C5_receivePacket_length_check (buffer : Buf) (maxLength : Nat) (sendAck : Bool)
    (s : State) (g L : Nat) (pl : List Nat) (tl : List (Option Nat))
    (hrx : s.rx = List.replicate g none ++ some L :: (pl.map some ++ tl)) :
    (1 ≤ L → L ≤ maxLength → pl.length < L → (∀ b, tl.head? ≠ some (some b)) →
      ∃ buf s', receivePacket buffer maxLength sendAck s = some (-1, buf, s') ∧
        s'.status = STATUS.ERR_CORRUPT ∧ s'.tx = s.tx) ∧
    (1 ≤ L → L ≤ maxLength → pl.length = L →
      ∃ buf s', receivePacket buffer maxLength sendAck s = some ((L : Int), buf, s') ∧
        (List.range L).map buf = pl ∧ s'.status = s.status ∧ s'.rx = tl) ∧
    (L = 0 →
      ∃ s', receivePacket buffer maxLength sendAck s = some (0, buffer, s') ∧
        s'.status = s.status ∧ s'.rx = pl.map some ++ tl) := by
  rw [receivePacket_eq buffer maxLength sendAck s g L _ hrx]
  refine ⟨?_, ?_, ?_⟩
  · intro h1 h2 h3 h4
    have hmin : min L maxLength = L := Nat.min_eq_left h2
    have hlt : 0 < L := h1
    rw [hmin, readBytes_short L pl tl h3 h4]
    have hne : pl.length ≠ L := Nat.ne_of_lt h3
    simp [hlt, hne, and_assoc]
  · intro h1 h2 h3
    have hmin : min L maxLength = L := Nat.min_eq_left h2
    have hlt : 0 < L := h1
    rw [hmin, readBytes_full L pl tl (le_of_eq h3.symm)]
    subst h3
    cases sendAck <;> simp [hlt, storeBytes_range, sendAckPacket, and_assoc]
  · intro h0
    subst h0
    cases sendAck <;> simp [sendAckPacket]

theorem C5_receivePacket_length_check_witness :
    (∃ buf s', receivePacket (fun _ => 0) 64 false (bootState [some 3, some 0x72, none]) =
        some (-1, buf, s') ∧ s'.status = STATUS.ERR_CORRUPT ∧ s'.tx = []) ∧
    (∃ buf s', receivePacket (fun _ => 0) 64 false
        (bootState [some 3, some 0x72, some 0, some 9]) = some (3, buf, s') ∧
        (List.range 3).map buf = [0x72, 0, 9] ∧ s'.status = STATUS.OK ∧ s'.rx = []) ∧
    (∃ s', receivePacket (fun _ => 0) 64 false (bootState [some 0, some 7]) =
        some (0, fun _ => 0, s') ∧ s'.status = STATUS.OK ∧ s'.rx = [some 7]) :=
  ⟨(C5_receivePacket_length_check (fun _ => 0) 64 false (bootState [some 3, some 0x72, none])
      0 3 [0x72] [none] rfl).1 (by decide) (by decide) (by decide) (by simp),
   (C5_receivePacket_length_check (fun _ => 0) 64 false
      (bootState [some 3, some 0x72, some 0, some 9]) 0 3 [0x72, 0, 9] [] rfl).2.1
      (by decide) (by decide) rfl,
   (C5_receivePacket_length_check (fun _ => 0) 64 false (bootState [some 0, some 7])
      0 0 [7] [] rfl).2.2 rfl⟩

/-- C4 (as amended): with `waitForAck`, `sendPacket` writes the frame and then classifies the
reply by its length byte `L`: 0 gives 0 with the status untouched; `[1, 0x73]` gives -1 and
`ERR_RESET`; `[1, b]` with another byte gives -1 and `ERR_UNKNOWN`; a reply of declared
length 1 whose byte does not come, and every reply of declared length 2 or more, gives -1
and `ERR_UNEXPECTED`. -/
theorem C4_sendPacket_reply_classes (packet : Buf) (length : Nat) (s : State) (g L : Nat)
    (r : List (Option Nat)) (hrx : s.rx = List.replicate g none ++ some L :: r) :
    ∃ code s', sendPacket packet length true s = some (code, s') ∧
      s'.tx = s.tx ++ (length % 256 :: (List.range length).map packet) ∧
      (L = 0 → code = 0 ∧ s'.status = s.status) ∧
      (L = 1 → r.head? = some (some 0x73) → code = -1 ∧ s'.status = STATUS.ERR_RESET) ∧
      (L = 1 → (∃ b, r.head? = some (some b) ∧ b ≠ 0x73) →
        code = -1 ∧ s'.status = STATUS.ERR_UNKNOWN) ∧
      (L = 1 → (∀ b, r.head? ≠ some (some b)) →
        code = -1 ∧ s'.status = STATUS.ERR_UNEXPECTED) ∧
      (2 ≤ L → code = -1 ∧ s'.status = STATUS.ERR_UNEXPECTED) := by
  have hrx1 : (sendFrame packet length s).rx = List.replicate g none ++ some L :: r := by
    simpa using hrx
  unfold sendPacket
  simp only [if_true]
  rw [receivePacket_eq _ MAX_PAYLOAD_SIZE false _ g L r hrx1]
  rcases Nat.lt_trichotomy L 1 with h0 | h1 | h2
  · have : L = 0 := by omega
    subst this
    simp [sendFrame_tx, and_assoc]
  · subst h1
    have hmin : min 1 MAX_PAYLOAD_SIZE = 1 := by decide
    rw [hmin]
    cases r with
    | nil => simp [readBytes, sendFrame_tx, and_assoc]
    | cons x r =>
      cases x with
      | none => simp [readBytes, sendFrame_tx, and_assoc]
      | some b =>
        by_cases hb : b = 0x73
        · subst hb; simp [readBytes, sendFrame_tx, storeBytes, and_assoc]
        · simp [readBytes, sendFrame_tx, storeBytes, hb, and_assoc]
  · have hL0 : 0 < L := by omega
    have hL1 : (L : Int) ≠ 1 := by omega
    have hL2 : (L : Int) ≠ 0 := by omega
    have hL3 : ¬ L = 0 := by omega
    have hL4 : ¬ L = 1 := by omega
    by_cases hc : (readBytes (min L MAX_PAYLOAD_SIZE) r).1.length = L
    · simp [hL0, hc, hL1, hL2, hL3, hL4, sendFrame_tx, and_assoc]
    · simp [hL0, hc, hL3, hL4, sendFrame_tx, and_assoc]

theorem C4_sendPacket_reply_classes_witness :
    ∃ code s', sendPacket (fun _ => 0xAB) 1 true (bootState [some 1, some 0x73]) =
        some (code, s') ∧
      s'.tx = [] ++ (1 % 256 :: (List.range 1).map (fun _ => 0xAB)) ∧
      ((1 : Nat) = 0 → code = 0 ∧ s'.status = STATUS.OK) ∧
      ((1 : Nat) = 1 → [some 0x73].head? = some (some 0x73) →
        code = -1 ∧ s'.status = STATUS.ERR_RESET) ∧
      ((1 : Nat) = 1 → (∃ b, [some 0x73].head? = some (some b) ∧ b ≠ 0x73) →
        code = -1 ∧ s'.status = STATUS.ERR_UNKNOWN) ∧
      ((1 : Nat) = 1 → (∀ b, [some 0x73].head? ≠ some (some b)) →
        code = -1 ∧ s'.status = STATUS.ERR_UNEXPECTED) ∧
      (2 ≤ 1 → code = -1 ∧ s'.status = STATUS.ERR_UNEXPECTED) :=
  C4_sendPacket_reply_classes (fun _ => 0xAB) 1 (bootState [some 1, some 0x73]) 0 1
    [some 0x73] rfl

/-- C4, counterexample to the claim as stated: the reply `[1, 0x00]` is neither empty nor the
Reset frame, and `sendPacket` sets `ERR_UNKNOWN`, not `ERR_UNEXPECTED`. -/
theorem C4_counterexample :
    ∃ s', sendPacket (fun _ => 0xAB) 1 true (bootState [some 1, some 0]) = some (-1, s') ∧
      s'.status = STATUS.ERR_UNKNOWN ∧ s'.status ≠ STATUS.ERR_UNEXPECTED := by
  refine ⟨_, rfl, ?_, ?_⟩ <;> decide

/-! ## Byte transfer engine: the claim -/

/-- C1: over an EEPROM that stores the data-bus byte at the latched address when WE is pulsed
with CE low, and that drives the stored byte while CE and OE are low, for every address in
[0, 0x7FFF], every byte `v` and every prior state in Standby (clock lines of the address
register at rest), `writeChipByte(a, v)` followed by `waitForChip()`, which returns, and then
`readChipByte(a)` returns `v`. -/
theorem C1_write_wait_read (a v fuel : Nat) (s : State) (ha : a < 0x8000) (hv : v < 256)
    (hfuel : 0 < fuel) (hm : s.mode = MODE.STANDBY) (hclk : ClocksIdle s)
    (hidle : ChipIdle s) :
    ∃ s1, waitForChip fuel (writeChipByte a v s) = some s1 ∧
      (readChipByte a s1).1 = v := by
  have hw := writeChipByte_spec a v s (by rw [hm]; decide) hclk hv
  have hi1 : ChipIdle (writeChipByte a v s) := by
    intro n; rw [hw.2.2.2.2.2.1]; exact hidle n
  have e := waitForChip_idle fuel (writeChipByte a v s) hfuel hw.1 hi1
    hw.2.2.2.2.2.2.2.2.2.1 hw.2.2.2.2.2.2.2.2.2.2.2.1
  refine ⟨_, e, ?_⟩
  rw [readChipByte_idle]
  · simp only [hw.2.2.2.2.2.2.1]
    have ha1 : a % 65536 % 0x8000 = a := by omega
    rw [ha1]
    simp [setAt, Nat.mod_eq_of_lt hv]
  · simp [hw.1]
  · exact hw.2.2.2.2.2.2.2.1
  · exact hi1
  · simp +decide [bitRead_or, bitRead_and]
  · simp +decide [bitRead_or, bitRead_and]

theorem C1_write_wait_read_witness :
    ∃ s1, waitForChip 1 (writeChipByte 0x10 0xAB (bootState [])) = some s1 ∧
      (readChipByte 0x10 s1).1 = 0xAB :=
  C1_write_wait_read 0x10 0xAB 1 (bootState []) (by decide) (by decide) (by decide) rfl
    ⟨by decide, by decide⟩ (fun _ => rfl)

/-! ## Command dispatch -/

/-- A frame whose payload breaks off before its declared length: `receivePacket` reports a
corrupt frame. -/
theorem readBytes_length_ne (n L : Nat) (pl : List Nat) (tl : List (Option Nat))
    (hshort : pl.length < L) (hgap : ∀ b, tl.head? ≠ some (some b)) :
    (readBytes (min L n) (pl.map some ++ tl)).1.length ≠ L := by
  by_cases h : pl.length < min L n
  · rw [readBytes_short _ pl tl h hgap]
    exact Nat.ne_of_lt hshort
  · rw [readBytes_full _ pl tl (not_lt.mp h)]
    simp only [List.length_take]
    omega

/-- The frame of the LED around a command that does nothing else. -/
theorem led_frame (s : State) :
    digitalWriteLED false (digitalWriteLED true s) =
      { s with PORTB := (s.PORTB ||| 0b00000100) &&& 0b11111011,
               log := Ev.led false :: Ev.led true :: s.log } := by
  rw [digitalWriteLED_true, digitalWriteLED_false]

/-- C9: when the payload of a command frame breaks off before its declared length and the
read deadline passes, the body of `loop()` executes no command: the status is `ERR_CORRUPT`
afterwards, nothing is sent to the host, and the mode, the data-bus registers, the EEPROM
control lines and the EEPROM are untouched; only the status LED goes on and off. -/
theorem C9_corrupt_frame_not_executed (fuel : Nat) (s : State) (g L : Nat) (pl : List Nat)
    (tl : List (Option Nat))
    (hrx : s.rx = List.replicate g none ++ some L :: (pl.map some ++ tl))
    (hshort : pl.length < L) (hgap : ∀ b, tl.head? ≠ some (some b)) :
    ∃ s', loopBody fuel s = some s' ∧ s'.status = STATUS.ERR_CORRUPT ∧ s'.tx = s.tx ∧
      s'.mode = s.mode ∧ s'.DDRD = s.DDRD ∧ s'.DDRB = s.DDRB ∧ s'.PORTD = s.PORTD ∧
      s'.PORTB &&& 3 = s.PORTB &&& 3 ∧ s'.PORTC = s.PORTC ∧ s'.chip = s.chip ∧
      s'.shiftReg = s.shiftReg ∧ s'.addrLatch = s.addrLatch ∧
      s'.log = Ev.led false :: Ev.led true :: s.log := by
  have hL : 0 < L := by omega
  have hne := readBytes_length_ne (MAX_PAYLOAD_SIZE + 1) L pl tl hshort hgap
  unfold loopBody
  rw [receivePacket_eq _ _ false s g L _ hrx]
  simp only [hL, if_true, hne, ne_eq, not_false_eq_true]
  unfold dispatch
  simp only [gt_iff_lt, Int.reduceNeg, Int.neg_pos, Int.reduceLT, if_false]
  rw [led_frame]
  exact ⟨_, rfl, rfl, rfl, rfl, rfl, rfl, rfl, led_low_bits _, rfl, rfl, rfl, rfl, rfl⟩

theorem C9_corrupt_frame_not_executed_witness :
    ∃ s', loopBody 1 (bootState [some 4, some 0x77, some 0, none]) = some s' ∧
      s'.status = STATUS.ERR_CORRUPT ∧ s'.tx = (bootState [some 4, some 0x77, some 0, none]).tx ∧
      s'.mode = (bootState [some 4, some 0x77, some 0, none]).mode ∧
      s'.DDRD = (bootState [some 4, some 0x77, some 0, none]).DDRD ∧
      s'.DDRB = (bootState [some 4, some 0x77, some 0, none]).DDRB ∧
      s'.PORTD = (bootState [some 4, some 0x77, some 0, none]).PORTD ∧
      s'.PORTB &&& 3 = (bootState [some 4, some 0x77, some 0, none]).PORTB &&& 3 ∧
      s'.PORTC = (bootState [some 4, some 0x77, some 0, none]).PORTC ∧
      s'.chip = (bootState [some 4, some 0x77, some 0, none]).chip ∧
      s'.shiftReg = (bootState [some 4, some 0x77, some 0, none]).shiftReg ∧
      s'.addrLatch = (bootState [some 4, some 0x77, some 0, none]).addrLatch ∧
      s'.log = Ev.led false :: Ev.led true ::
        (bootState [some 4, some 0x77, some 0, none]).log :=
  C9_corrupt_frame_not_executed 1 (bootState [some 4, some 0x77, some 0, none]) 0 4
    [0x77, 0] [none] rfl (by decide) (by simp)

/-- C6 (as amended): a complete command frame of at most 64 bytes whose opcode is not 0x74
and whose opcode and length match none of the five commands sets `ERR_INVALID`; nothing is
sent to the host, and the mode, the data-bus registers, the EEPROM control lines and the
EEPROM are untouched; only the status LED goes on and off. -/
theorem C6_invalid_frame (fuel : Nat) (s : State) (g cmd : Nat) (args : List Nat)
    (tl : List (Option Nat))
    (hrx : s.rx = List.replicate g none ++
      some (args.length + 1) :: some cmd :: (args.map some ++ tl))
    (hlen : args.length + 1 ≤ 64)
    (hr : ¬ (cmd = 0x72 ∧ args.length + 1 = 3)) (hd : ¬ (cmd = 0x64 ∧ args.length + 1 = 1))
    (hw : ¬ (cmd = 0x77 ∧ args.length + 1 = 4)) (hl : ¬ (cmd = 0x6c ∧ args.length + 1 = 3))
    (hs : ¬ (cmd = 0x73 ∧ args.length + 1 = 1)) (ht : cmd ≠ 0x74) :
    ∃ s', loopBody fuel s = some s' ∧ s'.status = STATUS.ERR_INVALID ∧ s'.tx = s.tx ∧
      s'.rx = tl ∧ s'.mode = s.mode ∧ s'.DDRD = s.DDRD ∧ s'.DDRB = s.DDRB ∧
      s'.PORTD = s.PORTD ∧ s'.PORTB &&& 3 = s.PORTB &&& 3 ∧ s'.PORTC = s.PORTC ∧
      s'.chip = s.chip ∧ s'.shiftReg = s.shiftReg ∧ s'.addrLatch = s.addrLatch ∧
      s'.log = Ev.led false :: Ev.led true :: s.log := by
  have hrx1 : s.rx = List.replicate g none ++
      some (args.length + 1) :: ((cmd :: args).map some ++ tl) := by simpa using hrx
  have hmin : min (args.length + 1) (MAX_PAYLOAD_SIZE + 1) = args.length + 1 :=
    Nat.min_eq_left hlen
  have hfull := readBytes_full (args.length + 1) (cmd :: args) tl (by simp)
  unfold loopBody
  rw [receivePacket_eq _ _ false s g _ _ hrx1, hmin, hfull]
  simp only [Nat.zero_lt_succ, if_true, List.take_succ_cons, List.take_length,
    List.length_cons, ne_eq, not_true_eq_false, if_false, List.drop_succ_cons,
    List.drop_length, List.map_nil, List.nil_append, Bool.false_eq_true]
  have hc : storeBytes s.stack.junk (cmd :: args) 0 = cmd := by simp [storeBytes]
  have hr' : ¬ (cmd = 0x72 ∧ ((args.length + 1 : Nat) : Int) = 3) := by
    intro h; exact hr ⟨h.1, by omega⟩
  have hd' : ¬ (cmd = 0x64 ∧ ((args.length + 1 : Nat) : Int) = 1) := by
    intro h; exact hd ⟨h.1, by omega⟩
  have hw' : ¬ (cmd = 0x77 ∧ ((args.length + 1 : Nat) : Int) = 4) := by
    intro h; exact hw ⟨h.1, by omega⟩
  have hl' : ¬ (cmd = 0x6c ∧ ((args.length + 1 : Nat) : Int) = 3) := by
    intro h; exact hl ⟨h.1, by omega⟩
  have hs' : ¬ (cmd = 0x73 ∧ ((args.length + 1 : Nat) : Int) = 1) := by
    intro h; exact hs ⟨h.1, by omega⟩
  have hpos : ((args.length + 1 : Nat) : Int) > 0 := by omega
  unfold dispatch
  simp only [hpos, if_true, hc, hr', hd', hw', hl', hs', ht, if_false]
  rw [digitalWriteLED_true, digitalWriteLED_false]
  exact ⟨_, rfl, rfl, rfl, rfl, rfl, rfl, rfl, rfl, led_low_bits _, rfl, rfl, rfl, rfl, rfl⟩

theorem C6_invalid_frame_witness :
    ∃ s', loopBody 1 (bootState [some 2, some 0x64, some 7]) = some s' ∧
      s'.status = STATUS.ERR_INVALID ∧ s'.tx = (bootState [some 2, some 0x64, some 7]).tx ∧
      s'.rx = [] ∧ s'.mode = (bootState [some 2, some 0x64, some 7]).mode ∧
      s'.DDRD = (bootState [some 2, some 0x64, some 7]).DDRD ∧
      s'.DDRB = (bootState [some 2, some 0x64, some 7]).DDRB ∧
      s'.PORTD = (bootState [some 2, some 0x64, some 7]).PORTD ∧
      s'.PORTB &&& 3 = (bootState [some 2, some 0x64, some 7]).PORTB &&& 3 ∧
      s'.PORTC = (bootState [some 2, some 0x64, some 7]).PORTC ∧
      s'.chip = (bootState [some 2, some 0x64, some 7]).chip ∧
      s'.shiftReg = (bootState [some 2, some 0x64, some 7]).shiftReg ∧
      s'.addrLatch = (bootState [some 2, some 0x64, some 7]).addrLatch ∧
      s'.log = Ev.led false :: Ev.led true :: (bootState [some 2, some 0x64, some 7]).log :=
  C6_invalid_frame 1 (bootState [some 2, some 0x64, some 7]) 0 0x64 [7] [] rfl (by decide)
    (by decide) (by decide) (by decide) (by decide) (by decide) (by decide)

/-! ## Command dispatch: test, write and read commands -/

theorem AtRest_led (s : State) (h : AtRest s) : AtRest (digitalWriteLED true s) := by
  rw [digitalWriteLED_true]
  have hb := led_bits s.PORTB
  exact ⟨h.1, ⟨hb.2.2.1.trans h.2.1.1, hb.2.2.2.1.trans h.2.1.2⟩, h.2.2.1, h.2.2.2⟩

theorem argWord_eq (packet : Buf) (hi lo : Nat) (h1 : packet 1 = hi) (h2 : packet 2 = lo)
    (hhi : hi < 256) (hlo : lo < 256) : argWord packet = 256 * hi + lo := by
  unfold argWord
  rw [h1, h2, Nat.shiftLeft_eq]
  omega

/-- What `receivePacket` hands to `loop()` for a complete frame of at most 64 bytes. -/
theorem receivePacket_frame (s : State) (g : Nat) (pl : List Nat) (tl : List (Option Nat))
    (hrx : s.rx = List.replicate g none ++ some pl.length :: (pl.map some ++ tl))
    (hpos : 0 < pl.length) (hlen : pl.length ≤ 64) :
    receivePacket s.stack.junk (MAX_PAYLOAD_SIZE + 1) false s =
      some ((pl.length : Int), storeBytes s.stack.junk pl, { s with rx := tl }) := by
  have hmin : min pl.length (MAX_PAYLOAD_SIZE + 1) = pl.length := Nat.min_eq_left hlen
  rw [receivePacket_eq _ _ false s g _ _ hrx, hmin, readBytes_full pl.length pl tl (le_refl _)]
  simp [hpos]

/-- The branch `cmd == 0x74` of `loop()` is taken for every frame with this opcode; on a chip
that is not inside a write cycle it returns, sends a packet and leaves the status alone. -/
theorem loopBody_test_command (fuel : Nat) (s : State) (g : Nat) (args : List Nat)
    (tl : List (Option Nat)) (hfuel : 0 < fuel) (hs : AtRest s) (hidle : ChipIdle s)
    (hrx : s.rx = List.replicate g none ++
      some (args.length + 1) :: some 0x74 :: (args.map some ++ tl))
    (hlen : args.length + 1 ≤ 64) :
    ∃ s' v, loopBody fuel s = some s' ∧ s'.status = s.status ∧ s'.tx = s.tx ++ [1, v] := by
  have hrx1 : s.rx = List.replicate g none ++
      some (0x74 :: args).length :: ((0x74 :: args).map some ++ tl) := by simpa using hrx
  have e := receivePacket_frame s g (0x74 :: args) tl hrx1 (by simp) (by simpa using hlen)
  have hr : AtRest (digitalWriteLED true { s with rx := tl }) := AtRest_led _ hs
  have hi : ChipIdle (digitalWriteLED true { s with rx := tl }) := by
    rw [digitalWriteLED_true]; exact hidle
  obtain ⟨t, v, e1, h1, h2, _⟩ := testCommand_idle fuel _ hfuel hr hi
  have hc : storeBytes s.stack.junk (0x74 :: args) 0 = 0x74 := by simp [storeBytes]
  have hpos : (((0x74 :: args).length : Nat) : Int) > 0 := by
    simp only [List.length_cons]; omega
  refine ⟨digitalWriteLED false t, v, ?_, ?_, ?_⟩
  · unfold loopBody
    rw [e]
    simp only []
    unfold dispatch
    simp only [hpos, if_true, hc]
    simp only [show ¬ ((0x74 : Nat) = 0x72) by decide, show ¬ ((0x74 : Nat) = 0x64) by decide,
      show ¬ ((0x74 : Nat) = 0x77) by decide, show ¬ ((0x74 : Nat) = 0x6c) by decide,
      show ¬ ((0x74 : Nat) = 0x73) by decide, false_and, if_false, if_true, e1]
  · rw [digitalWriteLED_false]
    simp only [h1]
    rw [digitalWriteLED_true]
  · rw [digitalWriteLED_false]
    simp only [h2]
    rw [digitalWriteLED_true]

/-- C6, counterexample to the claim as stated: the frame `[1, 0x74]` matches none of the five
commands, yet the body of `loop()` does not set `ERR_INVALID` and sends a packet to the
host. -/
theorem C6_counterexample :
    ∃ s', loopBody 1 (bootState [some 1, some 0x74]) = some s' ∧
      s'.status ≠ STATUS.ERR_INVALID ∧ s'.tx ≠ (bootState [some 1, some 0x74]).tx := by
  obtain ⟨s', v, e, h1, h2⟩ := loopBody_test_command 1 (bootState [some 1, some 0x74]) 0 []
    [] (by decide) ⟨rfl, ⟨by decide, by decide⟩, by decide, by decide⟩ (fun _ => rfl) rfl
    (by decide)
  refine ⟨s', e, ?_, ?_⟩
  · rw [h1]; decide
  · rw [h2]; simp [bootState]

/-- The write command: the byte is stored, the body waits for the chip, and nothing is
written to the serial link. -/
theorem loopBody_write_command (fuel hi lo v : Nat) (s : State) (g : Nat)
    (tl : List (Option Nat)) (hfuel : 0 < fuel) (hhi : hi < 256) (hlo : lo < 256)
    (hv : v < 256) (hs : AtRest s) (hidle : ChipIdle s)
    (hrx : s.rx = List.replicate g none ++
      some 4 :: some 0x77 :: some hi :: some lo :: some v :: tl) :
    ∃ s', loopBody fuel s = some s' ∧ s'.tx = s.tx ∧ s'.rx = tl ∧ s'.status = s.status ∧
      s'.chip.mem = setAt s.chip.mem ((256 * hi + lo) % 0x8000) v := by
  have e := receivePacket_frame s g [0x77, hi, lo, v] tl (by simpa using hrx) (by simp)
    (by simp)
  have hr : AtRest (digitalWriteLED true { s with rx := tl }) := AtRest_led _ hs
  have hi1 : ChipIdle (digitalWriteLED true { s with rx := tl }) := by
    rw [digitalWriteLED_true]; exact hidle
  have hw := writeChipByte_spec (256 * hi + lo) v (digitalWriteLED true { s with rx := tl })
    (by rw [hr.1]; decide) hr.2.1 hv
  have hi2 : ChipIdle (delay 1
      (writeChipByte (256 * hi + lo) v (digitalWriteLED true { s with rx := tl }))) := by
    intro k
    show (writeChipByte (256 * hi + lo) v (digitalWriteLED true { s with rx := tl })).chip.busy k
      = none
    rw [hw.2.2.2.2.2.1]; exact hi1 k
  have hr2 : AtRest (delay 1
      (writeChipByte (256 * hi + lo) v (digitalWriteLED true { s with rx := tl }))) :=
    ⟨hw.1, hw.2.2.2.2.2.2.2.1, hw.2.2.2.2.2.2.2.2.2.1, hw.2.2.2.2.2.2.2.2.2.2.2.1⟩
  obtain ⟨w, ew, _, _, hws, hwrx, hwtx, _, hwmem, _⟩ := waitForChip_rest fuel _ hfuel hr2 hi2
  have ha := argWord_eq (storeBytes s.stack.junk [0x77, hi, lo, v]) hi lo
    (by simp [storeBytes]) (by simp [storeBytes]) hhi hlo
  have hc : storeBytes s.stack.junk [0x77, hi, lo, v] 0 = 0x77 := by simp [storeBytes]
  have h3 : storeBytes s.stack.junk [0x77, hi, lo, v] 3 = v := by simp [storeBytes]
  have ed : dispatch (storeBytes s.stack.junk [0x77, hi, lo, v])
      (([0x77, hi, lo, v].length : Nat) : Int) fuel (digitalWriteLED true { s with rx := tl }) =
      waitForChip fuel (delay 1
        (writeChipByte (256 * hi + lo) v (digitalWriteLED true { s with rx := tl }))) := by
    unfold dispatch
    simp only [hc, h3, ha, List.length_cons, List.length_nil]
    simp +decide
  have h65 : (256 * hi + lo) % 65536 = 256 * hi + lo := by omega
  refine ⟨digitalWriteLED false w, ?_, ?_, ?_, ?_, ?_⟩
  · unfold loopBody
    rw [e]
    simp only []
    rw [ed, ew]
  · rw [digitalWriteLED_false]
    simp only [hwtx, delay_frame]
    rw [hw.2.2.2.1, digitalWriteLED_true]
  · rw [digitalWriteLED_false]
    simp only [hwrx, delay_frame]
    rw [hw.2.2.1, digitalWriteLED_true]
  · rw [digitalWriteLED_false]
    simp only [hws, delay_frame]
    rw [hw.2.1, digitalWriteLED_true]
  · rw [digitalWriteLED_false]
    simp only [hwmem, delay_frame]
    rw [hw.2.2.2.2.2.2.1, digitalWriteLED_true, h65]

/-- C7, the code at the failing input: for the write command `[4, 0x77, 0x00, 0x10, 0xAB]`
the body of `loop()` stores 0xAB at address 0x10 and returns without writing any byte to the
serial link, where the claim has one empty ack. -/
theorem C7_write_command_sends_no_ack :
    ∃ s', loopBody 1 (bootState [some 4, some 0x77, some 0x00, some 0x10, some 0xAB]) =
        some s' ∧ s'.chip.mem 0x10 = 0xAB ∧ s'.tx = [] ∧ s'.rx = [] := by
  obtain ⟨s', e, h1, h2, _, h4⟩ := loopBody_write_command 1 0x00 0x10 0xAB
    (bootState [some 4, some 0x77, some 0x00, some 0x10, some 0xAB]) 0 [] (by decide)
    (by decide) (by decide) (by decide) ⟨rfl, ⟨by decide, by decide⟩, by decide, by decide⟩
    (fun _ => rfl) rfl
  refine ⟨s', e, ?_, ?_, h2⟩
  · rw [h4]; simp [setAt]
  · rw [h1]; rfl

theorem shiftEvents_reverse (address : Nat) :
    (shiftEvents address).reverse =
      Ev.latch (address % 65536) ::
        (List.range 16).map (fun i => Ev.shift (bitRead address i)) := by
  unfold shiftEvents
  rw [List.reverse_append, ← List.map_reverse, List.reverse_reverse]
  rfl

/-- C8: for every read command frame `[3, 0x72, hi, lo]`, the body of `loop()` shifts the
address `256*hi + lo` into the address register, bit 15 first, latches it, samples the data
bus there and sends exactly the two bytes `[1, V]` with `V` the sampled byte; on a chip at
rest `V` is the stored byte. -/
theorem C8_read_command (fuel hi lo : Nat) (s : State) (g : Nat) (tl : List (Option Nat))
    (hhi : hi < 256) (hlo : lo < 256) (hclk : ClocksIdle s)
    (hrx : s.rx = List.replicate g none ++ some 3 :: some 0x72 :: some hi :: some lo :: tl) :
    ∃ s' sR, sR = readPoint (256 * hi + lo) (dashLED (digitalWriteLED true { s with rx := tl })) ∧
      loopBody fuel s = some s' ∧
      sR.shiftReg = 256 * hi + lo ∧ sR.addrLatch = 256 * hi + lo ∧
      sR.log = (shiftEvents (256 * hi + lo)).reverse ++
        (enterReadMode (dashLED (digitalWriteLED true { s with rx := tl }))).log ∧
      s'.tx = s.tx ++ [1, readDataBus sR] ∧ s'.rx = tl ∧ s'.status = s.status ∧
      (AtRest s → ChipIdle s → readDataBus sR = s.chip.mem ((256 * hi + lo) % 0x8000) % 256) := by
  have e := receivePacket_frame s g [0x72, hi, lo] tl (by simpa using hrx) (by simp)
    (by simp)
  have ha := argWord_eq (storeBytes s.stack.junk [0x72, hi, lo]) hi lo
    (by simp [storeBytes]) (by simp [storeBytes]) hhi hlo
  have hc : storeBytes s.stack.junk [0x72, hi, lo] 0 = 0x72 := by simp [storeBytes]
  have h65 : (256 * hi + lo) % 65536 = 256 * hi + lo := by omega
  have hb := led_bits s.PORTB
  have hb2 := led_bits (s.PORTB ||| 0b00000100)
  have hclk1 : ClocksIdle (enterReadMode (dashLED (digitalWriteLED true { s with rx := tl }))) := by
    unfold ClocksIdle
    rw [(enterReadMode_frame _).2.1, dashLED_eq, digitalWriteLED_true]
    exact ⟨hb2.1.trans (hb.2.2.1.trans hclk.1), hb2.2.1.trans (hb.2.2.2.1.trans hclk.2)⟩
  have hs := setAddress_spec (256 * hi + lo)
    (enterReadMode (dashLED (digitalWriteLED true { s with rx := tl }))) hclk1
  have hf := readChipByte_frame (256 * hi + lo) (dashLED (digitalWriteLED true { s with rx := tl }))
  have ed : dispatch (storeBytes s.stack.junk [0x72, hi, lo])
      (([0x72, hi, lo].length : Nat) : Int) fuel (digitalWriteLED true { s with rx := tl }) =
      some (sendFrame (fun _ => readDataBus (readPoint (256 * hi + lo)
          (dashLED (digitalWriteLED true { s with rx := tl })))) 1
        (readChipByte (256 * hi + lo) (dashLED (digitalWriteLED true { s with rx := tl }))).2) := by
    unfold dispatch
    simp only [hc, ha, List.length_cons, List.length_nil, sendPacket, readChipByte_value]
    simp +decide
  refine ⟨digitalWriteLED false (sendFrame (fun _ => readDataBus (readPoint (256 * hi + lo)
        (dashLED (digitalWriteLED true { s with rx := tl })))) 1
      (readChipByte (256 * hi + lo) (dashLED (digitalWriteLED true { s with rx := tl }))).2),
    _, rfl, ?_, ?_, ?_, ?_, ?_, ?_, ?_, ?_⟩
  · unfold loopBody
    rw [e]
    simp only []
    rw [ed]
  · rw [readPoint, hs.2.1, h65]
  · rw [readPoint, hs.2.2.1, h65]
  · rw [readPoint, hs.2.2.2, shiftEvents_reverse]
    rfl
  · rw [digitalWriteLED_false]
    simp only []
    rw [sendFrame_tx, hf.2.2.2.1, dashLED_eq, digitalWriteLED_true]
    rfl
  · rw [digitalWriteLED_false]
    simp only []
    rw [(sendFrame_frame _ _ _).2.2.2.2.2.2.2.2.2.2.2.2.1, hf.2.2.1, dashLED_eq,
      digitalWriteLED_true]
  · rw [digitalWriteLED_false]
    simp only []
    rw [(sendFrame_frame _ _ _).2.1, hf.2.1, dashLED_eq, digitalWriteLED_true]
  · intro hrest hidle
    have hr1 : AtRest (dashLED (digitalWriteLED true { s with rx := tl })) := by
      rw [dashLED_eq, digitalWriteLED_true]
      exact ⟨hrest.1, ⟨hb2.1.trans (hb.2.2.1.trans hclk.1),
        hb2.2.1.trans (hb.2.2.2.1.trans hclk.2)⟩, hrest.2.2.1, hrest.2.2.2⟩
    have hi1 : ChipIdle (dashLED (digitalWriteLED true { s with rx := tl })) := by
      rw [dashLED_eq, digitalWriteLED_true]; exact hidle
    have h := readChipByte_idle (256 * hi + lo) _ (by rw [hr1.1]; decide) hr1.2.1 hi1
      hr1.2.2.1 hr1.2.2.2
    rw [readChipByte_value, h65] at h
    rw [h, dashLED_eq, digitalWriteLED_true]

theorem C8_read_command_witness :
    ∃ s' sR, sR = readPoint (256 * 0 + 9) (dashLED (digitalWriteLED true
        { bootState [some 3, some 0x72, some 0, some 9] with rx := [] })) ∧
      loopBody 1 (bootState [some 3, some 0x72, some 0, some 9]) = some s' ∧
      sR.shiftReg = 256 * 0 + 9 ∧ sR.addrLatch = 256 * 0 + 9 ∧
      sR.log = (shiftEvents (256 * 0 + 9)).reverse ++
        (enterReadMode (dashLED (digitalWriteLED true
          { bootState [some 3, some 0x72, some 0, some 9] with rx := [] }))).log ∧
      s'.tx = (bootState [some 3, some 0x72, some 0, some 9]).tx ++ [1, readDataBus sR] ∧
      s'.rx = [] ∧ s'.status = (bootState [some 3, some 0x72, some 0, some 9]).status ∧
      (AtRest (bootState [some 3, some 0x72, some 0, some 9]) →
        ChipIdle (bootState [some 3, some 0x72, some 0, some 9]) →
        readDataBus sR =
          (bootState [some 3, some 0x72, some 0, some 9]).chip.mem ((256 * 0 + 9) % 0x8000)
            % 256) :=
  C8_read_command 1 0 9 (bootState [some 3, some 0x72, some 0, some 9]) 0 [] (by decide)
    (by decide) ⟨by decide, by decide⟩ rfl

/-! ## Uploading the chip contents: the claims -/

/-- C2: when the host answers every chunk with an empty ack, `dumpChipBytes` returns 0 and
what it has written to the serial link is exactly 521 packets: packet `k < 520` is the length
byte 63 followed by the bytes read at addresses `63k .. 63k+62` in ascending order, the last
packet is the length byte 8 followed by the bytes read at addresses `32760 .. 32767`, and the
payloads one after the other are the 32768 bytes read at addresses `0 .. 0x7FFF` in order.
The byte read at `a` is what `readDataBus` returns in Read mode with `a` latched; on a chip at
rest it is the stored byte. -/
theorem C2_dump_all_chunks_acked (s : State) (rest : List (Option Nat)) (hclk : ClocksIdle s)
    (hrx : s.rx = List.replicate 521 (some 0) ++ rest) :
    ∃ s1, dumpChipBytes s = some (0, s1) ∧
      s1.tx = s.tx ++
        (List.range 521).flatMap (dumpPacket (fun a => readDataBus (readPoint a s))) ∧
      (∀ k, k < 520 → dumpPacket (fun a => readDataBus (readPoint a s)) k =
        63 :: (List.range 63).map (fun j => readDataBus (readPoint (63 * k + j) s))) ∧
      dumpPacket (fun a => readDataBus (readPoint a s)) 520 =
        8 :: (List.range 8).map (fun j => readDataBus (readPoint (32760 + j) s)) ∧
      (List.range 521).flatMap
          (fun k => (dumpPacket (fun a => readDataBus (readPoint a s)) k).tail) =
        (List.range 0x8000).map (fun a => readDataBus (readPoint a s)) ∧
      s1.rx = rest ∧ s1.status = s.status ∧ s1.mode = MODE.STANDBY ∧
      (AtRest s → ChipIdle s → ∀ a, a < 0x8000 →
        readDataBus (readPoint a s) = s.chip.mem a % 256) := by
  have hclk0 : ClocksIdle (enterReadMode s) := by
    unfold ClocksIdle
    rw [(enterReadMode_frame s).2.1]
    exact hclk
  have hrx0 : (enterReadMode s).rx =
      List.replicate 520 (some 0) ++ some 0 :: rest := by
    rw [(enterReadMode_frame s).2.2.2.2.2.2.2.1, hrx]
    have e : (521 : Nat) = 520 + 1 := rfl
    rw [e, List.replicate_succ', List.append_assoc]
    rfl
  obtain ⟨p1, t1, hrun, hbuf, htx, hrx1, hst⟩ :=
    dumpLoop_all (enterReadMode s) hclk0 (some 0 :: rest) hrx0
  have hlast : (8 :: (List.range 8).map p1) =
      dumpPacket (fun a => readDataBus (readPoint a s)) 520 := by
    unfold dumpPacket
    simp only [lt_irrefl, if_false]
    congr 1
    apply List.map_congr_left
    intro j hj
    rw [List.mem_range] at hj
    exact hbuf j hj
  refine ⟨{ enterStandbyMode t1 with
      tx := (enterStandbyMode t1).tx ++ (8 % 256 :: (List.range 8).map p1), rx := rest,
      log := frameEvents p1 8 ++ (enterStandbyMode t1).log },
    ?_, ?_, ?_, ?_, ?_, rfl, ?_, rfl, ?_⟩
  · rw [dumpChipBytes_eq, hrun]
    simp only [dumpFinish, show (7 : Nat) > 0 from by decide, if_true]
    exact sendPacket_ack p1 8 (enterStandbyMode t1) rest
      (by rw [(enterStandbyMode_frame t1).2.2.2.2.2.2.2.1, hrx1])
  · show (enterStandbyMode t1).tx ++ (8 % 256 :: (List.range 8).map p1) = _
    rw [(enterStandbyMode_frame t1).2.2.2.2.2.2.2.2.1, htx, (enterReadMode_frame s).2.2.2.2.2.2.2.2.1,
      show (8 % 256 : Nat) = 8 from rfl, hlast, range_521, List.flatMap_append,
      dumpPacket_full _ 520 (le_refl _), List.append_assoc]
    simp [readPoint]
  · intro k hk
    simp [dumpPacket, hk]
  · simp [dumpPacket]
  · rw [range_521, List.flatMap_append]
    have e1 : (List.range 520).flatMap
        (fun k => (dumpPacket (fun a => readDataBus (readPoint a s)) k).tail) =
        (List.range 520).flatMap (fun i => (List.range 63).map
          (fun j => (fun a => readDataBus (readPoint a s)) (63 * i + j))) := by
      apply flatMap_congr_mem
      intro x hx
      rw [List.mem_range] at hx
      simp [dumpPacket, hx]
    rw [e1, payload_concat (fun a => readDataBus (readPoint a s)) 520]
    have e2 : (0x8000 : Nat) = 63 * 520 + 8 := rfl
    rw [e2, List.range_add, List.map_append]
    simp [dumpPacket]
  · show (enterStandbyMode t1).status = s.status
    rw [(enterStandbyMode_frame t1).1, hst, (enterReadMode_frame s).1]
  · intro hrest hidle a ha
    have h := readChipByte_idle a s (by rw [hrest.1]; decide) hclk hidle hrest.2.2.1 hrest.2.2.2
    rw [readChipByte_value] at h
    rw [h]
    congr 2
    omega

theorem C2_dump_all_chunks_acked_witness :
    ∃ s1, dumpChipBytes (bootState (List.replicate 521 (some 0))) = some (0, s1) ∧
      s1.tx = (bootState (List.replicate 521 (some 0))).tx ++
        (List.range 521).flatMap (dumpPacket
          (fun a => readDataBus (readPoint a (bootState (List.replicate 521 (some 0)))))) ∧
      (∀ k, k < 520 → dumpPacket
          (fun a => readDataBus (readPoint a (bootState (List.replicate 521 (some 0))))) k =
        63 :: (List.range 63).map (fun j =>
          readDataBus (readPoint (63 * k + j) (bootState (List.replicate 521 (some 0)))))) ∧
      dumpPacket
          (fun a => readDataBus (readPoint a (bootState (List.replicate 521 (some 0))))) 520 =
        8 :: (List.range 8).map (fun j =>
          readDataBus (readPoint (32760 + j) (bootState (List.replicate 521 (some 0))))) ∧
      (List.range 521).flatMap
          (fun k => (dumpPacket
            (fun a => readDataBus (readPoint a (bootState (List.replicate 521 (some 0)))))
            k).tail) =
        (List.range 0x8000).map
          (fun a => readDataBus (readPoint a (bootState (List.replicate 521 (some 0))))) ∧
      s1.rx = [] ∧ s1.status = (bootState (List.replicate 521 (some 0))).status ∧
      s1.mode = MODE.STANDBY ∧
      (AtRest (bootState (List.replicate 521 (some 0))) →
        ChipIdle (bootState (List.replicate 521 (some 0))) → ∀ a, a < 0x8000 →
        readDataBus (readPoint a (bootState (List.replicate 521 (some 0)))) =
          (bootState (List.replicate 521 (some 0))).chip.mem a % 256) :=
  C2_dump_all_chunks_acked (bootState (List.replicate 521 (some 0))) []
    ⟨by decide, by decide⟩ (List.append_nil _).symm

/-- C3: for every `k` with `1 ≤ k ≤ 521`, when the host answers the first `k - 1` chunks of
`dumpChipBytes` with empty acks and chunk `k` with the Reset frame `[1, 0x73]`,
`dumpChipBytes` returns -1, what it has written to the serial link is exactly the first `k`
packets of the dump, `status` is `ERR_RESET` and `mode` is `STANDBY`. -/
theorem C3_dump_reset_at_chunk (s : State) (rest : List (Option Nat)) (k : Nat)
    (hk1 : 1 ≤ k) (hk2 : k ≤ 521) (hclk : ClocksIdle s)
    (hrx : s.rx = List.replicate (k - 1) (some 0) ++ some 1 :: some 0x73 :: rest) :
    ∃ s1, dumpChipBytes s = some (-1, s1) ∧
      s1.tx = s.tx ++
        (List.range k).flatMap (dumpPacket (fun a => readDataBus (readPoint a s))) ∧
      s1.rx = rest ∧ s1.status = STATUS.ERR_RESET ∧ s1.mode = MODE.STANDBY := by
  have hclk0 : ClocksIdle (enterReadMode s) := by
    unfold ClocksIdle
    rw [(enterReadMode_frame s).2.1]
    exact hclk
  have hrx0 : (enterReadMode s).rx =
      List.replicate (k - 1) (some 0) ++ some 1 :: some 0x73 :: rest := by
    rw [(enterReadMode_frame s).2.2.2.2.2.2.2.1, hrx]
  by_cases hk : k ≤ 520
  · -- the Reset frame answers one of the 520 full packets, inside the loop
    obtain ⟨t1, hrun, htx, hrx1, hst, hmd⟩ :=
      dumpLoop_reset_at (enterReadMode s) hclk0 rest (k - 1) (32767 - 63 * k) hrx0
    have e1 : 63 * (k - 1 + 1) + (32767 - 63 * k + 1) = 0x8000 := by omega
    have e2 : k - 1 + 1 = k := by omega
    rw [e1] at hrun
    rw [e2] at htx
    refine ⟨t1, ?_, ?_, hrx1, hst, hmd⟩
    · rw [dumpChipBytes_eq, hrun]
      rfl
    · rw [htx, (enterReadMode_frame s).2.2.2.2.2.2.2.2.1, dumpPacket_full _ k hk]
      rfl
  · -- the Reset frame answers the last packet, after the loop
    have hk521 : k = 521 := by omega
    subst hk521
    obtain ⟨p1, t1, hrun, hbuf, htx, hrx1, hst⟩ :=
      dumpLoop_all (enterReadMode s) hclk0 (some 1 :: some 0x73 :: rest) hrx0
    have hlast : (8 :: (List.range 8).map p1) =
        dumpPacket (fun a => readDataBus (readPoint a s)) 520 := by
      unfold dumpPacket
      simp only [lt_irrefl, if_false]
      congr 1
      apply List.map_congr_left
      intro j hj
      rw [List.mem_range] at hj
      exact hbuf j hj
    refine ⟨{ enterStandbyMode t1 with
        tx := (enterStandbyMode t1).tx ++ (8 % 256 :: (List.range 8).map p1), rx := rest,
        status := STATUS.ERR_RESET, log := frameEvents p1 8 ++ (enterStandbyMode t1).log },
      ?_, ?_, rfl, rfl, rfl⟩
    · rw [dumpChipBytes_eq, hrun]
      simp only [dumpFinish, show (7 : Nat) > 0 from by decide, if_true]
      exact sendPacket_reset p1 8 (enterStandbyMode t1) rest
        (by rw [(enterStandbyMode_frame t1).2.2.2.2.2.2.2.1, hrx1])
    · show (enterStandbyMode t1).tx ++ (8 % 256 :: (List.range 8).map p1) = _
      rw [(enterStandbyMode_frame t1).2.2.2.2.2.2.2.2.1, htx,
        (enterReadMode_frame s).2.2.2.2.2.2.2.2.1,
        show (8 % 256 : Nat) = 8 from rfl, hlast, range_521, List.flatMap_append,
        dumpPacket_full _ 520 (le_refl _), List.append_assoc]
      simp [readPoint]

theorem C3_dump_reset_at_chunk_witness :
    ∃ s1, dumpChipBytes (bootState [some 0, some 1, some 0x73]) = some (-1, s1) ∧
      s1.tx = (bootState [some 0, some 1, some 0x73]).tx ++
        (List.range 2).flatMap (dumpPacket
          (fun a => readDataBus (readPoint a (bootState [some 0, some 1, some 0x73])))) ∧
      s1.rx = [] ∧ s1.status = STATUS.ERR_RESET ∧ s1.mode = MODE.STANDBY :=
  C3_dump_reset_at_chunk (bootState [some 0, some 1, some 0x73]) [] 2 (by decide) (by decide)
    ⟨by decide, by decide⟩ rfl

/-! ## Bus mode controller: the levels of each mode -/

/-- Bits 3..7 of a byte survive the Standby, Read and Write settings of the control lines. -/
theorem ctl_high_bits (p : Nat) :
    ((p ||| 0b00000101) &&& 0b11111101) &&& 0b11111000 = p &&& 0b11111000 ∧
    ((p ||| 0b00000001) &&& 0b11111001) &&& 0b11111000 = p &&& 0b11111000 ∧
    ((p ||| 0b00000011) &&& 0b11111011) &&& 0b11111000 = p &&& 0b11111000 := by
  refine ⟨?_, ?_, ?_⟩ <;>
  · apply byte_ext (lt_of_le_of_lt Nat.and_le_right (by norm_num))
      (lt_of_le_of_lt Nat.and_le_right (by norm_num))
    intro i hi
    simp only [Nat.testBit_and, Nat.testBit_or]
    interval_cases i <;> generalize p.testBit _ = b <;> revert b <;> decide

/-- The direction bits that do not belong to the data bus survive both settings. -/
theorem ddr_other_bits (d : Nat) :
    (d &&& 0b00000011) &&& 0b00000011 = d &&& 0b00000011 ∧
    (d ||| 0b11111100) &&& 0b00000011 = d &&& 0b00000011 ∧
    (d &&& 0b11111100) &&& 0b11111100 = d &&& 0b11111100 ∧
    (d ||| 0b00000011) &&& 0b11111100 = d &&& 0b11111100 := by
  refine ⟨?_, ?_, ?_, ?_⟩ <;>
  · apply byte_ext (lt_of_le_of_lt Nat.and_le_right (by norm_num))
      (lt_of_le_of_lt Nat.and_le_right (by norm_num))
    intro i hi
    simp only [Nat.testBit_and, Nat.testBit_or]
    interval_cases i <;> generalize d.testBit _ = b <;> revert b <;> decide

/-- The registers after a change to Standby mode. -/
theorem enterStandbyMode_regs (s : State) (hm : s.mode ≠ MODE.STANDBY) :
    (enterStandbyMode s).DDRD = s.DDRD &&& 0b00000011 ∧
    (enterStandbyMode s).DDRB = s.DDRB &&& 0b11111100 ∧
    (enterStandbyMode s).PORTC = (s.PORTC ||| 0b00000101) &&& 0b11111101 ∧
    (enterStandbyMode s).log = Ev.delayUs DELAY_MICROS :: (enterStandbyMode s).log.tail := by
  unfold enterStandbyMode
  simp only [hm, ne_eq, not_false_eq_true, if_true]
  simp

/-- The registers after a change to Read mode. -/
theorem enterReadMode_regs (s : State) (hm : s.mode ≠ MODE.READ) :
    (enterReadMode s).DDRD = s.DDRD &&& 0b00000011 ∧
    (enterReadMode s).DDRB = s.DDRB &&& 0b11111100 ∧
    (enterReadMode s).PORTC = (s.PORTC ||| 0b00000001) &&& 0b11111001 ∧
    (enterReadMode s).log = Ev.delayUs DELAY_MICROS :: (enterReadMode s).log.tail := by
  unfold enterReadMode
  simp only [hm, ne_eq, not_false_eq_true, if_true]
  simp

/-- The registers after a change to Write mode. -/
theorem enterWriteMode_regs (s : State) (hm : s.mode ≠ MODE.WRITE) :
    (enterWriteMode s).DDRD = s.DDRD ||| 0b11111100 ∧
    (enterWriteMode s).DDRB = s.DDRB ||| 0b00000011 ∧
    (enterWriteMode s).PORTC = (s.PORTC ||| 0b00000011) &&& 0b11111011 ∧
    (enterWriteMode s).log = Ev.delayUs DELAY_MICROS :: (enterWriteMode s).log.tail := by
  unfold enterWriteMode
  simp only [hm, ne_eq, not_false_eq_true, if_true]
  simp

/-- C11: from a mode other than the target, `enterStandbyMode` leaves CE and WE high and OE
low with the data pins (DDRD bits 2-7, DDRB bits 0-1) as inputs, `enterReadMode` leaves CE
and OE low and WE high with the data pins as inputs, and `enterWriteMode` leaves CE low and
OE and WE high with the data pins as outputs; each time `mode` is the target, the last thing
that happened is the settle delay, and the other bits of DDRD, DDRB and PORTC are as before. -/
theorem C11_enter_mode_levels (s : State) :
    (s.mode ≠ MODE.STANDBY →
      bitRead (enterStandbyMode s).PORTC 2 = 1 ∧ bitRead (enterStandbyMode s).PORTC 0 = 1 ∧
      bitRead (enterStandbyMode s).PORTC 1 = 0 ∧
      (enterStandbyMode s).DDRD &&& 0b11111100 = 0 ∧
      (enterStandbyMode s).DDRB &&& 0b00000011 = 0 ∧
      (enterStandbyMode s).mode = MODE.STANDBY ∧
      (enterStandbyMode s).log.head? = some (Ev.delayUs DELAY_MICROS) ∧
      (enterStandbyMode s).DDRD &&& 0b00000011 = s.DDRD &&& 0b00000011 ∧
      (enterStandbyMode s).DDRB &&& 0b11111100 = s.DDRB &&& 0b11111100 ∧
      (enterStandbyMode s).PORTC &&& 0b11111000 = s.PORTC &&& 0b11111000) ∧
    (s.mode ≠ MODE.READ →
      bitRead (enterReadMode s).PORTC 2 = 0 ∧ bitRead (enterReadMode s).PORTC 1 = 0 ∧
      bitRead (enterReadMode s).PORTC 0 = 1 ∧
      (enterReadMode s).DDRD &&& 0b11111100 = 0 ∧
      (enterReadMode s).DDRB &&& 0b00000011 = 0 ∧
      (enterReadMode s).mode = MODE.READ ∧
      (enterReadMode s).log.head? = some (Ev.delayUs DELAY_MICROS) ∧
      (enterReadMode s).DDRD &&& 0b00000011 = s.DDRD &&& 0b00000011 ∧
      (enterReadMode s).DDRB &&& 0b11111100 = s.DDRB &&& 0b11111100 ∧
      (enterReadMode s).PORTC &&& 0b11111000 = s.PORTC &&& 0b11111000) ∧
    (s.mode ≠ MODE.WRITE →
      bitRead (enterWriteMode s).PORTC 2 = 0 ∧ bitRead (enterWriteMode s).PORTC 1 = 1 ∧
      bitRead (enterWriteMode s).PORTC 0 = 1 ∧
      (enterWriteMode s).DDRD &&& 0b11111100 = 0b11111100 ∧
      (enterWriteMode s).DDRB &&& 0b00000011 = 0b00000011 ∧
      (enterWriteMode s).mode = MODE.WRITE ∧
      (enterWriteMode s).log.head? = some (Ev.delayUs DELAY_MICROS) ∧
      (enterWriteMode s).DDRD &&& 0b00000011 = s.DDRD &&& 0b00000011 ∧
      (enterWriteMode s).DDRB &&& 0b11111100 = s.DDRB &&& 0b11111100 ∧
      (enterWriteMode s).PORTC &&& 0b11111000 = s.PORTC &&& 0b11111000) := by
  refine ⟨fun hm => ?_, fun hm => ?_, fun hm => ?_⟩
  · obtain ⟨hD, hB, hC, hL⟩ := enterStandbyMode_regs s hm
    rw [hL, hD, hB, hC]
    refine ⟨?_, ?_, ?_, (ddr_masks_d _).2, (ddr_masks_b _).2, rfl, rfl,
      (ddr_other_bits _).1, (ddr_other_bits _).2.2.1, (ctl_high_bits _).1⟩ <;>
    simp +decide [bitRead_or, bitRead_and]
  · obtain ⟨hD, hB, hC, hL⟩ := enterReadMode_regs s hm
    rw [hL, hD, hB, hC]
    refine ⟨?_, ?_, ?_, (ddr_masks_d _).2, (ddr_masks_b _).2, rfl, rfl,
      (ddr_other_bits _).1, (ddr_other_bits _).2.2.1, (ctl_high_bits _).2.1⟩ <;>
    simp +decide [bitRead_or, bitRead_and]
  · obtain ⟨hD, hB, hC, hL⟩ := enterWriteMode_regs s hm
    rw [hL, hD, hB, hC]
    refine ⟨?_, ?_, ?_, (ddr_masks_d _).1, (ddr_masks_b _).1, rfl, rfl,
      (ddr_other_bits _).2.1, (ddr_other_bits _).2.2.2, (ctl_high_bits _).2.2⟩ <;>
    simp +decide [bitRead_or, bitRead_and]

theorem C11_enter_mode_levels_witness :
    bitRead (enterReadMode (bootState [])).PORTC 2 = 0 ∧
    bitRead (enterReadMode (bootState [])).PORTC 1 = 0 ∧
    bitRead (enterReadMode (bootState [])).PORTC 0 = 1 ∧
    (enterReadMode (bootState [])).DDRD &&& 0b11111100 = 0 ∧
    (enterReadMode (bootState [])).DDRB &&& 0b00000011 = 0 ∧
    (enterReadMode (bootState [])).mode = MODE.READ ∧
    (enterReadMode (bootState [])).log.head? = some (Ev.delayUs DELAY_MICROS) ∧
    (enterReadMode (bootState [])).DDRD &&& 0b00000011 = (bootState []).DDRD &&& 0b00000011 ∧
    (enterReadMode (bootState [])).DDRB &&& 0b11111100 = (bootState []).DDRB &&& 0b11111100 ∧
    (enterReadMode (bootState [])).PORTC &&& 0b11111000 =
      (bootState []).PORTC &&& 0b11111000 :=
  (C11_enter_mode_levels (bootState [])).2.1 (by decide)

/-! ## Address sequencer: the claim -/

/-- C12: with both clocks of the 74HC595 pair low before, for every 16-bit address and
whatever the shift stage and the outputs held, `setAddress(address)` makes exactly sixteen
rising edges of the shift clock, each with the SER line at the next of the bits 15 down to 0
of the address, then exactly one rising edge of the latch clock; the outputs then hold the
address, and both clocks are low again. -/
theorem C12_setAddress_sequence (address : Nat) (s : State) (ha : address < 65536)
    (hclk : ClocksIdle s) :
    (setAddress address s).log = (shiftEvents address).reverse ++ s.log ∧
    shiftEvents address =
      (List.range 16).reverse.map (fun i => Ev.shift (bitRead address i)) ++
        [Ev.latch address] ∧
    (setAddress address s).addrLatch = address ∧
    (setAddress address s).shiftReg = address ∧
    ClocksIdle (setAddress address s) := by
  have h := setAddress_spec address s hclk
  have e : address % 65536 = address := Nat.mod_eq_of_lt ha
  refine ⟨?_, ?_, ?_, ?_, h.1⟩
  · rw [h.2.2.2, shiftEvents_reverse]
    rfl
  · unfold shiftEvents
    rw [e]
  · rw [h.2.2.1, e]
  · rw [h.2.1, e]

theorem C12_setAddress_sequence_witness :
    (setAddress 0x1234 (bootState [])).log =
      (shiftEvents 0x1234).reverse ++ (bootState []).log ∧
    shiftEvents 0x1234 =
      (List.range 16).reverse.map (fun i => Ev.shift (bitRead 0x1234 i)) ++
        [Ev.latch 0x1234] ∧
    (setAddress 0x1234 (bootState [])).addrLatch = 0x1234 ∧
    (setAddress 0x1234 (bootState [])).shiftReg = 0x1234 ∧
    ClocksIdle (setAddress 0x1234 (bootState [])) :=
  C12_setAddress_sequence 0x1234 (bootState []) (by decide) ⟨by decide, by decide⟩

/-! ## Data bus: the round trip -/

/-- The bits of ports D and B that do not belong to the data bus survive `writeDataBus`. -/
theorem bus_other_bits (pd pb v : Nat) (hv : v < 256) :
    (((pd &&& 0b00000011) ||| (v <<< 2)) % 256) &&& 0b00000011 = pd &&& 0b00000011 ∧
    (((pb &&& 0b11111100) ||| (v >>> 6)) % 256) &&& 0b11111100 = pb &&& 0b11111100 := by
  have h8 : v.testBit 8 = false := testBit_hi v 8 hv (by norm_num)
  have h9 : v.testBit 9 = false := testBit_hi v 9 hv (by norm_num)
  have h10 : v.testBit 10 = false := testBit_hi v 10 hv (by norm_num)
  have h11 : v.testBit 11 = false := testBit_hi v 11 hv (by norm_num)
  have h12 : v.testBit 12 = false := testBit_hi v 12 hv (by norm_num)
  have h13 : v.testBit 13 = false := testBit_hi v 13 hv (by norm_num)
  refine ⟨?_, ?_⟩ <;>
  · apply byte_ext (lt_of_le_of_lt Nat.and_le_right (by norm_num))
      (lt_of_le_of_lt Nat.and_le_right (by norm_num))
    intro i hi
    simp only [testBit_mod_256, Nat.testBit_and, Nat.testBit_or, Nat.testBit_shiftLeft,
      Nat.testBit_shiftRight]
    interval_cases i <;> simp [lit_bits.2.1, lit_bits.2.2, h8, h9, h10, h11, h12, h13]

/-- C19: for every byte `v` and whatever ports D and B held, after `writeDataBus(v)` the
expression of `readDataBus`, `(PIND >> 2) | (PINB << 6)` truncated to a byte, evaluated with
`PIND = PORTD` and `PINB = PORTB`, is `v`; bits 0-1 of PORTD and bits 2-7 of PORTB are
as before; and with the data pins as outputs `readDataBus` itself returns `v`. -/
theorem C19_data_bus_round_trip (v : Nat) (s : State) (hv : v < 256) :
    (((writeDataBus v s).PORTD >>> 2) ||| ((writeDataBus v s).PORTB <<< 6)) % 256 = v ∧
    (writeDataBus v s).PORTD &&& 0b00000011 = s.PORTD &&& 0b00000011 ∧
    (writeDataBus v s).PORTB &&& 0b11111100 = s.PORTB &&& 0b11111100 ∧
    (s.DDRD &&& 0b11111100 = 0b11111100 → s.DDRB &&& 0b00000011 = 0b00000011 →
      readDataBus (writeDataBus v s) = v) := by
  have e := writeDataBus_eq v s hv
  have hb := bus_other_bits s.PORTD s.PORTB v hv
  have hr := bus_roundtrip s.PORTD s.PORTB v
  rw [Nat.mod_eq_of_lt hv] at hr
  rw [e]
  refine ⟨hr, hb.1, hb.2, ?_⟩
  intro hD hB
  rw [readDataBus_outputs _ (by exact hD) (by exact hB)]
  simp only [Nat.mod_mod]
  exact hr

theorem C19_data_bus_round_trip_witness :
    (((writeDataBus 0xAB (bootState [])).PORTD >>> 2) |||
      ((writeDataBus 0xAB (bootState [])).PORTB <<< 6)) % 256 = 0xAB ∧
    (writeDataBus 0xAB (bootState [])).PORTD &&& 0b00000011 =
      (bootState []).PORTD &&& 0b00000011 ∧
    (writeDataBus 0xAB (bootState [])).PORTB &&& 0b11111100 =
      (bootState []).PORTB &&& 0b11111100 ∧
    ((bootState []).DDRD &&& 0b11111100 = 0b11111100 →
      (bootState []).DDRB &&& 0b00000011 = 0b00000011 →
      readDataBus (writeDataBus 0xAB (bootState [])) = 0xAB) :=
  C19_data_bus_round_trip 0xAB (bootState []) (by decide)

/-! ## Diagnostics: the claim -/

/-- C17: for every prior status `handleError` leaves `status` equal to `OK`, and what it
adds to the event log is the Morse sequence of the status (ERR_CORRUPT dash dot dash dot,
ERR_RESET dot dash dot, ERR_UNEXPECTED dash dot dot dash, ERR_UNKNOWN dot dot dash,
ERR_INVALID dot dot dot dash, nothing for OK); the sequences of two different statuses other
than OK differ, as dot/dash sequences and as LED events. -/
theorem C17_handleError_patterns (s : State) :
    (handleError s).status = STATUS.OK ∧
    (handleError s).log = (morseEvents (morse s.status)).reverse ++ s.log ∧
    (∀ a b : STATUS, a ≠ STATUS.OK → b ≠ STATUS.OK → a ≠ b →
      morse a ≠ morse b ∧ morseEvents (morse a) ≠ morseEvents (morse b)) := by
  refine ⟨rfl, ?_, ?_⟩
  · cases hst : s.status <;>
      simp only [handleError, hst, dotLED_eq, dashLED_eq] <;> rfl
  · intro a b
    cases a <;> cases b <;> decide

theorem C17_handleError_patterns_witness :
    (handleError { bootState [] with status := STATUS.ERR_RESET }).status = STATUS.OK ∧
    morse STATUS.ERR_CORRUPT ≠ morse STATUS.ERR_RESET ∧
    morseEvents (morse STATUS.ERR_CORRUPT) ≠ morseEvents (morse STATUS.ERR_RESET) :=
  ⟨(C17_handleError_patterns { bootState [] with status := STATUS.ERR_RESET }).1,
   (C17_handleError_patterns (bootState [])).2.2 STATUS.ERR_CORRUPT STATUS.ERR_RESET
     (by decide) (by decide) (by decide)⟩

/-! ## Write completion: the control lines -/

/-- What one sample of `waitForChip` leaves alone, whatever the state it starts in. -/
theorem waitSample_regs (s : State) :
    (waitSample s).2.mode = s.mode ∧ (waitSample s).2.status = s.status ∧
    (waitSample s).2.DDRB = s.DDRB ∧ (waitSample s).2.DDRD = s.DDRD ∧
    (waitSample s).2.PORTB = s.PORTB ∧ (waitSample s).2.PORTD = s.PORTD ∧
    (waitSample s).2.rx = s.rx ∧ (waitSample s).2.tx = s.tx ∧
    (waitSample s).2.stack = s.stack ∧
    (waitSample s).2.PORTC = (s.PORTC &&& 0b11111001) ||| 0b00000110 := by
  unfold waitSample
  simp

/-- The control lines after a sample: CE and OE high, WE as before. -/
theorem sample_bits (p : Nat) :
    bitRead ((p &&& 0b11111001) ||| 0b00000110) 1 = 1 ∧
    bitRead ((p &&& 0b11111001) ||| 0b00000110) 2 = 1 ∧
    bitRead ((p &&& 0b11111001) ||| 0b00000110) 0 = bitRead p 0 := by
  simp +decide [bitRead_or, bitRead_and]

/-- Whenever the polling loop of `waitForChip` ends, it ends after a sample: CE and OE are
high, WE is as it was, and neither the mode nor the pin directions have changed. -/
theorem waitForChipLoop_regs (fuel : Nat) : ∀ (s t : State), waitForChipLoop fuel s = some t →
    t.mode = s.mode ∧ t.status = s.status ∧ t.DDRB = s.DDRB ∧ t.DDRD = s.DDRD ∧
    t.rx = s.rx ∧ t.tx = s.tx ∧
    bitRead t.PORTC 1 = 1 ∧ bitRead t.PORTC 2 = 1 ∧ bitRead t.PORTC 0 = bitRead s.PORTC 0 := by
  induction fuel with
  | zero => intro s t h; simp [waitForChipLoop] at h
  | succ f ih =>
    intro s t h
    have h0 := waitSample_regs s
    have h1 := waitSample_regs (waitSample s).2
    have h2 := waitSample_regs (waitSample (waitSample s).2).2
    have hb0 := sample_bits s.PORTC
    have hb1 := sample_bits (waitSample s).2.PORTC
    have hb2 := sample_bits (waitSample (waitSample s).2).2.PORTC
    have key : (waitSample (waitSample (waitSample s).2).2).2.mode = s.mode ∧
        (waitSample (waitSample (waitSample s).2).2).2.status = s.status ∧
        (waitSample (waitSample (waitSample s).2).2).2.DDRB = s.DDRB ∧
        (waitSample (waitSample (waitSample s).2).2).2.DDRD = s.DDRD ∧
        (waitSample (waitSample (waitSample s).2).2).2.rx = s.rx ∧
        (waitSample (waitSample (waitSample s).2).2).2.tx = s.tx ∧
        bitRead (waitSample (waitSample (waitSample s).2).2).2.PORTC 1 = 1 ∧
        bitRead (waitSample (waitSample (waitSample s).2).2).2.PORTC 2 = 1 ∧
        bitRead (waitSample (waitSample (waitSample s).2).2).2.PORTC 0 = bitRead s.PORTC 0 := by
      refine ⟨by rw [h2.1, h1.1, h0.1], by rw [h2.2.1, h1.2.1, h0.2.1],
        by rw [h2.2.2.1, h1.2.2.1, h0.2.2.1], by rw [h2.2.2.2.1, h1.2.2.2.1, h0.2.2.2.1],
        by rw [h2.2.2.2.2.2.2.1, h1.2.2.2.2.2.2.1, h0.2.2.2.2.2.2.1],
        by rw [h2.2.2.2.2.2.2.2.1, h1.2.2.2.2.2.2.2.1, h0.2.2.2.2.2.2.2.1], ?_, ?_, ?_⟩
      · rw [h2.2.2.2.2.2.2.2.2.2]; exact hb2.1
      · rw [h2.2.2.2.2.2.2.2.2.2]; exact hb2.2.1
      · rw [h2.2.2.2.2.2.2.2.2.2, hb2.2.2, h1.2.2.2.2.2.2.2.2.2, hb1.2.2,
          h0.2.2.2.2.2.2.2.2.2, hb0.2.2]
    rw [waitForChipLoop] at h
    split_ifs at h with hc
    · obtain ⟨a1, a2, a3, a4, a5, a6, a7, a8, a9⟩ := ih _ t h
      exact ⟨a1.trans key.1, a2.trans key.2.1, a3.trans key.2.2.1, a4.trans key.2.2.2.1,
        a5.trans key.2.2.2.2.1, a6.trans key.2.2.2.2.2.1, a7, a8,
        a9.trans key.2.2.2.2.2.2.2.2⟩
    · cases h
      exact key

/-- The function `waitForChip` is its first two statements, the polling loop, and
`enterStandbyMode`. -/
theorem waitForChip_eq (fuel : Nat) (s : State) :
    waitForChip fuel s = (waitForChipLoop fuel (pollStart s)).map enterStandbyMode := by
  unfold waitForChip pollStart
  simp only []
  cases waitForChipLoop fuel
    (writePORTC (s.PORTC ||| 0b00000111) { s with DDRB := s.DDRB &&& 0b11111110 }) <;> rfl

/-- The state after the first two statements of `waitForChip`. -/
theorem pollStart_regs (s : State) :
    (pollStart s).mode = s.mode ∧ (pollStart s).status = s.status ∧
    (pollStart s).DDRB = s.DDRB &&& 0b11111110 ∧ (pollStart s).DDRD = s.DDRD ∧
    (pollStart s).rx = s.rx ∧ (pollStart s).tx = s.tx ∧
    bitRead (pollStart s).PORTC 0 = 1 ∧ bitRead (pollStart s).PORTC 1 = 1 ∧
    bitRead (pollStart s).PORTC 2 = 1 := by
  unfold pollStart
  simp +decide [bitRead_or]

/-! ## Write completion: the rounds of the polling loop -/

/-- With WE high, the sample at read strobe `n` is the level of pin B0 while the EEPROM
presents the byte of that strobe. -/
theorem pollBit_eq (s : State) (n : Nat) (h0 : bitRead s.PORTC 0 = 1) :
    pollBit s n =
      pins s.DDRB s.PORTB ((s.floatB &&& 0b11111100) |||
        (chipData { s with chip := { s.chip with strobes := n } } >>> 6)) &&& 1 := by
  unfold pollBit waitSample writePORTC delayMicroseconds PINB extB chipData
  simp +decide [writePulse, chipDriving, bitRead_or, bitRead_and, h0]

/-- One sample of `waitForChip` taken with WE and CE high before. -/
theorem waitSample_step (s : State) (h0 : bitRead s.PORTC 0 = 1) (h2 : bitRead s.PORTC 2 = 1) :
    waitSample s = (pollBit s s.chip.strobes, sampleNext s) := by
  have e : (waitSample s).1 = pollBit s s.chip.strobes := rfl
  have e2 : (waitSample s).2 = sampleNext s := by
    unfold waitSample writePORTC delayMicroseconds sampleNext
    simp +decide [writePulse, chipDriving, bitRead_or, bitRead_and, h0, h2]
  rw [← e, ← e2]

theorem sampleNext_bits (s : State) :
    bitRead (sampleNext s).PORTC 0 = bitRead s.PORTC 0 ∧ bitRead (sampleNext s).PORTC 2 = 1 ∧
    bitRead (sampleNext s).PORTC 1 = 1 :=
  ⟨(sample_bits s.PORTC).2.2, (sample_bits s.PORTC).2.1, (sample_bits s.PORTC).1⟩

/-- The samples to come do not depend on the samples taken. -/
theorem pollBit_sampleNext (s : State) (n : Nat) (h0 : bitRead s.PORTC 0 = 1) :
    pollBit (sampleNext s) n = pollBit s n := by
  rw [pollBit_eq s n h0, pollBit_eq (sampleNext s) n ((sampleNext_bits s).1.trans h0)]
  rfl

/-- The polling loop of `waitForChip`, entered with WE and CE high: when the rounds before
round `k` (counted from 0) each have two samples that differ and the three samples of round
`k` are equal, the loop ends after round `k`, that is after `3 * (k + 1)` read strobes. -/
theorem waitForChipLoop_rounds (k : Nat) : ∀ (fuel : Nat) (s : State), k < fuel →
    bitRead s.PORTC 0 = 1 → bitRead s.PORTC 2 = 1 →
    (∀ j, j < k →
      ¬ (pollBit s (s.chip.strobes + 3 * j) = pollBit s (s.chip.strobes + 3 * j + 1) ∧
         pollBit s (s.chip.strobes + 3 * j + 1) = pollBit s (s.chip.strobes + 3 * j + 2))) →
    pollBit s (s.chip.strobes + 3 * k) = pollBit s (s.chip.strobes + 3 * k + 1) →
    pollBit s (s.chip.strobes + 3 * k + 1) = pollBit s (s.chip.strobes + 3 * k + 2) →
    ∃ t, waitForChipLoop fuel s = some t ∧
      t.chip.strobes = s.chip.strobes + 3 * (k + 1) := by
  induction k with
  | zero =>
    intro fuel s hf h0 h2 _ ha hb
    obtain ⟨f, rfl⟩ : ∃ f, fuel = f + 1 := ⟨fuel - 1, by omega⟩
    have b1 := sampleNext_bits s
    have b2 := sampleNext_bits (sampleNext s)
    have p1 := pollBit_sampleNext s (s.chip.strobes + 1) h0
    have p2 := pollBit_sampleNext (sampleNext s) (s.chip.strobes + 1 + 1) (b1.1.trans h0)
    rw [pollBit_sampleNext s _ h0] at p2
    rw [waitForChipLoop]
    simp only [waitSample_step s h0 h2, waitSample_step (sampleNext s) (b1.1.trans h0) b1.2.1,
      waitSample_step (sampleNext (sampleNext s)) (b2.1.trans (b1.1.trans h0)) b2.2.1]
    have e1 : (sampleNext s).chip.strobes = s.chip.strobes + 1 := rfl
    have e2 : (sampleNext (sampleNext s)).chip.strobes = s.chip.strobes + 1 + 1 := rfl
    rw [e1, e2, p1, p2]
    simp only [Nat.mul_zero, Nat.add_zero] at ha hb
    have hb' : pollBit s (s.chip.strobes + 1) = pollBit s (s.chip.strobes + 1 + 1) := hb
    simp only [ha, hb', ne_eq, not_true_eq_false, or_self, if_false]
    exact ⟨_, rfl, rfl⟩
  | succ k ih =>
    intro fuel s hf h0 h2 hne ha hb
    obtain ⟨f, rfl⟩ : ∃ f, fuel = f + 1 := ⟨fuel - 1, by omega⟩
    have b1 := sampleNext_bits s
    have b2 := sampleNext_bits (sampleNext s)
    have b3 := sampleNext_bits (sampleNext (sampleNext s))
    have q : ∀ n, pollBit (sampleNext (sampleNext (sampleNext s))) n = pollBit s n := by
      intro n
      rw [pollBit_sampleNext _ n (b2.1.trans (b1.1.trans h0)),
        pollBit_sampleNext _ n (b1.1.trans h0), pollBit_sampleNext s n h0]
    have p1 := pollBit_sampleNext s (s.chip.strobes + 1) h0
    have p2 := pollBit_sampleNext (sampleNext s) (s.chip.strobes + 1 + 1) (b1.1.trans h0)
    rw [pollBit_sampleNext s _ h0] at p2
    have e1 : (sampleNext s).chip.strobes = s.chip.strobes + 1 := rfl
    have e2 : (sampleNext (sampleNext s)).chip.strobes = s.chip.strobes + 1 + 1 := rfl
    have e3 : (sampleNext (sampleNext (sampleNext s))).chip.strobes =
        s.chip.strobes + 1 + 1 + 1 := rfl
    have h00 := hne 0 (Nat.succ_pos k)
    simp only [Nat.mul_zero, Nat.add_zero] at h00
    have hcond : pollBit s s.chip.strobes ≠ pollBit s (s.chip.strobes + 1) ∨
        pollBit s (s.chip.strobes + 1) ≠ pollBit s (s.chip.strobes + 1 + 1) := by
      by_contra hcon
      push_neg at hcon
      exact h00 ⟨hcon.1, hcon.2⟩
    obtain ⟨t, ht, hts⟩ := ih f (sampleNext (sampleNext (sampleNext s))) (by omega)
      (b3.1.trans (b2.1.trans (b1.1.trans h0))) b3.2.1
      (by
        intro j hj
        rw [q, q, q, e3]
        have := hne (j + 1) (by omega)
        have a1 : s.chip.strobes + 3 * (j + 1) = s.chip.strobes + 1 + 1 + 1 + 3 * j := by omega
        rw [a1] at this
        exact this)
      (by
        rw [q, q, e3]
        have a1 : s.chip.strobes + 3 * (k + 1) = s.chip.strobes + 1 + 1 + 1 + 3 * k := by omega
        rw [a1] at ha
        exact ha)
      (by
        rw [q, q, e3]
        have a1 : s.chip.strobes + 3 * (k + 1) = s.chip.strobes + 1 + 1 + 1 + 3 * k := by omega
        rw [a1] at hb
        exact hb)
    rw [waitForChipLoop]
    simp only [waitSample_step s h0 h2, waitSample_step (sampleNext s) (b1.1.trans h0) b1.2.1,
      waitSample_step (sampleNext (sampleNext s)) (b2.1.trans (b1.1.trans h0)) b2.2.1]
    rw [e1, e2, p1, p2]
    simp only [hcond, if_true]
    refine ⟨t, ht, ?_⟩
    rw [hts, e3]
    omega

/-! ## The mode after each command -/

/-- Whatever it returns, `receivePacket` leaves the mode alone. -/
theorem receivePacket_mode (buffer : Buf) (maxLength : Nat) (sendAck : Bool) (s : State)
    (n : Int) (buf : Buf) (t : State)
    (h : receivePacket buffer maxLength sendAck s = some (n, buf, t)) : t.mode = s.mode := by
  unfold receivePacket at h
  cases hr : readLenByte s.rx with
  | none => rw [hr] at h; cases h
  | some p =>
    obtain ⟨L, r⟩ := p
    rw [hr] at h
    simp only [] at h
    split_ifs at h <;> cases h <;> simp [sendAckPacket]

/-- Whatever it returns, `sendPacket` leaves the mode alone. -/
theorem sendPacket_mode (packet : Buf) (length : Nat) (waitForAck : Bool) (s : State)
    (c : Int) (t : State) (h : sendPacket packet length waitForAck s = some (c, t)) :
    t.mode = s.mode := by
  unfold sendPacket at h
  cases waitForAck with
  | false =>
    simp only [Bool.false_eq_true, if_false] at h
    cases h
    simp
  | true =>
    simp only [if_true] at h
    cases hr : receivePacket (sendFrame packet length s).stack.junk MAX_PAYLOAD_SIZE false
        (sendFrame packet length s) with
    | none => rw [hr] at h; cases h
    | some p =>
      obtain ⟨n, buf, u⟩ := p
      rw [hr] at h
      have hu := receivePacket_mode _ _ _ _ _ _ _ hr
      simp only [] at h
      split_ifs at h <;> cases h <;> simp [hu]

/-- Whenever `waitForChip` returns, the mode is `STANDBY`. -/
theorem waitForChip_mode (fuel : Nat) (s t : State) (h : waitForChip fuel s = some t) :
    t.mode = MODE.STANDBY := by
  rw [waitForChip_eq] at h
  cases hl : waitForChipLoop fuel (pollStart s) with
  | none => rw [hl] at h; cases h
  | some u =>
    rw [hl] at h
    have ht : enterStandbyMode u = t := by simpa using h
    rw [← ht]
    rfl

/-- Whenever the loop of `dumpChipBytes` is left by `return`, the mode is `STANDBY`. -/
theorem dumpLoop_ret_mode (n : Nat) : ∀ (a : Nat) (packet : Buf) (pidx : Nat) (s : State)
    (c : Int) (t : State), dumpLoop n a packet pidx s = some (DumpLoop.ret c t) →
    t.mode = MODE.STANDBY := by
  induction n with
  | zero => intro a packet pidx s c t h; simp [dumpLoop] at h
  | succ n ih =>
    intro a packet pidx s c t h
    rw [dumpLoop] at h
    simp only [] at h
    split_ifs at h with hdue
    · cases hs : sendPacket packet MAX_PAYLOAD_SIZE true s with
      | none => rw [hs] at h; cases h
      | some p =>
        obtain ⟨st, u⟩ := p
        rw [hs] at h
        simp only [] at h
        split_ifs at h with hst
        · cases h; rfl
        · exact ih _ _ _ _ _ _ h
    · exact ih _ _ _ _ _ _ h

/-- Whenever `dumpChipBytes` returns, the mode is `STANDBY`. -/
theorem dumpChipBytes_mode (s : State) (c : Int) (t : State)
    (h : dumpChipBytes s = some (c, t)) : t.mode = MODE.STANDBY := by
  rw [dumpChipBytes_eq] at h
  cases hl : dumpLoop 0x8000 0 (enterReadMode s).stack.junk 0 (enterReadMode s) with
  | none => rw [hl] at h; simp [dumpFinish] at h
  | some r =>
    rw [hl] at h
    cases r with
    | ret c1 u =>
      simp only [dumpFinish] at h
      cases h
      exact dumpLoop_ret_mode _ _ _ _ _ _ _ hl
    | done packet pidx u =>
      simp only [dumpFinish] at h
      split_ifs at h
      · rw [sendPacket_mode _ _ _ _ _ _ h]; rfl
      · cases h; rfl

/-- Whenever the loop of `loadChip` ends, having started in Standby, the mode is `STANDBY`. -/
theorem loadChipLoop_mode (length fuel : Nat) (n : Nat) : ∀ (idx : Nat) (packet : Buf)
    (s t : State), s.mode = MODE.STANDBY → loadChipLoop length fuel n idx packet s = some t →
    t.mode = MODE.STANDBY := by
  induction n with
  | zero => intro idx packet s t _ h; simp [loadChipLoop] at h
  | succ n ih =>
    intro idx packet s t hm h
    rw [loadChipLoop] at h
    split_ifs at h with hlt
    · cases hr : receivePacket packet (MAX_PAYLOAD_SIZE + 1) false s with
      | none => rw [hr] at h; cases h
      | some p =>
        obtain ⟨len, buf, u⟩ := p
        rw [hr] at h
        simp only [] at h
        cases hw : writeChipPage idx buf (len % 65536).toNat fuel u with
        | none => rw [hw] at h; cases h
        | some w =>
          rw [hw] at h
          simp only [] at h
          have hwm : w.mode = MODE.STANDBY := waitForChip_mode _ _ _ hw
          exact ih _ _ _ _ (by simp [sendAckPacket, hwm]) h
    · cases h; exact hm

/-- Whenever the test command returns, the mode is `STANDBY`. -/
theorem testCommand_mode (fuel : Nat) (s t : State) (h : testCommand fuel s = some t) :
    t.mode = MODE.STANDBY := by
  unfold testCommand at h
  simp only [] at h
  cases h1 : writeChipPage 16 (fun i => if i < 63 then i else s.stack.junk i) 63 fuel s with
  | none => rw [h1] at h; cases h
  | some u =>
    rw [h1] at h
    simp only [] at h
    cases h2 : writeChipPage 128 (fun i => if i < 63 then i else s.stack.junk i) 63 fuel u with
    | none => rw [h2] at h; cases h
    | some w =>
      rw [h2] at h
      simp only [] at h
      cases h3 : sendPacket (fun _ => (readChipByte 9 w).1) 1 false (readChipByte 9 w).2 with
      | none => rw [h3] at h; cases h
      | some p =>
        obtain ⟨c, x⟩ := p
        rw [h3] at h
        cases h
        rw [sendPacket_mode _ _ _ _ _ _ h3]
        exact (readChipByte_frame 9 w).1

/-- Whenever the command dispatch returns, having started in Standby, the mode is
`STANDBY`. -/
theorem dispatch_mode (packet : Buf) (packetLen : Int) (fuel : Nat) (s t : State)
    (hm : s.mode = MODE.STANDBY) (h : dispatch packet packetLen fuel s = some t) :
    t.mode = MODE.STANDBY := by
  unfold dispatch at h
  by_cases h0 : packetLen > 0
  · simp only [h0, if_true] at h
    by_cases h1 : packet 0 = 0x72 ∧ packetLen = 3
    · simp only [h1, and_self, if_true] at h
      cases h3 : sendPacket (fun _ => (readChipByte (argWord packet) (dashLED s)).1) 1 false
          (readChipByte (argWord packet) (dashLED s)).2 with
      | none => rw [h3] at h; cases h
      | some p =>
        obtain ⟨c, x⟩ := p
        rw [h3] at h
        cases h
        rw [sendPacket_mode _ _ _ _ _ _ h3]
        exact (readChipByte_frame _ _).1
    · rw [if_neg h1] at h
      by_cases h2 : packet 0 = 0x64 ∧ packetLen = 1
      · rw [if_pos h2] at h
        cases hd : dumpChipBytes s with
        | none => rw [hd] at h; cases h
        | some p =>
          obtain ⟨c, x⟩ := p
          rw [hd] at h
          cases h
          exact dumpChipBytes_mode s c _ hd
      · rw [if_neg h2] at h
        by_cases h3 : packet 0 = 0x77 ∧ packetLen = 4
        · rw [if_pos h3] at h
          exact waitForChip_mode _ _ _ h
        · rw [if_neg h3] at h
          by_cases h4 : packet 0 = 0x6c ∧ packetLen = 3
          · rw [if_pos h4] at h
            unfold loadChip at h
            exact loadChipLoop_mode _ _ _ _ _ _ _ (by simp [sendAckPacket, hm]) h
          · rw [if_neg h4] at h
            by_cases h5 : packet 0 = 0x73 ∧ packetLen = 1
            · rw [if_pos h5] at h
              cases h; exact hm
            · rw [if_neg h5] at h
              by_cases h6 : packet 0 = 0x74
              · rw [if_pos h6] at h
                exact testCommand_mode _ _ _ h
              · rw [if_neg h6] at h
                cases h; exact hm
  · rw [if_neg h0] at h
    cases h; exact hm

/-! ## The byte writes of a page -/

theorem writesOf_append (l1 l2 : List Ev) : writesOf (l1 ++ l2) = writesOf l2 ++ writesOf l1 := by
  induction l1 with
  | nil => simp [writesOf]
  | cons e l ih => cases e <;> simp [writesOf, ih, List.append_assoc]

theorem writesOf_shifts (f : Nat → Nat) (l : List Nat) :
    writesOf (l.map (fun i => Ev.shift (f i))) = [] := by
  induction l with
  | nil => rfl
  | cons x l ih => simpa [writesOf] using ih

/-- Entering Write mode from another mode while no write pulse is on and the EEPROM outputs
are off: only the pin directions and the control lines change. -/
theorem enterWriteMode_quiet (s : State) (hm : s.mode ≠ MODE.WRITE)
    (hp : writePulse s.PORTC = false) (hd : chipDriving s.PORTC = false) :
    enterWriteMode s =
      { s with mode := MODE.WRITE, DDRD := s.DDRD ||| 0b11111100,
               DDRB := s.DDRB ||| 0b00000011,
               PORTC := (s.PORTC ||| 0b00000011) &&& 0b11111011,
               log := Ev.delayUs DELAY_MICROS :: s.log } := by
  unfold enterWriteMode
  simp only [hm, ne_eq, not_false_eq_true, if_true]
  rw [writePORTC_quiet (s.PORTC ||| 0b00000011) _ (by simp [hp]) (by simp [hd])]
  rw [writePORTC_quiet _ _ (by simp +decide [writePulse, bitRead_or])
    (by simp +decide [chipDriving, bitRead_or])]
  rfl

/-- The byte write of `writeChipByte`, between two commands: the EEPROM sees one write, of
the value at the address (modulo its 32768 cells). -/
theorem writeChipByte_writes (a v : Nat) (s : State) (hs : AtRest s) (hv : v < 256) :
    writesOf (writeChipByte a v s).log = writesOf s.log ++ [(a % 65536 % 0x8000, v)] := by
  have hf := setAddress_frame a s
  have hsp := setAddress_spec a s hs.2.1
  have hp : writePulse (setAddress a s).PORTC = false := by
    rw [hf.2.2.2.2.2.2.2.2.2.2.2.1]
    simp [writePulse, hs.2.2.1]
  have hd : chipDriving (setAddress a s).PORTC = false := by
    rw [hf.2.2.2.2.2.2.2.2.2.2.2.2.1]
    simp [chipDriving, hs.2.2.2]
  have hmw : (setAddress a s).mode ≠ MODE.WRITE := by rw [hf.1, hs.1]; decide
  have hq := enterWriteMode_quiet (setAddress a s) hmw hp hd
  have hw := enterWriteMode_spec (setAddress a s) hmw
  have hmode : (enterWriteMode (setAddress a s)).mode = MODE.WRITE := rfl
  have h0 : bitRead (enterWriteMode (setAddress a s)).PORTC 0 = 1 := by
    rw [hw.2.2.1]; simp +decide [bitRead_or, bitRead_and]
  have h1 : bitRead (enterWriteMode (setAddress a s)).PORTC 1 = 1 := by
    rw [hw.2.2.1]; simp +decide [bitRead_or, bitRead_and]
  have h2 : bitRead (enterWriteMode (setAddress a s)).PORTC 2 = 0 := by
    rw [hw.2.2.1]; simp +decide [bitRead_or, bitRead_and]
  have hD : (enterWriteMode (setAddress a s)).DDRD &&& 0b11111100 = 0b11111100 := by
    rw [hw.1]; exact (ddr_masks_d _).1
  have hB : (enterWriteMode (setAddress a s)).DDRB &&& 0b00000011 = 0b00000011 := by
    rw [hw.2.1]; exact (ddr_masks_b _).1
  have key := writeChipByte_tail v (enterWriteMode (setAddress a s)) hv hmode hD hB h0 h1 h2
  have hdef : writeChipByte a v s = enterStandbyMode
      (writePORTC
        ((delayMicroseconds 1
          (writePORTC ((writeDataBus v (enterWriteMode (setAddress a s))).PORTC &&& 0b11111010)
            (writeDataBus v (enterWriteMode (setAddress a s))))).PORTC ||| 0b00000101)
        (delayMicroseconds 1
          (writePORTC ((writeDataBus v (enterWriteMode (setAddress a s))).PORTC &&& 0b11111010)
            (writeDataBus v (enterWriteMode (setAddress a s)))))) := rfl
  have hlog : (enterWriteMode (setAddress a s)).log =
      Ev.delayUs DELAY_MICROS :: (setAddress a s).log := by rw [hq]
  have hlatch : (enterWriteMode (setAddress a s)).addrLatch = a % 65536 := by
    rw [(enterWriteMode_frame _).2.2.2.2.2.2.1, hsp.2.2.1]
  rw [hdef, key]
  show writesOf (Ev.delayUs DELAY_MICROS ::
      Ev.store ((enterWriteMode (setAddress a s)).addrLatch % 0x8000) v ::
      Ev.delayUs 1 :: (enterWriteMode (setAddress a s)).log) = _
  rw [hlog, hlatch, hsp.2.2.2]
  simp [writesOf, writesOf_append, writesOf_shifts]

/-- The byte writes of a page, between two commands: the EEPROM sees `data[idx]`,
`data[idx+1]`, ... written at `address + idx`, `address + idx + 1`, ... in this order. -/
theorem writeChipPageLoop_writes (address : Nat) (data : Buf) (n : Nat) : ∀ (idx : Nat)
    (s : State), AtRest s → (∀ i, idx ≤ i → i < idx + n → data i < 256) →
    writesOf (writeChipPageLoop address data n idx s).log =
      writesOf s.log ++ (List.range n).map
        (fun j => ((address + (idx + j)) % 65536 % 0x8000, data (idx + j))) := by
  induction n with
  | zero => intro idx s _ _; simp [writeChipPageLoop]
  | succ n ih =>
    intro idx s hs hdata
    have hv := hdata idx (le_refl _) (by omega)
    have hw := writeChipByte_spec ((address + idx) % 65536) (data idx) s
      (by rw [hs.1]; decide) hs.2.1 hv
    have hr : AtRest (delayMicroseconds 1
        (writeChipByte ((address + idx) % 65536) (data idx) s)) :=
      ⟨hw.1, hw.2.2.2.2.2.2.2.1, hw.2.2.2.2.2.2.2.2.2.1, hw.2.2.2.2.2.2.2.2.2.2.2.1⟩
    have h := ih (idx + 1) _ hr (fun i h1 h2 => hdata i (by omega) (by omega))
    rw [writeChipPageLoop, h]
    have hl : writesOf (delayMicroseconds 1
        (writeChipByte ((address + idx) % 65536) (data idx) s)).log =
        writesOf s.log ++ [((address + idx) % 65536 % 65536 % 0x8000, data idx)] := by
      rw [← writeChipByte_writes _ _ s hs hv]
      simp [delayMicroseconds, writesOf]
    rw [hl, List.range_succ_eq_map, List.map_cons, List.map_map, List.append_assoc]
    simp only [List.singleton_append, Nat.add_zero, Nat.mod_mod]
    congr 2
    apply List.map_congr_left
    intro j _
    simp only [Function.comp]
    have e : idx + 1 + j = idx + (j + 1) := by omega
    rw [e]

/-- On a chip that is not inside a write cycle, `writeChipPage` returns with the bus at rest
again, nothing sent or received, and the EEPROM has seen the bytes of the page written in
ascending order. -/
theorem writeChipPage_writes (address : Nat) (data : Buf) (n fuel : Nat) (s : State)
    (hfuel : 0 < fuel) (hs : AtRest s) (hidle : ChipIdle s)
    (hdata : ∀ i, i < n → data i < 256) :
    ∃ t, writeChipPage address data n fuel s = some t ∧ AtRest t ∧ ChipIdle t ∧
      t.status = s.status ∧ t.rx = s.rx ∧ t.tx = s.tx ∧ t.stack = s.stack ∧
      writesOf t.log = writesOf s.log ++ (List.range n).map
        (fun j => ((address + j) % 65536 % 0x8000, data j)) := by
  have h := writeChipPageLoop_rest address data n 0 s hs
    (fun i _ h2 => hdata i (by omega))
  have hwr := writeChipPageLoop_writes address data n 0 s hs
    (fun i _ h2 => hdata i (by omega))
  have hi : ChipIdle (delay 1 (writeChipPageLoop address data n 0 s)) := by
    intro k
    show (writeChipPageLoop address data n 0 s).chip.busy k = none
    rw [h.2.2.2.2.2]; exact hidle k
  have e := waitForChip_idle fuel (delay 1 (writeChipPageLoop address data n 0 s)) hfuel
    h.1.1 hi h.1.2.2.1 h.1.2.2.2
  refine ⟨_, e, ⟨h.1.1, h.1.2.1, ?_, ?_⟩, hi, h.2.1, h.2.2.1, h.2.2.2.1, h.2.2.2.2.1, ?_⟩
  · simp +decide [bitRead_or, bitRead_and]
  · simp +decide [bitRead_or, bitRead_and]
  · show writesOf (Ev.delayUs 2 :: Ev.delayUs 2 :: Ev.delayUs 2 :: Ev.delayUs 2 ::
        Ev.delayUs 2 :: Ev.delayUs 2 :: Ev.delayMs 1 ::
        (writeChipPageLoop address data n 0 s).log) = _
    simp only [writesOf]
    rw [hwr]
    simp

/-! ## The events of a page on the bus -/

theorem opsOf_append (l1 l2 : List Ev) : opsOf (l1 ++ l2) = opsOf l2 ++ opsOf l1 := by
  simp [opsOf, List.filter_append, List.reverse_append]

theorem opsOf_cons (e : Ev) (l : List Ev) :
    opsOf (e :: l) = opsOf l ++ (if isLoadOp e = true then [e] else []) := by
  unfold opsOf
  by_cases h : isLoadOp e = true
  · simp [List.filter_cons, h]
  · simp [List.filter_cons, h]

theorem opsOf_shifts (f : Nat → Nat) (l : List Nat) :
    opsOf (l.map (fun i => Ev.shift (f i))) = [] := by
  induction l with
  | nil => rfl
  | cons x l ih => rw [List.map_cons, opsOf_cons, ih]; rfl

theorem writePORTC_log (v : Nat) (s : State) :
    (writePORTC v s).log =
      (if (writePulse s.PORTC && !writePulse v) = true then
        [Ev.store (s.addrLatch % 0x8000) (readDataBus s)] else []) ++ s.log := by
  unfold writePORTC; split_ifs <;> simp

theorem portByte_congr (s t : State) (hD : t.PORTD = s.PORTD)
    (hB : t.PORTB &&& 3 = s.PORTB &&& 3) : portByte t = portByte s := by
  have hb : ∀ j, j < 2 → t.PORTB.testBit j = s.PORTB.testBit j := by
    intro j hj
    have := congrArg (fun x => Nat.testBit x j) hB
    simp only [Nat.testBit_and, lit_bits.2.1 j (by omega), hj, decide_True, Bool.and_true]
      at this
    exact this
  unfold portByte
  rw [hD]
  apply byte_ext (Nat.mod_lt _ (by norm_num)) (Nat.mod_lt _ (by norm_num))
  intro i hi
  simp only [testBit_mod_256, Nat.testBit_or, Nat.testBit_shiftLeft, Nat.testBit_shiftRight]
  interval_cases i <;> simp [hb]

theorem enterWriteMode_log (s : State) (hm : s.mode ≠ MODE.WRITE) :
    (enterWriteMode s).log = Ev.delayUs DELAY_MICROS ::
      ((if writePulse s.PORTC = true then [Ev.store (s.addrLatch % 0x8000) (portByte s)]
        else []) ++ s.log) := by
  have h3 : writePulse (s.PORTC ||| 0b00000011) = false := by
    simp +decide [writePulse, bitRead_or]
  have hv := readDataBus_outputs
    { s with DDRD := s.DDRD ||| 0b11111100, DDRB := s.DDRB ||| 0b00000011 }
    (ddr_masks_d _).1 (ddr_masks_b _).1
  unfold enterWriteMode
  simp only [hm, ne_eq, not_false_eq_true, if_true]
  show (delayMicroseconds DELAY_MICROS _).log = _
  rw [(delayMicroseconds_frame _ _).2.2.2.2.2.2.2.2.2.2.2.2.2.2.2, writePORTC_log, writePORTC_log]
  simp only [writePORTC_frame, h3, Bool.false_and, Bool.not_false, Bool.and_true]
  rw [hv]
  simp [portByte]

theorem writeChipByte_ops (a v : Nat) (s : State) (hm : s.mode ≠ MODE.WRITE)
    (hclk : ClocksIdle s) (hv : v < 256) :
    opsOf (writeChipByte a v s).log = opsOf s.log ++ Ev.latch (a % 65536) ::
      ((if writePulse s.PORTC = true then [Ev.store (a % 65536 % 0x8000) (portByte s)]
        else []) ++ [Ev.store (a % 65536 % 0x8000) v]) := by
  have hf := setAddress_frame a s
  have hsp := setAddress_spec a s hclk
  have hmw : (setAddress a s).mode ≠ MODE.WRITE := by rw [hf.1]; exact hm
  have hlog := enterWriteMode_log (setAddress a s) hmw
  have hpb : portByte (setAddress a s) = portByte s :=
    portByte_congr s _ hf.2.2.2.2.1 hf.2.2.2.2.2.2.2.2.2.2.2.2.2
  have hw := enterWriteMode_spec (setAddress a s) hmw
  have hmode : (enterWriteMode (setAddress a s)).mode = MODE.WRITE := rfl
  have h0 : bitRead (enterWriteMode (setAddress a s)).PORTC 0 = 1 := by
    rw [hw.2.2.1]; simp +decide [bitRead_or, bitRead_and]
  have h1 : bitRead (enterWriteMode (setAddress a s)).PORTC 1 = 1 := by
    rw [hw.2.2.1]; simp +decide [bitRead_or, bitRead_and]
  have h2 : bitRead (enterWriteMode (setAddress a s)).PORTC 2 = 0 := by
    rw [hw.2.2.1]; simp +decide [bitRead_or, bitRead_and]
  have hD : (enterWriteMode (setAddress a s)).DDRD &&& 0b11111100 = 0b11111100 := by
    rw [hw.1]; exact (ddr_masks_d _).1
  have hB : (enterWriteMode (setAddress a s)).DDRB &&& 0b00000011 = 0b00000011 := by
    rw [hw.2.1]; exact (ddr_masks_b _).1
  have key := writeChipByte_tail v (enterWriteMode (setAddress a s)) hv hmode hD hB h0 h1 h2
  have hdef : writeChipByte a v s = enterStandbyMode
      (writePORTC
        ((delayMicroseconds 1
          (writePORTC ((writeDataBus v (enterWriteMode (setAddress a s))).PORTC &&& 0b11111010)
            (writeDataBus v (enterWriteMode (setAddress a s))))).PORTC ||| 0b00000101)
        (delayMicroseconds 1
          (writePORTC ((writeDataBus v (enterWriteMode (setAddress a s))).PORTC &&& 0b11111010)
            (writeDataBus v (enterWriteMode (setAddress a s)))))) := rfl
  have hlatch : (enterWriteMode (setAddress a s)).addrLatch = a % 65536 := by
    rw [(enterWriteMode_frame _).2.2.2.2.2.2.1, hsp.2.2.1]
  rw [hdef, key]
  show opsOf (Ev.delayUs DELAY_MICROS ::
      Ev.store ((enterWriteMode (setAddress a s)).addrLatch % 0x8000) v ::
      Ev.delayUs 1 :: (enterWriteMode (setAddress a s)).log) = _
  rw [hlog, hlatch, hsp.2.2.1, hsp.2.2.2, hf.2.2.2.2.2.2.2.2.2.2.2.1, hpb]
  by_cases hp : writePulse s.PORTC = true
  · simp [hp, opsOf_cons, opsOf_append, opsOf_shifts, isLoadOp, DELAY_MICROS]
  · simp [hp, opsOf_cons, opsOf_append, opsOf_shifts, isLoadOp, DELAY_MICROS]

theorem afterFirst_nil (l : List Ev) : afterFirst [] l = l := by
  cases l <;> rfl

theorem afterFirst_append (x l1 l2 : List Ev) (h : l1 ≠ []) :
    afterFirst x (l1 ++ l2) = afterFirst x l1 ++ l2 := by
  cases l1 with
  | nil => exact absurd rfl h
  | cons e l => simp [afterFirst]

theorem flatMap_range_succ (f : Nat → List Ev) (n : Nat) :
    (List.range (n + 1)).flatMap f = f 0 ++ (List.range n).flatMap (fun j => f (j + 1)) := by
  simp only [List.range_succ_eq_map, List.flatMap, List.map_cons, List.map_map,
    List.flatten_cons]
  rfl

theorem flatMap_range_congr (f g : Nat → List Ev) (n : Nat) (h : ∀ j, j < n → f j = g j) :
    (List.range n).flatMap f = (List.range n).flatMap g := by
  unfold List.flatMap
  congr 1
  apply List.map_congr_left
  intro j hj
  exact h j (List.mem_range.mp hj)

theorem opsOf_delayMicroseconds_1 (s : State) : opsOf (delayMicroseconds 1 s).log = opsOf s.log := by
  show opsOf (Ev.delayUs 1 :: s.log) = _
  rw [opsOf_cons]; simp [isLoadOp]

theorem writePulse_rest (s : State) (h : bitRead s.PORTC 0 = 1) : writePulse s.PORTC = false := by
  simp [writePulse, h]

/-- The byte writes of a page, between two commands, on the bus. -/
theorem writeChipPageLoop_ops (address : Nat) (data : Buf) (n : Nat) : ∀ (idx : Nat)
    (s : State), AtRest s → (∀ i, idx ≤ i → i < idx + n → data i < 256) →
    opsOf (writeChipPageLoop address data n idx s).log =
      opsOf s.log ++ (List.range n).flatMap (fun j => byteOps address data (idx + j)) := by
  induction n with
  | zero => intro idx s _ _; simp [writeChipPageLoop]
  | succ n ih =>
    intro idx s hs hdata
    have hv := hdata idx (le_refl _) (by omega)
    have hw := writeChipByte_spec ((address + idx) % 65536) (data idx) s
      (by rw [hs.1]; decide) hs.2.1 hv
    have hr : AtRest (delayMicroseconds 1
        (writeChipByte ((address + idx) % 65536) (data idx) s)) :=
      ⟨hw.1, hw.2.2.2.2.2.2.2.1, hw.2.2.2.2.2.2.2.2.2.1, hw.2.2.2.2.2.2.2.2.2.2.2.1⟩
    have h := ih (idx + 1) _ hr (fun i h1 h2 => hdata i (by omega) (by omega))
    have hl := writeChipByte_ops ((address + idx) % 65536) (data idx) s
      (by rw [hs.1]; decide) hs.2.1 hv
    rw [if_neg (by rw [writePulse_rest s hs.2.2.1]; decide)] at hl
    rw [writeChipPageLoop, h, opsOf_delayMicroseconds_1, hl, flatMap_range_succ,
      List.append_assoc]
    congr 1
    simp only [byteOps, Nat.add_zero, Nat.mod_mod, List.nil_append, List.cons_append]
    congr 3
    funext j
    have e : idx + 1 + j = idx + (j + 1) := by omega
    rw [e]

/-- The byte writes of a non-empty page, whatever the control lines were before. -/
theorem writeChipPageLoop_first (address : Nat) (data : Buf) (m : Nat) (s : State)
    (hm : s.mode ≠ MODE.WRITE) (hclk : ClocksIdle s) (hdata : ∀ i, i < m + 1 → data i < 256) :
    AtRest (writeChipPageLoop address data (m + 1) 0 s) ∧
      (writeChipPageLoop address data (m + 1) 0 s).status = s.status ∧
      (writeChipPageLoop address data (m + 1) 0 s).rx = s.rx ∧
      (writeChipPageLoop address data (m + 1) 0 s).tx = s.tx ∧
      (writeChipPageLoop address data (m + 1) 0 s).stack = s.stack ∧
      (writeChipPageLoop address data (m + 1) 0 s).chip.busy = s.chip.busy ∧
      opsOf (writeChipPageLoop address data (m + 1) 0 s).log = opsOf s.log ++
        afterFirst (if writePulse s.PORTC = true then
            [Ev.store (address % 65536 % 0x8000) (portByte s)] else [])
          ((List.range (m + 1)).flatMap (fun j => byteOps address data j)) := by
  have hv := hdata 0 (by omega)
  have hw := writeChipByte_spec ((address + 0) % 65536) (data 0) s hm hclk hv
  have hr : AtRest (delayMicroseconds 1
      (writeChipByte ((address + 0) % 65536) (data 0) s)) :=
    ⟨hw.1, hw.2.2.2.2.2.2.2.1, hw.2.2.2.2.2.2.2.2.2.1, hw.2.2.2.2.2.2.2.2.2.2.2.1⟩
  have h := writeChipPageLoop_rest address data m 1 _ hr
    (fun i h1 h2 => hdata i (by omega))
  have ho := writeChipPageLoop_ops address data m 1 _ hr
    (fun i h1 h2 => hdata i (by omega))
  have hl := writeChipByte_ops ((address + 0) % 65536) (data 0) s hm hclk hv
  have hdef : writeChipPageLoop address data (m + 1) 0 s =
      writeChipPageLoop address data m 1
        (delayMicroseconds 1 (writeChipByte ((address + 0) % 65536) (data 0) s)) := rfl
  rw [hdef]
  refine ⟨h.1, ?_, ?_, ?_, ?_, ?_, ?_⟩
  · rw [h.2.1]; exact hw.2.1
  · rw [h.2.2.1]; exact hw.2.2.1
  · rw [h.2.2.2.1]; exact hw.2.2.2.1
  · rw [h.2.2.2.2.1]; exact hw.2.2.2.2.1
  · rw [h.2.2.2.2.2]; exact hw.2.2.2.2.2.1
  · rw [ho, opsOf_delayMicroseconds_1, hl, flatMap_range_succ, List.append_assoc]
    congr 1
    simp only [byteOps, Nat.add_zero, Nat.mod_mod, afterFirst, List.cons_append,
      List.append_assoc, List.nil_append]
    congr 3
    apply flatMap_range_congr
    intro j _
    have e : 1 + j = j + 1 := by omega
    rw [e]

/-- On a chip that is not inside a write cycle, `writeChipPage` of a non-empty page returns
with the bus at rest: the bytes have been written in ascending order, then the
write-completion wait has taken its three samples. -/
theorem writeChipPage_ops (address : Nat) (data : Buf) (n fuel : Nat) (s : State)
    (hfuel : 0 < fuel) (hn : 0 < n) (hm : s.mode ≠ MODE.WRITE) (hclk : ClocksIdle s)
    (hidle : ChipIdle s) (hdata : ∀ i, i < n → data i < 256) :
    ∃ t, writeChipPage address data n fuel s = some t ∧ AtRest t ∧ ChipIdle t ∧
      t.status = s.status ∧ t.rx = s.rx ∧ t.tx = s.tx ∧
      opsOf t.log = opsOf s.log ++
        afterFirst (if writePulse s.PORTC = true then
            [Ev.store (address % 65536 % 0x8000) (portByte s)] else [])
          ((List.range n).flatMap (fun j => byteOps address data j)) ++
        List.replicate 6 (Ev.delayUs 2) := by
  obtain ⟨m, rfl⟩ : ∃ m, n = m + 1 := ⟨n - 1, by omega⟩
  obtain ⟨h, hst, hrx, htx, -, hbusy, hops⟩ :=
    writeChipPageLoop_first address data m s hm hclk hdata
  have hi : ChipIdle (delay 1 (writeChipPageLoop address data (m + 1) 0 s)) := by
    intro k
    show (writeChipPageLoop address data (m + 1) 0 s).chip.busy k = none
    rw [hbusy]; exact hidle k
  have e := waitForChip_idle fuel (delay 1 (writeChipPageLoop address data (m + 1) 0 s)) hfuel
    h.1 hi h.2.2.1 h.2.2.2
  refine ⟨_, e, ⟨h.1, h.2.1, ?_, ?_⟩, hi, hst, hrx, htx, ?_⟩
  · simp +decide [bitRead_or, bitRead_and]
  · simp +decide [bitRead_or, bitRead_and]
  · show opsOf (Ev.delayUs 2 :: Ev.delayUs 2 :: Ev.delayUs 2 :: Ev.delayUs 2 ::
        Ev.delayUs 2 :: Ev.delayUs 2 :: Ev.delayMs 1 ::
        (writeChipPageLoop address data (m + 1) 0 s).log) = _
    simp only [opsOf_cons, hops]
    simp [isLoadOp, List.replicate]

/-! ## Loading the chip: the loop of `loadChip` -/

/-- What `receivePacket` hands to `loadChip` for a complete chunk of at most 64 bytes. -/
theorem receivePacket_chunk (packet : Buf) (s : State) (c : List Nat)
    (tl : List (Option Nat)) (hrx : s.rx = some c.length :: (c.map some ++ tl))
    (hpos : 0 < c.length) (hlen : c.length ≤ 64) :
    receivePacket packet (MAX_PAYLOAD_SIZE + 1) false s =
      some ((c.length : Int), storeBytes packet c, { s with rx := tl }) := by
  have hmin : min c.length (MAX_PAYLOAD_SIZE + 1) = c.length := Nat.min_eq_left hlen
  have hrx0 : s.rx = List.replicate 0 none ++ some c.length :: (c.map some ++ tl) := by
    simpa using hrx
  rw [receivePacket_eq _ _ false s 0 _ _ hrx0, hmin, readBytes_full c.length c tl (le_refl _)]
  simp [hpos]

theorem storeBytes_lt (packet : Buf) (c : List Nat) (i : Nat) (hi : i < c.length) :
    storeBytes packet c i = c.getD i 0 := by
  simp [storeBytes, List.getD_eq_getElem?_getD, List.getElem?_eq_getElem hi]

theorem getD_lt_256 (c : List Nat) (hc : ∀ b, b ∈ c → b < 256) (i : Nat) (hi : i < c.length) :
    c.getD i 0 < 256 := by
  rw [List.getD_eq_getElem?_getD, List.getElem?_eq_getElem hi]
  exact hc _ (List.getElem_mem _)

theorem storeBytes_data_lt (packet : Buf) (pl : List Nat) (hp : ∀ i, packet i < 256)
    (hpl : ∀ b, b ∈ pl → b < 256) (i : Nat) : storeBytes packet pl i < 256 := by
  by_cases hi : i < pl.length
  · rw [storeBytes_lt _ _ _ hi]; exact getD_lt_256 pl hpl i hi
  · have : storeBytes packet pl i = packet i := by
      simp [storeBytes, List.getD_eq_getElem?_getD, List.getElem?_eq_none (not_lt.mp hi)]
    rw [this]; exact hp i

/-- One round of the loop of `loadChip`: a packet is received, a page of its length (taken
as an `unsigned int`) is written, an empty ack is sent and the index moves on. -/
theorem loadChipLoop_step (length fuel n idx : Nat) (packet : Buf) (s : State) (len : Int)
    (buf : Buf) (u : State) (m : Nat) (w : State) (hlt : idx < length)
    (hr : receivePacket packet (MAX_PAYLOAD_SIZE + 1) false s = some (len, buf, u))
    (hm : (len % 65536).toNat = m) (hw : writeChipPage idx buf m fuel u = some w) :
    loadChipLoop length fuel (n + 1) idx packet s =
      loadChipLoop length fuel n (((idx : Int) + len) % 65536).toNat buf
        (sendAckPacket w).2 := by
  rw [loadChipLoop, if_pos hlt, hr]
  simp only [hm, hw]

/-- The loop of `loadChip` ends when the index has reached the length. -/
theorem loadChipLoop_exit (length fuel n idx : Nat) (packet : Buf) (s : State)
    (hge : ¬ idx < length) : loadChipLoop length fuel (n + 1) idx packet s = some s := by
  rw [loadChipLoop, if_neg hge]

/-- The loop of `loadChip` when its first chunk is corrupt: the -1 returned by
`receivePacket` becomes the page length 65535 and the running index 65535, so that the page
is written and acknowledged and the loop then ends. -/
theorem loadChipLoop_corrupt (length fuel n : Nat) (packet : Buf) (s : State) (L : Nat)
    (pl : List Nat) (tl : List (Option Nat)) (hs : AtRest s) (hidle : ChipIdle s)
    (hfuel : 0 < fuel) (hn : 2 ≤ n) (hlen : 0 < length) (h16 : length < 65536)
    (hjunk : ∀ i, packet i < 256) (hpl : ∀ b, b ∈ pl → b < 256)
    (hrx : s.rx = some L :: (pl.map some ++ tl)) (hL : L ≤ 64) (hshort : pl.length < L)
    (hgap : ∀ b, tl.head? ≠ some (some b)) :
    ∃ t, loadChipLoop length fuel n 0 packet s = some t ∧ t.status = STATUS.ERR_CORRUPT ∧
      writesOf t.log = writesOf s.log ++
        (List.range 65535).map (fun i => (i % 0x8000, pl.getD i (packet i))) ∧
      t.tx = s.tx ++ [0] ∧ t.rx = tl.tail := by
  obtain ⟨f, rfl⟩ : ∃ f, n = f + 2 := ⟨n - 2, by omega⟩
  have hLpos : 0 < L := by omega
  have hmin : min L (MAX_PAYLOAD_SIZE + 1) = L := Nat.min_eq_left hL
  have hrx0 : s.rx = List.replicate 0 none ++ some L :: (pl.map some ++ tl) := by
    simpa using hrx
  have erecv : receivePacket packet (MAX_PAYLOAD_SIZE + 1) false s =
      some (-1, storeBytes packet pl,
        { s with rx := tl.tail, status := STATUS.ERR_CORRUPT }) := by
    rw [receivePacket_eq _ _ false _ 0 L _ hrx0, hmin, readBytes_short L pl tl hshort hgap]
    have hne : pl.length ≠ L := Nat.ne_of_lt hshort
    simp [hLpos, hne]
  have etn : ((-1 : Int) % 65536).toNat = 65535 := by decide
  have eidx : ((((0 : Nat) : Int) + (-1 : Int)) % 65536).toNat = 65535 := by decide
  obtain ⟨w, ew, hwr, hwi, hwst, hwrx, hwtx, -, hww⟩ :=
    writeChipPage_writes 0 (storeBytes packet pl) 65535 fuel
      { s with rx := tl.tail, status := STATUS.ERR_CORRUPT } hfuel hs hidle
      (fun i _ => storeBytes_data_lt packet pl hjunk hpl i)
  have hge : ¬ 65535 < length := by omega
  refine ⟨(sendAckPacket w).2, ?_, ?_, ?_, ?_, ?_⟩
  · have st := loadChipLoop_step length fuel (f + 1) 0 packet s (-1) _ _ 65535 w hlen erecv
      etn ew
    have ex := loadChipLoop_exit length fuel f 65535 (storeBytes packet pl)
      (sendAckPacket w).2 hge
    rw [eidx] at st
    exact st.trans ex
  · simp [sendAckPacket, hwst]
  · have hl := writesOf_sendAckPacket w
    have hmap : ∀ l : List Nat,
        l.map (fun j => ((0 + j) % 65536 % 0x8000, storeBytes packet pl j)) =
        l.map (fun i => (i % 0x8000, pl.getD i (packet i))) := by
      intro l
      apply List.map_congr_left
      intro j _
      have e2 : (0 + j) % 65536 % 0x8000 = j % 0x8000 := by omega
      rw [e2]
      rfl
    rw [hl, hww, hmap]
  · simp [sendAckPacket, sendFrame_tx, hwtx]
  · simp [sendAckPacket, hwrx]

theorem writeOps_ne_nil (b : List Nat) (idx n : Nat) (hn : 0 < n) : writeOps b idx n ≠ [] := by
  obtain ⟨m, rfl⟩ : ∃ m, n = m + 1 := ⟨n - 1, by omega⟩
  unfold writeOps
  rw [flatMap_range_succ]
  simp

/-- The loop of `loadChip` over well-formed chunks whose sizes add up to what is left of
`length`, on the bus and the serial link: the bytes of every chunk are written in ascending
order from the running index, the write-completion wait follows, then one empty ack, and the
loop ends after the last chunk. -/
theorem loadChipLoop_ops (length fuel : Nat) (hfuel : 0 < fuel) (h16 : length < 65536)
    (b : List Nat) (rest : List (Option Nat)) (chunks : List (List Nat)) :
    ∀ (n idx : Nat) (packet : Buf) (s : State), s.mode = MODE.STANDBY → ClocksIdle s →
    ChipIdle s → chunks.length < n →
    (∀ c, c ∈ chunks → 0 < c.length ∧ c.length ≤ 64 ∧ ∀ x, x ∈ c → x < 256) →
    idx + chunks.flatten.length = length →
    (∀ j, j < chunks.flatten.length → b.getD (idx + j) 0 = chunks.flatten.getD j 0) →
    s.rx = chunkFrames chunks ++ rest →
    ∃ t, loadChipLoop length fuel n idx packet s = some t ∧
      opsOf t.log = opsOf s.log ++
        afterFirst (if writePulse s.PORTC = true then [Ev.store (idx % 0x8000) (portByte s)]
            else [])
          (loadOps b idx chunks) ∧
      t.tx = s.tx ++ List.replicate chunks.length 0 ∧
      t.rx = rest ∧ t.status = s.status ∧ t.mode = MODE.STANDBY := by
  induction chunks with
  | nil =>
    intro n idx packet s hs _ _ hn _ hidx _ hrx
    obtain ⟨m, rfl⟩ : ∃ m, n = m + 1 := ⟨n - 1, by simp at hn; omega⟩
    have hlt : ¬ idx < length := by simp at hidx; omega
    rw [loadChipLoop, if_neg hlt]
    refine ⟨s, rfl, by simp [loadOps, afterFirst], by simp, ?_, rfl, hs⟩
    simpa [chunkFrames] using hrx
  | cons c cs ih =>
    intro n idx packet s hs hclk hidle hn hch hidx hb hrx
    obtain ⟨m, rfl⟩ : ∃ m, n = m + 1 := ⟨n - 1, by simp at hn; omega⟩
    obtain ⟨hpos, hlen, hbytes⟩ := hch c (List.mem_cons_self _ _)
    have hfl : (c :: cs).flatten.length = c.length + cs.flatten.length := by simp
    have hlt : idx < length := by omega
    have hrx1 : s.rx = some c.length :: (c.map some ++ (chunkFrames cs ++ rest)) := by
      rw [hrx]; simp [chunkFrames]
    have erecv := receivePacket_chunk packet s c _ hrx1 hpos hlen
    have etn : ((c.length : Int) % 65536).toNat = c.length := by omega
    have eidx : (((idx : Int) + (c.length : Int)) % 65536).toNat = idx + c.length := by omega
    obtain ⟨u, eu, hur, hui, hust, hurx, hutx, huo⟩ :=
      writeChipPage_ops idx (storeBytes packet c) c.length fuel
        { s with rx := chunkFrames cs ++ rest } hfuel hpos (by rw [hs]; decide) hclk hidle
        (fun i hi => by rw [storeBytes_lt _ _ _ hi]; exact getD_lt_256 c hbytes i hi)
    have huo : opsOf u.log = opsOf s.log ++
        afterFirst (if writePulse s.PORTC = true then
            [Ev.store (idx % 65536 % 0x8000) (portByte s)] else [])
          ((List.range c.length).flatMap (fun j => byteOps idx (storeBytes packet c) j)) ++
        List.replicate 6 (Ev.delayUs 2) := huo
    obtain ⟨t, et, hto, httx, htrx, htst, htm⟩ := ih m (idx + c.length)
      (storeBytes packet c) (sendAckPacket u).2 hur.1 hur.2.1 hui (by simp at hn; omega)
      (fun c' hc' => hch c' (List.mem_cons_of_mem _ hc')) (by omega)
      (fun j hj => by
        have := hb (c.length + j) (by omega)
        rw [List.flatten_cons, List.getD_append_right _ _ _ _ (by omega)] at this
        have e1 : idx + c.length + j = idx + (c.length + j) := by omega
        have e2 : c.length + j - c.length = j := by omega
        rw [e1, this, e2])
      (by simp [sendAckPacket, hurx])
    have hwp : writePulse (sendAckPacket u).2.PORTC = false := writePulse_rest _ hur.2.2.1
    rw [if_neg (by rw [hwp]; decide), afterFirst_nil] at hto
    refine ⟨t, ?_, ?_, ?_, htrx, ?_, htm⟩
    · have st := loadChipLoop_step length fuel m idx packet s (c.length : Int) _ _ c.length u
        hlt erecv etn eu
      rw [eidx] at st
      exact st.trans et
    · have hwo : (List.range c.length).flatMap
          (fun j => byteOps idx (storeBytes packet c) j) = writeOps b idx c.length := by
        unfold writeOps
        apply flatMap_range_congr
        intro j hj
        have h1 := hb j (by omega)
        rw [List.flatten_cons, List.getD_append _ _ _ _ hj] at h1
        have e1 : (idx + j) % 65536 = idx + j := Nat.mod_eq_of_lt (by omega)
        simp only [byteOps, e1, storeBytes_lt _ _ _ hj, h1]
      have e0 : idx % 65536 % 0x8000 = idx % 0x8000 := by omega
      rw [hto, sendAckPacket_log, opsOf_cons, huo, hwo, e0]
      show _ = opsOf s.log ++ _
      simp only [loadOps, isLoadOp, if_true]
      rw [afterFirst_append _ _ _ (by
        simp [writeOps_ne_nil b idx c.length hpos])]
      rw [afterFirst_append _ _ _ (writeOps_ne_nil b idx c.length hpos)]
      simp [List.append_assoc]
    · rw [httx]
      simp [sendAckPacket, sendFrame_tx, hutx, List.replicate_succ]
    · rw [htst]
      simp [sendAckPacket, hust]

/-! ## The reference variant: the data pins in `write` -/

/-- After the loop of `write` of `dummy-writer.cpp` that loads the data pins, data pin `i`
is high exactly when bit `i` of the address is 1. -/
theorem writeLoop_level (address : Nat) (c : DummyWriter.Board) (i : Nat) (hi : i < 8) :
    (DummyWriter.writeLoop address 8 0 c).level (DummyWriter.DATA_PINS.getD i 0) =
      decide ((address >>> i) &&& 1 ≠ 0) := by
  interval_cases i <;>
    simp [DummyWriter.writeLoop, DummyWriter.digitalWrite, DummyWriter.DATA_PINS]

theorem bit_weight (x k : Nat) : (if x % 2 ≠ 0 then k else 0) = k * (x % 2) := by
  rcases Nat.mod_two_eq_zero_or_one x with h | h <;> simp [h]

/-- The byte on the data bus after that loop is the low byte of the address. -/
theorem writeLoop_dataBus (address : Nat) (c : DummyWriter.Board) :
    DummyWriter.dataBus (DummyWriter.writeLoop address 8 0 c) = address % 256 := by
  unfold DummyWriter.dataBus
  have h : ∀ i, i < 8 →
      (if (DummyWriter.writeLoop address 8 0 c).level (DummyWriter.DATA_PINS.getD i 0) = true
        then 2 ^ i else 0) = 2 ^ i * ((address / 2 ^ i) % 2) := by
    intro i hi
    rw [writeLoop_level address c i hi, ← bit_weight]
    simp [Nat.shiftRight_eq_div_pow, Nat.and_one_is_mod]
  simp only [List.range_succ, List.range_zero, List.nil_append, List.cons_append, List.map_cons,
    List.map_nil, List.sum_cons, List.sum_nil]
  rw [h 0 (by norm_num), h 1 (by norm_num), h 2 (by norm_num), h 3 (by norm_num),
    h 4 (by norm_num), h 5 (by norm_num), h 6 (by norm_num), h 7 (by norm_num)]
  norm_num
  omega

/-! ## Write completion: the levels on return -/

/-- C15, the code: whenever `waitForChip` returns, `mode` is `STANDBY` and CE and WE are
high; but when it was called in Standby mode, as everywhere in the firmware, the
`enterStandbyMode()` at its end does nothing and OE is left high, not at its Standby level,
with the pin directions of port D untouched.  Only when called in another mode does it
leave OE low and the data pins as inputs. -/
theorem C15_waitForChip_leaves_OE_high (fuel : Nat) (s t : State)
    (h : waitForChip fuel s = some t) :
    t.mode = MODE.STANDBY ∧ bitRead t.PORTC 2 = 1 ∧ bitRead t.PORTC 0 = 1 ∧
    (s.mode = MODE.STANDBY →
      bitRead t.PORTC 1 = 1 ∧ t.DDRD = s.DDRD ∧ t.DDRB = s.DDRB &&& 0b11111110) ∧
    (s.mode ≠ MODE.STANDBY →
      bitRead t.PORTC 1 = 0 ∧ t.DDRD &&& 0b11111100 = 0 ∧ t.DDRB &&& 0b00000011 = 0) := by
  rw [waitForChip_eq] at h
  cases hl : waitForChipLoop fuel (pollStart s) with
  | none => rw [hl] at h; cases h
  | some u =>
    rw [hl] at h
    have ht : enterStandbyMode u = t := by simpa using h
    have hu := waitForChipLoop_regs fuel _ u hl
    have hp := pollStart_regs s
    have hu0 : bitRead u.PORTC 0 = 1 := hu.2.2.2.2.2.2.2.2.trans hp.2.2.2.2.2.2.1
    by_cases hm : s.mode = MODE.STANDBY
    · have hum : u.mode = MODE.STANDBY := (hu.1.trans hp.1).trans hm
      rw [enterStandbyMode_same u hum] at ht
      subst ht
      refine ⟨hum, hu.2.2.2.2.2.2.2.1, hu0, fun _ => ⟨hu.2.2.2.2.2.2.1, ?_, ?_⟩,
        fun hne => absurd hm hne⟩
      · rw [hu.2.2.2.1, hp.2.2.2.1]
      · rw [hu.2.2.1, hp.2.2.1]
    · have hum : u.mode ≠ MODE.STANDBY := by rw [hu.1, hp.1]; exact hm
      obtain ⟨hD, hB, hC, -⟩ := enterStandbyMode_regs u hum
      subst ht
      rw [hD, hB, hC]
      refine ⟨rfl, ?_, ?_, fun he => absurd he hm,
        fun _ => ⟨?_, (ddr_masks_d _).2, (ddr_masks_b _).2⟩⟩ <;>
      simp +decide [bitRead_or, bitRead_and]

theorem C15_waitForChip_leaves_OE_high_witness :
    ∃ t, waitForChip 1 (bootState []) = some t ∧
      t.mode = MODE.STANDBY ∧ bitRead t.PORTC 2 = 1 ∧ bitRead t.PORTC 0 = 1 ∧
      bitRead t.PORTC 1 = 1 ∧ t.PORTC = 0b00000111 :=
  ⟨_, waitForChip_idle 1 (bootState []) (by decide) rfl (fun _ => rfl) (by decide) (by decide),
    (C15_waitForChip_leaves_OE_high 1 (bootState []) _
      (waitForChip_idle 1 (bootState []) (by decide) rfl (fun _ => rfl) (by decide)
        (by decide))).1,
    (C15_waitForChip_leaves_OE_high 1 (bootState []) _
      (waitForChip_idle 1 (bootState []) (by decide) rfl (fun _ => rfl) (by decide)
        (by decide))).2.1,
    (C15_waitForChip_leaves_OE_high 1 (bootState []) _
      (waitForChip_idle 1 (bootState []) (by decide) rfl (fun _ => rfl) (by decide)
        (by decide))).2.2.1,
    ((C15_waitForChip_leaves_OE_high 1 (bootState []) _
      (waitForChip_idle 1 (bootState []) (by decide) rfl (fun _ => rfl) (by decide)
        (by decide))).2.2.2.1 rfl).1,
    by decide⟩

/-! ## Write completion: the claim on the rounds -/

/-- With WE and CE high, `enterStandbyMode` neither stores a byte nor ends a read strobe. -/
theorem enterStandbyMode_chip (s : State) (h0 : bitRead s.PORTC 0 = 1)
    (h2 : bitRead s.PORTC 2 = 1) : (enterStandbyMode s).chip = s.chip := by
  by_cases hm : s.mode = MODE.STANDBY
  · rw [enterStandbyMode_same s hm]
  · rw [enterStandbyMode_rest s hm h0 h2]

/-- Round `k`, counted from 1, in terms of read strobes. -/
theorem RoundAgrees_iff (s : State) (k : Nat) (hk : 0 < k) :
    RoundAgrees s k ↔
      (pollBit (pollStart s) ((pollStart s).chip.strobes + 3 * (k - 1)) =
        pollBit (pollStart s) ((pollStart s).chip.strobes + 3 * (k - 1) + 1) ∧
       pollBit (pollStart s) ((pollStart s).chip.strobes + 3 * (k - 1) + 1) =
        pollBit (pollStart s) ((pollStart s).chip.strobes + 3 * (k - 1) + 2)) := by
  unfold RoundAgrees pollSample
  have e1 : (pollStart s).chip.strobes + (3 * k - 2 - 1) =
      (pollStart s).chip.strobes + 3 * (k - 1) := by omega
  have e2 : (pollStart s).chip.strobes + (3 * k - 1 - 1) =
      (pollStart s).chip.strobes + 3 * (k - 1) + 1 := by omega
  have e3 : (pollStart s).chip.strobes + (3 * k - 1) =
      (pollStart s).chip.strobes + 3 * (k - 1) + 2 := by omega
  rw [e1, e2, e3]

/-- C20: `waitForChip` takes its samples of `PINB & 1` in rounds of three and returns at the
end of the first round whose three samples are equal: when `k ≥ 1` is the least round with
samples `3k-2`, `3k-1` and `3k` equal, it returns (given at least `k` rounds of fuel) after
exactly `3k` read strobes; and for every sample stream that is constant from some sample on
it returns. -/
theorem C20_waitForChip_rounds (s : State) :
    (∀ k fuel, 0 < k → k ≤ fuel → RoundAgrees s k →
      (∀ j, 0 < j → j < k → ¬ RoundAgrees s j) →
      ∃ t, waitForChip fuel s = some t ∧
        t.chip.strobes = (pollStart s).chip.strobes + 3 * k) ∧
    ((∃ N c, ∀ j, N ≤ j → pollSample s j = c) → ∃ fuel t, waitForChip fuel s = some t) := by
  have hp := pollStart_regs s
  have part1 : ∀ k fuel, 0 < k → k ≤ fuel → RoundAgrees s k →
      (∀ j, 0 < j → j < k → ¬ RoundAgrees s j) →
      ∃ t, waitForChip fuel s = some t ∧
        t.chip.strobes = (pollStart s).chip.strobes + 3 * k := by
    intro k fuel hk hf hag hleast
    rw [RoundAgrees_iff s k hk] at hag
    obtain ⟨u, hu, hus⟩ := waitForChipLoop_rounds (k - 1) fuel (pollStart s) (by omega)
      hp.2.2.2.2.2.2.1 hp.2.2.2.2.2.2.2.2
      (by
        intro j hj hcon
        apply hleast (j + 1) (by omega) (by omega)
        rw [RoundAgrees_iff s (j + 1) (by omega)]
        exact hcon)
      hag.1 hag.2
    have hr := waitForChipLoop_regs fuel _ u hu
    refine ⟨enterStandbyMode u, ?_, ?_⟩
    · rw [waitForChip_eq, hu]; rfl
    · rw [enterStandbyMode_chip u (hr.2.2.2.2.2.2.2.2.trans hp.2.2.2.2.2.2.1)
        hr.2.2.2.2.2.2.2.1, hus]
      omega
  refine ⟨part1, ?_⟩
  rintro ⟨N, c, hc⟩
  classical
  have hex : ∃ k, 0 < k ∧ RoundAgrees s k := by
    refine ⟨N + 1, by omega, ?_⟩
    unfold RoundAgrees
    rw [hc _ (by omega), hc _ (by omega), hc _ (by omega)]
    exact ⟨rfl, rfl⟩
  obtain ⟨t, ht, -⟩ := part1 (Nat.find hex) (Nat.find hex) (Nat.find_spec hex).1 (le_refl _)
    (Nat.find_spec hex).2
    (fun j hj0 hj hcon => Nat.find_min hex hj ⟨hj0, hcon⟩)
  exact ⟨_, t, ht⟩

theorem C20_waitForChip_rounds_witness :
    ∃ t, waitForChip 2 (busyState [0x40, 0x00, 0x40]) = some t ∧
      t.chip.strobes = (pollStart (busyState [0x40, 0x00, 0x40])).chip.strobes + 3 * 2 :=
  (C20_waitForChip_rounds (busyState [0x40, 0x00, 0x40])).1 2 2 (by decide) (by decide)
    ⟨by decide, by decide⟩
    (fun j h1 h2 hag => by
      have hj : j = 1 := by omega
      subst hj
      exact absurd hag.1 (by decide))

/-! ## The mode after each command: the claim -/

/-- C16: started in mode `STANDBY`, whenever the body of `loop()` returns after handling
one frame (a read, a dump with whatever the host replies, a write, a load, a reset, the 0x74
test command, an invalid frame, a corrupt frame or an empty frame), the mode is `STANDBY`
again. -/
theorem C16_loop_body_returns_to_standby (fuel : Nat) (s t : State)
    (hm : s.mode = MODE.STANDBY) (h : loopBody fuel s = some t) : t.mode = MODE.STANDBY := by
  unfold loopBody at h
  cases hr : receivePacket s.stack.junk (MAX_PAYLOAD_SIZE + 1) false s with
  | none => rw [hr] at h; cases h
  | some p =>
    obtain ⟨len, buf, u⟩ := p
    rw [hr] at h
    simp only [] at h
    cases hd : dispatch buf len fuel (digitalWriteLED true u) with
    | none => rw [hd] at h; cases h
    | some w =>
      rw [hd] at h
      cases h
      have hu : (digitalWriteLED true u).mode = MODE.STANDBY := by
        rw [digitalWriteLED_true]
        exact (receivePacket_mode _ _ _ _ _ _ _ hr).trans hm
      have hw := dispatch_mode buf len fuel _ w hu hd
      rw [digitalWriteLED_false]
      exact hw

theorem C16_loop_body_returns_to_standby_witness :
    ∃ t, loopBody 1 (bootState [some 4, some 0x77, some 0x00, some 0x10, some 0xAB]) =
        some t ∧ t.mode = MODE.STANDBY := by
  obtain ⟨t, e, -⟩ := loopBody_write_command 1 0x00 0x10 0xAB
    (bootState [some 4, some 0x77, some 0x00, some 0x10, some 0xAB]) 0 [] (by decide)
    (by decide) (by decide) (by decide) ⟨rfl, ⟨by decide, by decide⟩, by decide, by decide⟩
    (fun _ => rfl) rfl
  exact ⟨t, e, C16_loop_body_returns_to_standby 1
    (bootState [some 4, some 0x77, some 0x00, some 0x10, some 0xAB]) t rfl e⟩

/-! ## Loading the chip: the claims -/

/-- C14, the code: when the first chunk of a load is corrupt (its length byte `L ≤ 64`
declares more bytes than arrive before the read deadline), `loadChip` does end with status
`ERR_CORRUPT`, but it does not abort: the -1 returned by `receivePacket` becomes the
unsigned page length 65535, so that the EEPROM sees 65535 byte writes, from address 0 on, of
the bytes that did arrive followed by whatever the memory behind them holds, and a second
empty ack is sent. -/
theorem C14_loadChip_corrupt_chunk_is_written (length fuel : Nat) (s : State) (L : Nat)
    (pl : List Nat) (tl : List (Option Nat)) (hs : AtRest s) (hidle : ChipIdle s)
    (hfuel : 2 ≤ fuel) (hlen : 0 < length) (h16 : length < 65536)
    (hjunk : ∀ i, s.stack.junk i < 256) (hpl : ∀ b, b ∈ pl → b < 256)
    (hrx : s.rx = some L :: (pl.map some ++ tl)) (hL : L ≤ 64) (hshort : pl.length < L)
    (hgap : ∀ b, tl.head? ≠ some (some b)) :
    ∃ t, loadChip length fuel s = some t ∧ t.status = STATUS.ERR_CORRUPT ∧
      writesOf t.log = writesOf s.log ++
        (List.range 65535).map (fun i => (i % 0x8000, pl.getD i (s.stack.junk i))) ∧
      t.tx = s.tx ++ [0, 0] ∧ t.rx = tl.tail := by
  obtain ⟨t, et, hst, hw, htx, hrx1⟩ := loadChipLoop_corrupt length fuel fuel s.stack.junk
    (sendAckPacket s).2 L pl tl hs hidle (by omega) hfuel hlen h16 hjunk hpl
    (by simpa [sendAckPacket] using hrx) hL hshort hgap
  refine ⟨t, et, hst, ?_, ?_, hrx1⟩
  · rw [hw]
    have hl := writesOf_sendAckPacket s
    rw [hl]
  · rw [htx]
    simp [sendAckPacket, sendFrame_tx]

theorem C14_loadChip_corrupt_chunk_is_written_witness :
    ∃ t, loadChip 2 2 (bootState [some 2, some 0xAA, none]) = some t ∧
      t.status = STATUS.ERR_CORRUPT ∧
      writesOf t.log = writesOf (bootState [some 2, some 0xAA, none]).log ++
        (List.range 65535).map (fun i => (i % 0x8000,
          [0xAA].getD i ((bootState [some 2, some 0xAA, none]).stack.junk i))) ∧
      t.tx = (bootState [some 2, some 0xAA, none]).tx ++ [0, 0] ∧
      t.rx = [none].tail :=
  C14_loadChip_corrupt_chunk_is_written 2 2 (bootState [some 2, some 0xAA, none]) 2 [0xAA]
    [none] ⟨rfl, ⟨by decide, by decide⟩, by decide, by decide⟩ (fun _ => rfl) (by decide)
    (by decide) (by decide) (fun _ => show (0 : Nat) < 256 by decide) (by decide) rfl
    (by decide) (by decide) (by simp)

/-! ## The reference variant: the claim -/

/-- C18, the code: `write(address, value)` of `dummy-writer.cpp` never reads `value`.  The
loop that loads the data pins takes its bits from `address`, so that in the state in which
write-enable is pulsed data pin `DATA_PINS[i]` is high exactly when bit `i` of the address is
1 and the data bus carries the low byte of the address, whatever `value` is; the
`writeChipByte(address, value)` of `controller.cpp`, between two commands, has the EEPROM
store `value`. -/
theorem C18_dummy_write_drives_address_bits (address value : Nat) (b : DummyWriter.Board) :
    ∃ x, DummyWriter.write address value b =
        DummyWriter.enterStandbyMode (DummyWriter.pulsePin DummyWriter.EEPROM_WE false x) ∧
      (∀ i, i < 8 → x.level (DummyWriter.DATA_PINS.getD i 0) =
        decide ((address >>> i) &&& 1 ≠ 0)) ∧
      DummyWriter.dataBus x = address % 256 ∧
      (∀ value2, DummyWriter.write address value2 b = DummyWriter.write address value b) ∧
      (∀ s, AtRest s → value < 256 →
        writesOf (writeChipByte address value s).log =
          writesOf s.log ++ [(address % 65536 % 0x8000, value)]) :=
  ⟨DummyWriter.delayMicroseconds DummyWriter.DELAY_MICROS
      (DummyWriter.writeLoop address 8 0
        (DummyWriter.enterWriteMode (DummyWriter.setAddressPins address b))),
    rfl,
    fun i hi => writeLoop_level address _ i hi,
    writeLoop_dataBus address _,
    fun _ => rfl,
    fun s hs hv => writeChipByte_writes address value s hs hv⟩

theorem C18_dummy_write_drives_address_bits_witness :
    ∃ x, DummyWriter.write 0x10 0xAB DummyWriter.restBoard =
        DummyWriter.enterStandbyMode (DummyWriter.pulsePin DummyWriter.EEPROM_WE false x) ∧
      DummyWriter.dataBus x = 0x10 ∧
      writesOf (writeChipByte 0x10 0xAB (bootState [])).log =
        writesOf (bootState []).log ++ [(0x10, 0xAB)] := by
  obtain ⟨x, h1, -, h3, -, h5⟩ :=
    C18_dummy_write_drives_address_bits 0x10 0xAB DummyWriter.restBoard
  exact ⟨x, h1, h3, h5 (bootState []) ⟨rfl, ⟨by decide, by decide⟩, by decide, by decide⟩
    (by decide)⟩

/-! ## Packet transport: the buffer bound -/

/-- `Serial.readBytes(buffer, n)` never returns more than `n` bytes. -/
theorem readBytes_length_le (n : Nat) : ∀ r : List (Option Nat), (readBytes n r).1.length ≤ n := by
  induction n with
  | zero => intro r; simp [readBytes]
  | succ n ih =>
    intro r
    cases r with
    | nil => simp [readBytes]
    | cons x r =>
      cases x with
      | none => simp [readBytes]
      | some b =>
        have := ih r
        simp [readBytes]
        omega

/-- When `Serial.readBytes(buffer, n)` returns `n` bytes, they are the next `n` bytes of the
stream. -/
theorem readBytes_exact (n : Nat) : ∀ r : List (Option Nat), (readBytes n r).1.length = n →
    r = (readBytes n r).1.map some ++ (readBytes n r).2 := by
  induction n with
  | zero => intro r _; simp [readBytes]
  | succ n ih =>
    intro r h
    cases r with
    | nil => simp [readBytes] at h
    | cons x r =>
      cases x with
      | none => simp [readBytes] at h
      | some b =>
        have h1 : (readBytes n r).1.length = n := by simpa [readBytes] using h
        have := ih r h1
        simp only [readBytes, List.map_cons, List.cons_append]
        rw [← this]

/-- The bytes stored by `Serial.readBytes` leave the buffer behind them alone. -/
theorem storeBytes_ge (buffer : Buf) (bs : List Nat) (i : Nat) (hi : bs.length ≤ i) :
    storeBytes buffer bs i = buffer i := by
  simp [storeBytes, List.getD_eq_getElem?_getD, List.getElem?_eq_none hi]

/-- The command dispatch of `loop()` reads the packet only at indices below `packetLen`. -/
theorem dispatch_congr (p1 p2 : Buf) (len : Int) (fuel : Nat) (u : State)
    (h : ∀ i : Nat, (i : Int) < len → p1 i = p2 i) :
    dispatch p1 len fuel u = dispatch p2 len fuel u := by
  unfold dispatch
  by_cases h0 : len > 0
  · have e0 : p1 0 = p2 0 := h 0 (by exact_mod_cast h0)
    have ea : 3 ≤ len → argWord p1 = argWord p2 := by
      intro h3
      unfold argWord
      rw [h 1 (by push_cast; omega), h 2 (by push_cast; omega)]
    have e3 : 4 ≤ len → p1 3 = p2 3 := fun h4 => h 3 (by push_cast; omega)
    simp only [h0, if_true, e0]
    by_cases c1 : p2 0 = 0x72 ∧ len = 3
    · rw [if_pos c1, if_pos c1, ea (by omega)]
    · rw [if_neg c1, if_neg c1]
      by_cases c2 : p2 0 = 0x64 ∧ len = 1
      · rw [if_pos c2, if_pos c2]
      · rw [if_neg c2, if_neg c2]
        by_cases c3 : p2 0 = 0x77 ∧ len = 4
        · rw [if_pos c3, if_pos c3, ea (by omega), e3 (by omega)]
        · rw [if_neg c3, if_neg c3]
          by_cases c4 : p2 0 = 0x6c ∧ len = 3
          · rw [if_pos c4, if_pos c4, ea (by omega)]
          · rw [if_neg c4, if_neg c4]
  · rw [if_neg h0, if_neg h0]

/-- C21: `receivePacket` never overruns its buffer.  For every length byte `L`, every
capacity `maxLength` and every stream behind the length byte, it returns; the buffer is
unchanged from index `min(L, maxLength)` on; a result `n ≥ 0` comes only with `n = L ≤
maxLength`, the status untouched and `buffer[0..L)` holding the next `L` bytes of the
stream; and `L > maxLength` gives -1 with `ERR_CORRUPT`.  The command dispatch of `loop()`
in turn depends on the packet only through its indices below `packetLen`. -/
theorem C21_receivePacket_stays_in_buffer (buffer : Buf) (maxLength : Nat) (sendAck : Bool)
    (s : State) (g L : Nat) (r : List (Option Nat))
    (hrx : s.rx = List.replicate g none ++ some L :: r) :
    (∃ n buf t, receivePacket buffer maxLength sendAck s = some (n, buf, t) ∧
      (∀ i, min L maxLength ≤ i → buf i = buffer i) ∧
      (0 ≤ n → n = (L : Int) ∧ L ≤ maxLength ∧ t.status = s.status ∧
        ∃ pl tl, r = pl.map some ++ tl ∧ pl.length = L ∧ (List.range L).map buf = pl ∧
          t.rx = tl) ∧
      (maxLength < L → n = -1 ∧ t.status = STATUS.ERR_CORRUPT)) ∧
    (∀ (p1 p2 : Buf) (len : Int) (fuel : Nat) (u : State),
      (∀ i : Nat, (i : Int) < len → p1 i = p2 i) →
      dispatch p1 len fuel u = dispatch p2 len fuel u) := by
  refine ⟨?_, dispatch_congr⟩
  rw [receivePacket_eq buffer maxLength sendAck s g L r hrx]
  have hle := readBytes_length_le (min L maxLength) r
  by_cases hL : 0 < L
  · by_cases hne : (readBytes (min L maxLength) r).1.length = L
    · have hLm : L ≤ maxLength := by
        have := Nat.min_le_right L maxLength
        omega
      have hmin : min L maxLength = L := Nat.min_eq_left hLm
      have hex := readBytes_exact (min L maxLength) r (by rw [hne, hmin])
      refine ⟨(L : Int), storeBytes buffer (readBytes (min L maxLength) r).1, _,
        by rw [if_pos hL, if_neg (fun h => h hne)], ?_, ?_, ?_⟩
      · intro i hi
        exact storeBytes_ge _ _ _ (le_trans hle hi)
      · intro _
        refine ⟨rfl, hLm, ?_, (readBytes (min L maxLength) r).1,
          (readBytes (min L maxLength) r).2, hex, hne, ?_, ?_⟩
        · cases sendAck <;> simp [sendAckPacket]
        · have := storeBytes_range buffer (readBytes (min L maxLength) r).1
          rw [hne] at this
          exact this
        · cases sendAck <;> simp [sendAckPacket]
      · intro hgt
        omega
    · refine ⟨-1, storeBytes buffer (readBytes (min L maxLength) r).1, _,
        by rw [if_pos hL, if_pos hne], ?_, ?_, ?_⟩
      · intro i hi
        exact storeBytes_ge _ _ _ (le_trans hle hi)
      · intro h
        omega
      · intro _
        exact ⟨rfl, rfl⟩
  · have h0 : L = 0 := by omega
    subst h0
    refine ⟨0, buffer, _, by rw [if_neg hL], fun _ _ => rfl, ?_, ?_⟩
    · intro _
      refine ⟨rfl, Nat.zero_le _, ?_, [], r, by simp, rfl, rfl, ?_⟩
      · cases sendAck <;> simp [sendAckPacket]
      · cases sendAck <;> simp [sendAckPacket]
    · intro h
      omega

theorem C21_receivePacket_stays_in_buffer_witness :
    (∃ n buf t, receivePacket (fun _ => 0) 2 false
        (bootState [some 3, some 0x72, some 0, some 9]) = some (n, buf, t) ∧
      (∀ i, min 3 2 ≤ i → buf i = (fun _ => 0) i) ∧
      (0 ≤ n → n = ((3 : Nat) : Int) ∧ 3 ≤ 2 ∧
        t.status = (bootState [some 3, some 0x72, some 0, some 9]).status ∧
        ∃ pl tl, [some 0x72, some 0, some 9] = pl.map some ++ tl ∧ pl.length = 3 ∧
          (List.range 3).map buf = pl ∧ t.rx = tl) ∧
      (2 < 3 → n = -1 ∧ t.status = STATUS.ERR_CORRUPT)) ∧
    (∀ (p1 p2 : Buf) (len : Int) (fuel : Nat) (u : State),
      (∀ i : Nat, (i : Int) < len → p1 i = p2 i) →
      dispatch p1 len fuel u = dispatch p2 len fuel u) :=
  C21_receivePacket_stays_in_buffer (fun _ => 0) 2 false
    (bootState [some 3, some 0x72, some 0, some 9]) 0 3 [some 0x72, some 0, some 9] rfl

end Eeprommer
